import Mathlib

/-!
goblog: backup / export engine, listing and article validation

A shallow embedding of `internal/service/article.go` and of the parts of
`internal/repository/article.go` and `internal/domain` it relies on.

Conventions of the embedding.

* Go strings are embedded as Lean strings: the sequence of runes a Go
  `for _, r := range s` loop yields is the character sequence of the Lean
  string (an invalid byte yields U+FFFD, which is a character as well).
  `len(s)` is the UTF-8 byte length and `s[:k]` is a byte slice.  A `[]byte`
  holding text is embedded as the string it encodes.
* Go `int` values are embedded as `Int`.
* A Go result `(v, err)` is embedded as `Except Error`; a call on a repository
  takes the state of the storage and returns the state it leaves.
* Collaborators outside the repository (clock, JSON encoder, ZIP writer) are
  parameters, gathered in `Runtime`.
-/

set_option linter.dupNamespace false
set_option maxRecDepth 8000

namespace Goblog

/-! ## domain (internal/domain) -/

/-- A Go slice. -/
abbrev Slice (α : Type) : Type := List α

/-- Errors: the sentinels of `domain/errors.go`, an error of a collaborator
(storage engine, encoder, archive writer) and the errors built by
`fmt.Errorf("<stage>: %w", err)`. -/
inductive Error where
  | ErrNotFound
  | ErrInvalidInput
  | ErrDuplicateResource
  | ErrUnauthorized
  | ErrForbidden
  | ErrInternalError
  | external (msg : String)
  | wrapped (stage : String) (err : Error)
  deriving DecidableEq

deriving instance DecidableEq for Except

/-- The method `Error()`: the message of an error. -/
def Error.Error : Error → String
  | .ErrNotFound => "resource not found"
  | .ErrInvalidInput => "invalid input"
  | .ErrDuplicateResource => "resource already exists"
  | .ErrUnauthorized => "unauthorized"
  | .ErrForbidden => "forbidden"
  | .ErrInternalError => "internal server error"
  | .external msg => msg
  | .wrapped stage err => stage ++ ": " ++ err.Error

/-- The function `errors.Is`: `target` is `err` or is reached from it by
unwrapping. -/
def errorsIs (err target : Error) : Bool :=
  if err = target then true
  else
    match err with
    | .wrapped _ inner => errorsIs inner target
    | _ => false

/-- A `time.Time`: the instant (what ordering compares) and the wall-clock
reading in the value's location (what formatting prints). -/
structure Time where
  UnixNano : Int
  Year : Int
  Month : Nat
  Day : Nat
  Hour : Nat
  Minute : Nat
  Second : Nat
  deriving DecidableEq

/-- The zero value of `time.Time`: January 1, year 1, 00:00:00 UTC. -/
def zeroTime : Time :=
  { UnixNano := -62135596800000000000, Year := 1, Month := 1, Day := 1,
    Hour := 0, Minute := 0, Second := 0 }

/-- Go's `appendInt` of package time: the decimal form of `x`, padded with
leading zeros to `width` digits, after a minus sign when `x` is negative. -/
def appendInt (x : Int) (width : Nat) : String :=
  let digits := Nat.repr x.natAbs
  (if x < 0 then "-" else "")
    ++ String.mk (List.replicate (width - digits.length) '0') ++ digits

/-- The call `t.Format("2006-01-02 15:04:05")`. -/
def Time.Format (t : Time) : String :=
  appendInt t.Year 4 ++ "-" ++ appendInt t.Month 2 ++ "-" ++ appendInt t.Day 2 ++ " "
    ++ appendInt t.Hour 2 ++ ":" ++ appendInt t.Minute 2 ++ ":" ++ appendInt t.Second 2

/-- The verb `%d` of `fmt.Sprintf` on an `int`. -/
def formatInt : Int → String
  | Int.ofNat m => Nat.repr m
  | Int.negSucc m => "-" ++ Nat.repr (m + 1)

/-- The struct `domain.Category`. -/
structure Category where
  ID : Int
  Name : String
  Description : String
  CreatedAt : Time
  UpdatedAt : Time
  deriving DecidableEq

/-- The struct `domain.Tag`. -/
structure Tag where
  ID : Int
  Name : String
  Color : String
  CreatedAt : Time
  UpdatedAt : Time
  deriving DecidableEq

/-- The struct `domain.Article`. -/
structure Article where
  ID : Int
  Title : String
  Content : String
  Summary : String
  Published : Bool
  CreatedAt : Time
  UpdatedAt : Time
  Category : Option Category
  Tags : Slice Tag
  deriving DecidableEq

/-- The struct `domain.ArticleCreateRequest`. -/
structure ArticleCreateRequest where
  Title : String
  Content : String
  Summary : String
  Published : Bool
  CategoryID : Option Int
  TagIDs : Slice Int
  deriving DecidableEq

/-- The struct `domain.QueryParams`. -/
structure QueryParams where
  Page : Int
  Limit : Int
  Published : Option Bool
  Search : String
  deriving DecidableEq

/-- The interface `domain.ArticleRepository` over a storage state `σ`. -/
structure ArticleRepository (σ : Type) where
  Create : Article → σ → Except Error Article × σ
  GetByID : Int → σ → Except Error Article × σ
  Update : Int → Article → σ → Except Error Article × σ
  Delete : Int → σ → Option Error × σ
  ListByCategory : Int → QueryParams → σ → Except Error (Slice Article × Int) × σ
  ListByTag : Int → QueryParams → σ → Except Error (Slice Article × Int) × σ
  List : QueryParams → σ → Except Error (Slice Article × Int) × σ

/-- The interface `domain.CategoryRepository` over a storage state `σ`. -/
structure CategoryRepository (σ : Type) where
  Create : Category → σ → Except Error Category × σ
  GetByID : Int → σ → Except Error Category × σ
  Update : Int → Category → σ → Except Error Category × σ
  Delete : Int → σ → Option Error × σ
  GetByName : String → σ → Except Error Category × σ
  List : σ → Except Error (Slice Category) × σ

/-- The interface `domain.TagRepository` over a storage state `σ`. -/
structure TagRepository (σ : Type) where
  Create : Tag → σ → Except Error Tag × σ
  GetByID : Int → σ → Except Error Tag × σ
  Update : Int → Tag → σ → Except Error Tag × σ
  Delete : Int → σ → Option Error × σ
  GetByName : String → σ → Except Error Tag × σ
  GetByIDs : Slice Int → σ → Except Error (Slice Tag) × σ
  List : σ → Except Error (Slice Tag) × σ


/-! ## repository (internal/repository/article.go)

The ent client (generated code) is not part of the sources at hand; the tables
and the query builder are modelled from the specification's description of the
entity repositories and of the query engine. -/

/-- Modelled from the spec: the generated entity `ent.Category` (Category of the
data model: identity, name, description, timestamps). -/
structure ent.Category where
  ID : Int
  Name : String
  Description : String
  CreatedAt : Time
  UpdatedAt : Time
  deriving DecidableEq

/-- Modelled from the spec: the generated entity `ent.Tag` (Tag of the data
model: identity, name, color, timestamps). -/
structure ent.Tag where
  ID : Int
  Name : String
  Color : String
  CreatedAt : Time
  UpdatedAt : Time
  deriving DecidableEq

/-- Modelled from the spec: the edges of a loaded `ent.Article`, its optional
owning category and its associated tags. -/
structure ent.ArticleEdges where
  Category : Option ent.Category
  Tags : Slice ent.Tag
  deriving DecidableEq

/-- Modelled from the spec: the generated entity `ent.Article` (Article of the
data model) with the edges loaded by `WithCategory().WithTags()`. -/
structure ent.Article where
  ID : Int
  Title : String
  Content : String
  Summary : String
  Published : Bool
  CreatedAt : Time
  UpdatedAt : Time
  Edges : ent.ArticleEdges
  deriving DecidableEq

/-- Modelled from the spec: a stored article, which references its category and
its tags by id ("Category and Tags are referenced by id at write time and
resolved to full objects at read time"). -/
structure ArticleRow where
  ID : Int
  Title : String
  Content : String
  Summary : String
  Published : Bool
  CreatedAt : Time
  UpdatedAt : Time
  CategoryID : Option Int
  TagIDs : Slice Int
  deriving DecidableEq

/-- Modelled from the spec: the persistent storage behind the ent client, the
three tables in insertion order, and the opaque storage error every statement
reports while the engine is failing. -/
structure Store where
  articles : Slice ArticleRow
  categories : Slice ent.Category
  tags : Slice ent.Tag
  failure : Option Error
  deriving DecidableEq

/-- Modelled from the spec: substring semantics of the search filter.
"Case-sensitivity is a repository/storage-engine concern — case-insensitive
substring match is the assumed default behavior": the text is compared without
regard to the case of the letters A-Z, as the `LIKE` of the engine does. -/
def strContains (s sub : String) : Bool :=
  decide (sub.data.map Char.toLower <:+: s.data.map Char.toLower)

/-- Modelled from the spec: the predicate `article.Published(v)`, "restrict
results to that exact boolean value". -/
def ent.article.Published (v : Bool) : ArticleRow → Bool := fun r => r.Published == v

/-- Modelled from the spec: the predicate `article.TitleContains(s)`. -/
def ent.article.TitleContains (v : String) : ArticleRow → Bool := fun r => strContains r.Title v

/-- Modelled from the spec: the predicate `article.ContentContains(s)`. -/
def ent.article.ContentContains (v : String) : ArticleRow → Bool :=
  fun r => strContains r.Content v

/-- Modelled from the spec: the predicate `article.Or(p, q)`, "title OR
content". -/
def ent.article.Or (p q : ArticleRow → Bool) : ArticleRow → Bool := fun r => p r || q r

/-- Modelled from the spec: an `ent.ArticleQuery`, the predicates added by
`Where`, the ordering and the values given to `Offset` and `Limit`. -/
structure ent.ArticleQuery where
  predicates : List (ArticleRow → Bool)
  descCreatedAt : Bool
  offset : Option Int
  limit : Option Int

/-- Modelled from the spec: `client.Article.Query()`. -/
def ent.ArticleQuery.new : ent.ArticleQuery :=
  { predicates := [], descCreatedAt := false, offset := none, limit := none }

/-- Modelled from the spec: `Order(ent.Desc(article.FieldCreatedAt))`. -/
def ent.ArticleQuery.OrderDescCreatedAt (q : ent.ArticleQuery) : ent.ArticleQuery :=
  { q with descCreatedAt := true }

/-- Modelled from the spec: `Where(p)`; the predicates of a query are
conjoined. -/
def ent.ArticleQuery.Where (q : ent.ArticleQuery) (p : ArticleRow → Bool) : ent.ArticleQuery :=
  { q with predicates := q.predicates ++ [p] }

/-- Modelled from the spec: `Offset(n)`. -/
def ent.ArticleQuery.Offset (q : ent.ArticleQuery) (n : Int) : ent.ArticleQuery :=
  { q with offset := some n }

/-- Modelled from the spec: `Limit(n)`. -/
def ent.ArticleQuery.Limit (q : ent.ArticleQuery) (n : Int) : ent.ArticleQuery :=
  { q with limit := some n }

/-- Modelled from the spec: "descending by creation time (ties broken by
repository-native order, stable insertion order preferred)". -/
def sortDescCreatedAt (rows : List ArticleRow) : List ArticleRow :=
  rows.insertionSort (fun a b => b.CreatedAt.UnixNano ≤ a.CreatedAt.UnixNano)

/-- Modelled from the spec: the rows a query matches, in the order of the
query, before offset and limit. -/
def ent.ArticleQuery.matching (q : ent.ArticleQuery) (db : Store) : List ArticleRow :=
  let rows := db.articles.filter (fun r => q.predicates.all (fun p => p r))
  if q.descCreatedAt then sortDescCreatedAt rows else rows

/-- Modelled from the spec: the edges `WithCategory().WithTags()` loads for a
row. -/
def loadEdges (db : Store) (r : ArticleRow) : ent.Article :=
  { ID := r.ID, Title := r.Title, Content := r.Content, Summary := r.Summary,
    Published := r.Published, CreatedAt := r.CreatedAt, UpdatedAt := r.UpdatedAt,
    Edges :=
      { Category :=
          match r.CategoryID with
          | some id => db.categories.find? (fun c => c.ID == id)
          | none => none,
        Tags := db.tags.filter (fun t => r.TagIDs.contains t.ID) } }

/-- Modelled from the spec: `Count(ctx)`, the number of matching rows ("count
total matches under the same filter predicate"). -/
def ent.ArticleQuery.Count (q : ent.ArticleQuery) (db : Store) : Except Error Int :=
  match db.failure with
  | some err => .error err
  | none => .ok (q.matching db).length

/-- Modelled from the spec: `All(ctx)`, "return at most `limit` items starting
at `offset`" of the matching rows, with their edges. -/
def ent.ArticleQuery.All (q : ent.ArticleQuery) (db : Store) : Except Error (Slice ent.Article) :=
  match db.failure with
  | some err => .error err
  | none =>
    let rows := q.matching db
    let rows := match q.offset with
      | some n => rows.drop n.toNat
      | none => rows
    let rows := match q.limit with
      | some n => rows.take n.toNat
      | none => rows
    .ok (rows.map (loadEdges db))

/-- Multiplication of Go `int` values: the product wraps around at 64 bits. -/
def wrapInt64 (x : Int) : Int := (x + 2 ^ 63) % 2 ^ 64 - 2 ^ 63

/-- The method `ArticleRepository.entToDomain` (lines 250-284). -/
def repository.ArticleRepository.entToDomain (entArticle : ent.Article) : Article :=
  { ID := entArticle.ID, Title := entArticle.Title, Content := entArticle.Content,
    Summary := entArticle.Summary, Published := entArticle.Published,
    CreatedAt := entArticle.CreatedAt, UpdatedAt := entArticle.UpdatedAt,
    Category := entArticle.Edges.Category.map (fun cat =>
      ({ ID := cat.ID, Name := cat.Name, Description := cat.Description,
         CreatedAt := cat.CreatedAt, UpdatedAt := cat.UpdatedAt } : Goblog.Category)),
    Tags := entArticle.Edges.Tags.map (fun entTag =>
      ({ ID := entTag.ID, Name := entTag.Name, Color := entTag.Color,
         CreatedAt := entTag.CreatedAt, UpdatedAt := entTag.UpdatedAt } : Goblog.Tag)) }

/-- The method `ArticleRepository.List` (lines 130-171). -/
def repository.ArticleRepository.List (params : QueryParams) (db : Store) :
    Except Error (Slice Article × Int) × Store :=
  let query := ent.ArticleQuery.new.OrderDescCreatedAt
  let query := match params.Published with
    | some published => query.Where (ent.article.Published published)
    | none => query
  let query :=
    if params.Search ≠ "" then
      query.Where (ent.article.Or (ent.article.TitleContains params.Search)
        (ent.article.ContentContains params.Search))
    else query
  match query.Count db with
  | .error err => (.error err, db)
  | .ok total =>
    let query :=
      if params.Page > 0 ∧ params.Limit > 0 then
        let offset := wrapInt64 ((params.Page - 1) * params.Limit)
        (query.Offset offset).Limit params.Limit
      else query
    match query.All db with
    | .error err => (.error err, db)
    | .ok entArticles => (.ok (entArticles.map entToDomain, total), db)

/-! ## repository (internal/repository/category.go) -/

/-- Modelled from the spec: the error of an ent query that expects exactly one
entity; "fails with a NotFound signal when the target id/name is absent; all
other failures propagate as opaque storage errors". -/
inductive ent.QueryError where
  | NotFound
  | NotSingular
  | Storage (err : Error)
  deriving DecidableEq

/-- Modelled from the spec: `ent.IsNotFound(err)`. -/
def ent.IsNotFound : ent.QueryError → Bool
  | .NotFound => true
  | _ => false

/-- Modelled from the spec: the ent error as a Go `error` value, opaque to the
domain unless it is the storage's own error. -/
def ent.QueryError.toError : ent.QueryError → Error
  | .NotFound => .external "ent: entity not found"
  | .NotSingular => .external "ent: entity not singular"
  | .Storage err => err

/-- Modelled from the spec: `client.Category.Query().Where(p).Only(ctx)`. -/
def ent.CategoryOnly (p : ent.Category → Bool) (db : Store) : Except ent.QueryError ent.Category :=
  match db.failure with
  | some err => .error (.Storage err)
  | none =>
    match db.categories.filter p with
    | [] => .error .NotFound
    | [c] => .ok c
    | _ => .error .NotSingular

/-- The method `CategoryRepository.entToDomain`. -/
def repository.CategoryRepository.entToDomain (entCategory : ent.Category) : Goblog.Category :=
  { ID := entCategory.ID, Name := entCategory.Name, Description := entCategory.Description,
    CreatedAt := entCategory.CreatedAt, UpdatedAt := entCategory.UpdatedAt }

/-- The method `CategoryRepository.GetByID` (category.go, lines 37-50). -/
def repository.CategoryRepository.GetByID (id : Int) (db : Store) :
    Except Error Goblog.Category × Store :=
  match ent.CategoryOnly (fun c => c.ID == id) db with
  | .error err =>
    if ent.IsNotFound err then (.error .ErrNotFound, db)
    else (.error err.toError, db)
  | .ok entCategory => (.ok (entToDomain entCategory), db)

/-! ## collaborators of the backup: clock, JSON encoder, ZIP writer -/

/-- One file of a ZIP archive: its name and the bytes written to it. -/
structure ZipEntry where
  Name : String
  Data : String
  deriving DecidableEq

/-- What the archive writer reports: the error of the k-th `Create` call
(counted from 0), the error of a `Write` to the file of the k-th `Create`
call, and the error of `Close`; `none` is success. -/
structure ZipFaults where
  createErr : Nat → Option Error
  writeErr : Nat → Option Error
  closeErr : Option Error

/-- A `zip.Writer` on an in-memory buffer: the files created so far in order of
creation, and the number of `Create` calls made. -/
structure ZipWriter where
  faults : ZipFaults
  dir : List ZipEntry
  created : Nat

/-- The `io.Writer` returned by `Create`: the position of its file in the
archive and the number of the call that created it. -/
structure ZipFile where
  index : Nat
  call : Nat
  deriving DecidableEq

/-- The call `zip.NewWriter(&buf)`. -/
def zipNewWriter (faults : ZipFaults) : ZipWriter :=
  { faults := faults, dir := [], created := 0 }

/-- The method `zip.Writer.Create`: on success a new empty file is added at the
end of the archive; on failure nothing is added. -/
def ZipWriter.Create (w : ZipWriter) (name : String) : Except Error ZipFile × ZipWriter :=
  match w.faults.createErr w.created with
  | some err => (.error err, { w with created := w.created + 1 })
  | none =>
    (.ok { index := w.dir.length, call := w.created },
     { w with dir := w.dir ++ [{ Name := name, Data := "" }], created := w.created + 1 })

/-- Appends `data` to the file at position `i`. -/
def appendAt : List ZipEntry → Nat → String → List ZipEntry
  | [], _, _ => []
  | e :: es, 0, data => { e with Data := e.Data ++ data } :: es
  | e :: es, i + 1, data => e :: appendAt es i data

/-- The method `Write` of a file of the archive: on success the bytes are
appended to the file; on failure the file is left as it is. -/
def ZipWriter.Write (w : ZipWriter) (f : ZipFile) (data : String) : Option Error × ZipWriter :=
  match w.faults.writeErr f.call with
  | some err => (some err, w)
  | none => (none, { w with dir := appendAt w.dir f.index data })

/-- The method `zip.Writer.Close`. -/
def ZipWriter.Close (w : ZipWriter) : Option Error := w.faults.closeErr

/-- The local struct `BackupData` of `BackupAll`. -/
structure BackupData where
  BackupTime : Time
  ArticleCount : Int
  Articles : Slice Article
  deriving DecidableEq

/-- The collaborators of `BackupAll` outside the repository: `time.Now()`,
`json.MarshalIndent(v, "", "  ")` on the manifest and on one article, and the
behaviour of the archive writer. -/
structure Runtime where
  Now : Time
  MarshalIndentBackup : BackupData → Except Error String
  MarshalIndentArticle : Article → Except Error String
  zip : ZipFaults

/-! ## service (internal/service/article.go) -/

/-- The struct `service.ArticleService`. -/
structure ArticleService (σ : Type) where
  articleRepo : ArticleRepository σ
  categoryRepo : CategoryRepository σ
  tagRepo : TagRepository σ

/-! ## sanitizeFilename (service/article.go, lines 240-262) -/

/-- The body of the `switch r` statement of `sanitizeFilename`: the string that
is appended to `safeName` for the rune `r`. -/
def sanitizeRune (r : Char) : String :=
  if r = '/' ∨ r = '\\' ∨ r = ':' ∨ r = '*' ∨ r = '?' ∨ r = '"' ∨ r = '<' ∨ r = '>' ∨ r = '|' then
    "_"
  else if r.toNat < 32 ∨ r.toNat > 126 then
    "_"
  else
    String.singleton r

/-- The `for _, r := range name` loop of `sanitizeFilename`: `safeName` starts
empty and grows by one piece per rune. -/
def sanitizeLoop (name : String) : String :=
  name.data.foldl (fun safeName r => safeName ++ sanitizeRune r) ""

/-- The function `sanitizeFilename`: the loop, then the length limit
`if len(safeName) > 50 { safeName = safeName[:50] }` on bytes. -/
def sanitizeFilename (name : String) : String :=
  let safeName := sanitizeLoop name
  if safeName.utf8ByteSize > 50 then safeName.extract 0 ⟨50⟩ else safeName

/-- The nine characters the specification lists as unsafe in a file name. -/
def unsafeChars : List Char := ['/', '\\', ':', '*', '?', '"', '<', '>', '|']

/-- Printable ASCII in the specification's sense: code 32..126. -/
def isPrintableASCII (c : Char) : Prop := 32 ≤ c.toNat ∧ c.toNat ≤ 126

instance (c : Char) : Decidable (isPrintableASCII c) := by
  unfold isPrintableASCII; infer_instance

/-- The specification's replacement rule for one code point: an unsafe or
non-printable code point becomes an underscore, any other is kept. -/
def specReplace (c : Char) : Char :=
  if c ∈ unsafeChars ∨ ¬ isPrintableASCII c then '_' else c

/-! ## BackupAll (service/article.go, lines 150-237) -/

/-- The archive path of one article:
`fmt.Sprintf("articles/%d_%s.json", article.ID, sanitizeFilename(article.Title))`. -/
def articleFilename (article : Article) : String :=
  "articles/" ++ formatInt article.ID ++ "_" ++ sanitizeFilename article.Title ++ ".json"

/-- One iteration of the loop `for _, article := range articles` of `BackupAll`;
both `continue` statements and the ignored result of `Write` leave the writer
as it is at that point. -/
def backupArticle (rt : Runtime) (zipWriter : ZipWriter) (article : Article) : ZipWriter :=
  let filename := articleFilename article
  match zipWriter.Create filename with
  | (.error _, zipWriter) => zipWriter
  | (.ok articleFile, zipWriter) =>
    match rt.MarshalIndentArticle article with
    | .error _ => zipWriter
    | .ok articleData => (zipWriter.Write articleFile articleData).2

/-- The text of `backup_info.txt` built by `fmt.Sprintf` in `BackupAll`. -/
def backupInfo (backupData : BackupData) : String :=
  "博客文章备份\n备份时间: " ++ backupData.BackupTime.Format
    ++ "\n文章总数: " ++ formatInt backupData.ArticleCount
    ++ "\n备份格式: JSON\n备份工具: goblog backend\n\n文件说明:\n"
    ++ "- articles_backup.json: 完整的文章备份数据\n"
    ++ "- articles/: 每个文章的单独文件\n"
    ++ "- backup_info.txt: 备份信息（本文件）\n"

/-- The step "添加备份信息文件" of `BackupAll`: the info file is written when
its creation succeeds and is left out otherwise. -/
def backupInfoFile (zipWriter : ZipWriter) (backupData : BackupData) : ZipWriter :=
  match zipWriter.Create "backup_info.txt" with
  | (.ok infoFile, zipWriter) => (zipWriter.Write infoFile (backupInfo backupData)).2
  | (.error _, zipWriter) => zipWriter

/-- The method `ArticleService.BackupAll`; the returned bytes are embedded as
the files of the archive they encode. -/
def ArticleService.BackupAll {σ : Type} (s : ArticleService σ) (rt : Runtime) (st : σ) :
    Except Error (List ZipEntry) × σ :=
  let params : QueryParams := { Page := 1, Limit := 10000, Published := none, Search := "" }
  match s.articleRepo.List params st with
  | (.error err, st) => (.error (.wrapped "获取文章列表失败" err), st)
  | (.ok (articles, _), st) =>
    let zipWriter := zipNewWriter rt.zip
    let backupData : BackupData :=
      { BackupTime := rt.Now, ArticleCount := articles.length, Articles := articles }
    match rt.MarshalIndentBackup backupData with
    | .error err => (.error (.wrapped "序列化文章数据失败" err), st)
    | .ok jsonData =>
      match zipWriter.Create "articles_backup.json" with
      | (.error err, _) => (.error (.wrapped "创建备份文件失败" err), st)
      | (.ok mainFile, zipWriter) =>
        match zipWriter.Write mainFile jsonData with
        | (some err, _) => (.error (.wrapped "写入备份文件失败" err), st)
        | (none, zipWriter) =>
          let zipWriter := articles.foldl (backupArticle rt) zipWriter
          let zipWriter := backupInfoFile zipWriter backupData
          match zipWriter.Close with
          | some err => (.error (.wrapped "完成ZIP文件写入失败" err), st)
          | none => (.ok zipWriter.dir, st)

/-! ## Create (service/article.go, lines 35-68) -/

/-- The method `ArticleService.Create`. -/
def ArticleService.Create {σ : Type} (s : ArticleService σ) (req : ArticleCreateRequest)
    (st : σ) : Except Error Article × σ :=
  let article : Article :=
    { ID := 0, Title := req.Title, Content := req.Content, Summary := req.Summary,
      Published := req.Published, CreatedAt := zeroTime, UpdatedAt := zeroTime,
      Category := none, Tags := [] }
  let checkTags (article : Article) (st : σ) : Except Error Article × σ :=
    if req.TagIDs.length > 0 then
      match s.tagRepo.GetByIDs req.TagIDs st with
      | (.error err, st) => (.error err, st)
      | (.ok tags, st) =>
        if tags.length ≠ req.TagIDs.length then (.error .ErrInvalidInput, st)
        else s.articleRepo.Create { article with Tags := tags } st
    else s.articleRepo.Create article st
  match req.CategoryID with
  | some id =>
    match s.categoryRepo.GetByID id st with
    | (.error err, st) => (.error err, st)
    | (.ok category, st) => checkTags { article with Category := some category } st
  | none => checkTags article st

/-! ## closed form of the archive built by BackupAll -/

/-- The parameters of the listing call of `BackupAll`. -/
def backupParams : QueryParams := { Page := 1, Limit := 10000, Published := none, Search := "" }

/-- The files the loop iteration for `article` adds to the archive when it
makes the k-th `Create` call: none when the creation fails, an empty file when
the serialization or the write fails, the serialized article otherwise. -/
def articleFiles (rt : Runtime) (k : Nat) (article : Article) : List ZipEntry :=
  match rt.zip.createErr k with
  | some _ => []
  | none =>
    match rt.MarshalIndentArticle article with
    | .error _ => [{ Name := articleFilename article, Data := "" }]
    | .ok articleData =>
      match rt.zip.writeErr k with
      | some _ => [{ Name := articleFilename article, Data := "" }]
      | none => [{ Name := articleFilename article, Data := articleData }]

/-- The files the whole loop adds when its first `Create` call is the k-th. -/
def loopFiles (rt : Runtime) : Nat → List Article → List ZipEntry
  | _, [] => []
  | k, article :: articles => articleFiles rt k article ++ loopFiles rt (k + 1) articles

/-- The files the info step adds when its `Create` call is the k-th. -/
def infoFiles (rt : Runtime) (k : Nat) (backupData : BackupData) : List ZipEntry :=
  match rt.zip.createErr k with
  | some _ => []
  | none =>
    match rt.zip.writeErr k with
    | some _ => [{ Name := "backup_info.txt", Data := "" }]
    | none => [{ Name := "backup_info.txt", Data := backupInfo backupData }]

/-- The manifest value `backupData` of `BackupAll` for a listing result. -/
def manifestOf (rt : Runtime) (articles : List Article) : BackupData :=
  { BackupTime := rt.Now, ArticleCount := articles.length, Articles := articles }

/-- The files of the archive of a run of `BackupAll` that reaches its end: the
manifest, the files of the loop, the files of the info step. -/
def backupArchive (rt : Runtime) (articles : List Article) (jsonData : String) : List ZipEntry :=
  { Name := "articles_backup.json", Data := jsonData }
    :: (loopFiles rt 1 articles ++ infoFiles rt (articles.length + 1) (manifestOf rt articles))

/-- An archive writer that never reports a failure: the `zip.Writer` that
`BackupAll` builds over a `bytes.Buffer` (lines 163-164), whose `Create`, `Write`
and `Close` cannot fail for the short names `BackupAll` uses. -/
def noFaults : ZipFaults :=
  { createErr := fun _ => none, writeErr := fun _ => none, closeErr := none }

/-- A name under the `articles/` prefix: it starts with "articles/". -/
def underArticles (name : String) : Bool := "articles/".data.isPrefixOf name.data

/-! ## fixtures: the mocks and data of test/backup_test.go -/

/-- An article repository whose listing returns `result`, as the mock of
`backup_test.go`; its other calls report NotFound and leave the state alone. -/
def listingRepo (result : Except Error (Slice Article × Int)) : ArticleRepository Unit :=
  { Create := fun _ st => (.error .ErrNotFound, st),
    GetByID := fun _ st => (.error .ErrNotFound, st),
    Update := fun _ _ st => (.error .ErrNotFound, st),
    Delete := fun _ st => (some .ErrNotFound, st),
    ListByCategory := fun _ _ st => (.error .ErrNotFound, st),
    ListByTag := fun _ _ st => (.error .ErrNotFound, st),
    List := fun _ st => (result, st) }

/-- A category repository without categories. -/
def emptyCategoryRepo (σ : Type) : CategoryRepository σ :=
  { Create := fun _ st => (.error .ErrInternalError, st),
    GetByID := fun _ st => (.error .ErrNotFound, st),
    Update := fun _ _ st => (.error .ErrNotFound, st),
    Delete := fun _ st => (some .ErrNotFound, st),
    GetByName := fun _ st => (.error .ErrNotFound, st),
    List := fun st => (.ok [], st) }

/-- A tag repository without tags. -/
def emptyTagRepo (σ : Type) : TagRepository σ :=
  { Create := fun _ st => (.error .ErrInternalError, st),
    GetByID := fun _ st => (.error .ErrNotFound, st),
    Update := fun _ _ st => (.error .ErrNotFound, st),
    Delete := fun _ st => (some .ErrNotFound, st),
    GetByName := fun _ st => (.error .ErrNotFound, st),
    GetByIDs := fun _ st => (.ok [], st),
    List := fun st => (.ok [], st) }

/-- The service of `backup_test.go`: `NewArticleService` on the mocks. -/
def listingService (result : Except Error (Slice Article × Int)) : ArticleService Unit :=
  { articleRepo := listingRepo result,
    categoryRepo := emptyCategoryRepo Unit,
    tagRepo := emptyTagRepo Unit }

/-- A clock reading used by the fixtures. -/
def fixtureTime : Time :=
  { UnixNano := 1709967900000000000, Year := 2024, Month := 3, Day := 9,
    Hour := 7, Minute := 5, Second := 0 }

/-- The first article of the fixture of `TestArticleService_BackupAll`. -/
def fixtureArticle1 : Article :=
  { ID := 1, Title := "Go语言入门", Content := "这是一篇关于Go语言的入门文章",
    Summary := "Go语言基础教程", Published := true,
    CreatedAt := fixtureTime, UpdatedAt := fixtureTime,
    Category := some { ID := 1, Name := "技术", Description := "",
                       CreatedAt := zeroTime, UpdatedAt := zeroTime },
    Tags := [{ ID := 1, Name := "Go语言", Color := "#00ADD8",
               CreatedAt := zeroTime, UpdatedAt := zeroTime },
             { ID := 2, Name := "编程", Color := "#007bff",
               CreatedAt := zeroTime, UpdatedAt := zeroTime }] }

/-- The second article of the fixture of `TestArticleService_BackupAll`. -/
def fixtureArticle2 : Article :=
  { ID := 2, Title := "Docker容器化部署", Content := "这是一篇关于Docker的文章",
    Summary := "Docker部署指南", Published := true,
    CreatedAt := fixtureTime, UpdatedAt := fixtureTime,
    Category := some { ID := 2, Name := "运维", Description := "",
                       CreatedAt := zeroTime, UpdatedAt := zeroTime },
    Tags := [{ ID := 3, Name := "Docker", Color := "#2496ED",
               CreatedAt := zeroTime, UpdatedAt := zeroTime }] }

/-- The rule by which `time.Time.MarshalJSON` accepts a time: its year lies in
0..9999. -/
def timeMarshals (t : Time) : Bool := decide (0 ≤ t.Year) && decide (t.Year ≤ 9999)

/-- The articles `encoding/json` can serialize: every time value in them
marshals. -/
def articleMarshals (a : Article) : Bool :=
  timeMarshals a.CreatedAt && timeMarshals a.UpdatedAt
    && a.Category.all (fun c => timeMarshals c.CreatedAt && timeMarshals c.UpdatedAt)
    && a.Tags.all (fun t => timeMarshals t.CreatedAt && timeMarshals t.UpdatedAt)

/-- The error of `json.MarshalIndent` on a time it cannot marshal. -/
def jsonTimeError : Error :=
  .external ("json: error calling MarshalJSON for type time.Time: "
    ++ "Time.MarshalJSON: year outside of range [0,9999]")

/-- A runtime whose encoder fails as `encoding/json` does, on a time outside
the years 0..9999; the text it produces is abridged to the fields the tests
read. -/
def jsonRuntime (now : Time) (faults : ZipFaults) : Runtime :=
  { Now := now,
    MarshalIndentBackup := fun b =>
      if timeMarshals b.BackupTime && b.Articles.all articleMarshals then
        .ok ("\x7b\n  \"article_count\": " ++ formatInt b.ArticleCount ++ ",\n  \"articles\": ["
          ++ String.intercalate ", " (b.Articles.map (fun a => "\"" ++ a.Title ++ "\"")) ++ "]\n\x7d")
      else .error jsonTimeError,
    MarshalIndentArticle := fun a =>
      if articleMarshals a then
        .ok ("\x7b\n  \"id\": " ++ formatInt a.ID ++ ",\n  \"title\": \"" ++ a.Title ++ "\"\n\x7d")
      else .error jsonTimeError,
    zip := faults }

/-- A runtime whose encoder never fails; the text it produces is abridged to
the article count, respectively to the id of the article. -/
def plainRuntime (now : Time) (faults : ZipFaults) : Runtime :=
  { Now := now,
    MarshalIndentBackup := fun b => .ok ("\x7b\"article_count\": " ++ formatInt b.ArticleCount ++ "\x7d"),
    MarshalIndentArticle := fun a => .ok ("\x7b\"id\": " ++ formatInt a.ID ++ "\x7d"),
    zip := faults }

/-- An article created in the year 10000, which `encoding/json` rejects. -/
def farFutureArticle : Article :=
  { ID := 7, Title := "y10k", Content := "c", Summary := "", Published := true,
    CreatedAt := { fixtureTime with Year := 10000 },
    UpdatedAt := { fixtureTime with Year := 10000 },
    Category := none, Tags := [] }

/-- A runtime in which the serialization of the article with id `badID` fails
inside the loop although the manifest was serialized. -/
def flakyRuntime (badID : Int) (faults : ZipFaults) : Runtime :=
  { jsonRuntime fixtureTime faults with
    MarshalIndentArticle := fun a =>
      if a.ID = badID then .error (.external "json: unsupported value")
      else (jsonRuntime fixtureTime faults).MarshalIndentArticle a }

/-- An archive writer that fails to create the file of its call `k` and to
write the file of its call `j`. -/
def faultsAt (k j : Nat) : ZipFaults :=
  { createErr := fun i => if i = k then some (.external "zip: create failed") else none,
    writeErr := fun i => if i = j then some (.external "zip: write failed") else none,
    closeErr := none }

/-! ## fixtures: stores -/

/-- The domain article read from a stored row: its edges loaded, then
converted by `entToDomain`. -/
def domainOf (db : Store) (r : ArticleRow) : Article :=
  repository.ArticleRepository.entToDomain (loadEdges db r)

/-- A service on the ent-backed repositories as far as they are modelled: the
listing of articles and the lookup of a category by id; `Create` stores the
article as a new row and the remaining calls are stubs. -/
def storeService : ArticleService Store :=
  { articleRepo :=
      { Create := fun a db =>
          (.ok a, { db with articles := db.articles ++
            [{ ID := a.ID, Title := a.Title, Content := a.Content, Summary := a.Summary,
               Published := a.Published, CreatedAt := a.CreatedAt, UpdatedAt := a.UpdatedAt,
               CategoryID := a.Category.map (fun c => c.ID),
               TagIDs := a.Tags.map (fun t => t.ID) }] }),
        GetByID := fun _ db => (.error .ErrNotFound, db),
        Update := fun _ _ db => (.error .ErrNotFound, db),
        Delete := fun _ db => (some .ErrNotFound, db),
        ListByCategory := fun _ _ db => (.error .ErrInternalError, db),
        ListByTag := fun _ _ db => (.error .ErrInternalError, db),
        List := repository.ArticleRepository.List },
    categoryRepo :=
      { emptyCategoryRepo Store with GetByID := repository.CategoryRepository.GetByID },
    tagRepo := emptyTagRepo Store }

/-- The i-th row of the large store: id i, created at instant i. -/
def bigRow (i : Nat) : ArticleRow :=
  { ID := i, Title := "post", Content := "text", Summary := "", Published := true,
    CreatedAt := { fixtureTime with UnixNano := i },
    UpdatedAt := { fixtureTime with UnixNano := i },
    CategoryID := none, TagIDs := [] }

/-- A store holding 10001 articles, with ids 0..10000. -/
def bigStore : Store :=
  { articles := (List.range 10001).map bigRow, categories := [], tags := [], failure := none }

/-- A store holding two articles, the older one unpublished. -/
def smallStore : Store :=
  { articles :=
      [{ ID := 1, Title := "draft", Content := "text", Summary := "", Published := false,
         CreatedAt := { fixtureTime with UnixNano := 10 },
         UpdatedAt := { fixtureTime with UnixNano := 10 },
         CategoryID := some 1, TagIDs := [3] },
       { ID := 2, Title := "news", Content := "text", Summary := "", Published := true,
         CreatedAt := { fixtureTime with UnixNano := 20 },
         UpdatedAt := { fixtureTime with UnixNano := 20 },
         CategoryID := none, TagIDs := [] }],
    categories := [{ ID := 1, Name := "技术", Description := "",
                     CreatedAt := fixtureTime, UpdatedAt := fixtureTime }],
    tags := [{ ID := 3, Name := "Docker", Color := "#2496ED",
               CreatedAt := fixtureTime, UpdatedAt := fixtureTime }],
    failure := none }

/-! ## domain: the remaining requests -/

/-- The struct `domain.ArticleUpdateRequest`. -/
structure ArticleUpdateRequest where
  Title : String
  Content : String
  Summary : String
  Published : Bool
  CategoryID : Option Int
  TagIDs : Slice Int
  deriving DecidableEq

/-- The struct `domain.CategoryCreateRequest`. -/
structure CategoryCreateRequest where
  Name : String
  Description : String
  deriving DecidableEq

/-- The struct `domain.CategoryUpdateRequest`. -/
structure CategoryUpdateRequest where
  Name : String
  Description : String
  deriving DecidableEq

/-- The struct `domain.TagCreateRequest`. -/
structure TagCreateRequest where
  Name : String
  Color : String
  deriving DecidableEq

/-- The struct `domain.TagUpdateRequest`. -/
structure TagUpdateRequest where
  Name : String
  Color : String
  deriving DecidableEq

/-! ## service (internal/service/article.go): Update and the listings -/

/-- The method `ArticleService.Update` (lines 76-115). -/
def ArticleService.Update {σ : Type} (s : ArticleService σ) (id : Int)
    (req : ArticleUpdateRequest) (st : σ) : Except Error Article × σ :=
  match s.articleRepo.GetByID id st with
  | (.error err, st) => (.error err, st)
  | (.ok _, st) =>
    let article : Article :=
      { ID := 0, Title := req.Title, Content := req.Content, Summary := req.Summary,
        Published := req.Published, CreatedAt := zeroTime, UpdatedAt := zeroTime,
        Category := none, Tags := [] }
    let checkTags (article : Article) (st : σ) : Except Error Article × σ :=
      if req.TagIDs.length > 0 then
        match s.tagRepo.GetByIDs req.TagIDs st with
        | (.error err, st) => (.error err, st)
        | (.ok tags, st) =>
          if tags.length ≠ req.TagIDs.length then (.error .ErrInvalidInput, st)
          else s.articleRepo.Update id { article with Tags := tags } st
      else s.articleRepo.Update id article st
    match req.CategoryID with
    | some categoryID =>
      match s.categoryRepo.GetByID categoryID st with
      | (.error err, st) => (.error err, st)
      | (.ok category, st) => checkTags { article with Category := some category } st
    | none => checkTags article st

/-- The method `ArticleService.ListByCategory` (lines 128-136). -/
def ArticleService.ListByCategory {σ : Type} (s : ArticleService σ) (categoryID : Int)
    (params : QueryParams) (st : σ) : Except Error (Slice Article × Int) × σ :=
  match s.categoryRepo.GetByID categoryID st with
  | (.error err, st) => (.error err, st)
  | (.ok _, st) => s.articleRepo.ListByCategory categoryID params st

/-- The method `ArticleService.ListByTag` (lines 139-147). -/
def ArticleService.ListByTag {σ : Type} (s : ArticleService σ) (tagID : Int)
    (params : QueryParams) (st : σ) : Except Error (Slice Article × Int) × σ :=
  match s.tagRepo.GetByID tagID st with
  | (.error err, st) => (.error err, st)
  | (.ok _, st) => s.articleRepo.ListByTag tagID params st

/-- The method `ArticleService.List` (lines 123-125). -/
def ArticleService.List {σ : Type} (s : ArticleService σ) (params : QueryParams) (st : σ) :
    Except Error (Slice Article × Int) × σ :=
  s.articleRepo.List params st

/-! ## service (internal/service/category.go) -/

/-- The struct `service.CategoryService`. -/
structure CategoryService (σ : Type) where
  categoryRepo : CategoryRepository σ

/-- The method `CategoryService.Create` (lines 19-35). -/
def CategoryService.Create {σ : Type} (s : CategoryService σ) (req : CategoryCreateRequest)
    (st : σ) : Except Error Category × σ :=
  match s.categoryRepo.GetByName req.Name st with
  | (.ok _, st) => (.error .ErrDuplicateResource, st)
  | (.error err, st) =>
    if err ≠ .ErrNotFound then (.error err, st)
    else
      let category : Category :=
        { ID := 0, Name := req.Name, Description := req.Description,
          CreatedAt := zeroTime, UpdatedAt := zeroTime }
      s.categoryRepo.Create category st

/-- The method `CategoryService.Update` (lines 43-65). -/
def CategoryService.Update {σ : Type} (s : CategoryService σ) (id : Int)
    (req : CategoryUpdateRequest) (st : σ) : Except Error Category × σ :=
  match s.categoryRepo.GetByID id st with
  | (.error err, st) => (.error err, st)
  | (.ok _, st) =>
    let category : Category :=
      { ID := 0, Name := req.Name, Description := req.Description,
        CreatedAt := zeroTime, UpdatedAt := zeroTime }
    match s.categoryRepo.GetByName req.Name st with
    | (.ok existingCategory, st) =>
      if existingCategory.ID ≠ id then (.error .ErrDuplicateResource, st)
      else s.categoryRepo.Update id category st
    | (.error err, st) =>
      if err ≠ .ErrNotFound then (.error err, st)
      else s.categoryRepo.Update id category st

/-! ## service (internal/service/tag.go) -/

/-- The struct `service.TagService`. -/
structure TagService (σ : Type) where
  tagRepo : TagRepository σ

/-- The lines "如果没有提供颜色，使用默认颜色" of `TagService.Create` and
`TagService.Update`: the tag built from name and colour of a request. -/
def tagOfRequest (name color : String) : Tag :=
  let tag : Tag :=
    { ID := 0, Name := name, Color := color, CreatedAt := zeroTime, UpdatedAt := zeroTime }
  if tag.Color = "" then { tag with Color := "#007bff" } else tag

/-- The method `TagService.Create` (lines 19-40). -/
def TagService.Create {σ : Type} (s : TagService σ) (req : TagCreateRequest) (st : σ) :
    Except Error Tag × σ :=
  match s.tagRepo.GetByName req.Name st with
  | (.ok _, st) => (.error .ErrDuplicateResource, st)
  | (.error err, st) =>
    if err ≠ .ErrNotFound then (.error err, st)
    else s.tagRepo.Create (tagOfRequest req.Name req.Color) st

/-- The method `TagService.Update` (lines 48-75). -/
def TagService.Update {σ : Type} (s : TagService σ) (id : Int) (req : TagUpdateRequest)
    (st : σ) : Except Error Tag × σ :=
  match s.tagRepo.GetByID id st with
  | (.error err, st) => (.error err, st)
  | (.ok _, st) =>
    match s.tagRepo.GetByName req.Name st with
    | (.ok existingTag, st) =>
      if existingTag.ID ≠ id then (.error .ErrDuplicateResource, st)
      else s.tagRepo.Update id (tagOfRequest req.Name req.Color) st
    | (.error err, st) =>
      if err ≠ .ErrNotFound then (.error err, st)
      else s.tagRepo.Update id (tagOfRequest req.Name req.Color) st
/-! ## repository: the scoped listings (internal/repository/article.go) -/

/-- Modelled from the spec: the predicate
`article.HasCategoryWith(category.ID(id))`, "article belongs to category X". -/
def ent.article.HasCategoryWithID (id : Int) : ArticleRow → Bool :=
  fun r => r.CategoryID == some id

/-- Modelled from the spec: the predicate `article.HasTagsWith(tag.ID(id))`,
"article has tag Y". -/
def ent.article.HasTagsWithID (id : Int) : ArticleRow → Bool := fun r => r.TagIDs.contains id

/-- The method `ArticleRepository.ListByCategory` (lines 174-209). -/
def repository.ArticleRepository.ListByCategory (categoryID : Int) (params : QueryParams)
    (db : Store) : Except Error (Slice Article × Int) × Store :=
  let query := (ent.ArticleQuery.new.Where (ent.article.HasCategoryWithID categoryID)).OrderDescCreatedAt
  let query := match params.Published with
    | some published => query.Where (ent.article.Published published)
    | none => query
  match query.Count db with
  | .error err => (.error err, db)
  | .ok total =>
    let query :=
      if params.Page > 0 ∧ params.Limit > 0 then
        let offset := wrapInt64 ((params.Page - 1) * params.Limit)
        (query.Offset offset).Limit params.Limit
      else query
    match query.All db with
    | .error err => (.error err, db)
    | .ok entArticles => (.ok (entArticles.map entToDomain, total), db)

/-- The method `ArticleRepository.ListByTag` (lines 212-247). -/
def repository.ArticleRepository.ListByTag (tagID : Int) (params : QueryParams)
    (db : Store) : Except Error (Slice Article × Int) × Store :=
  let query := (ent.ArticleQuery.new.Where (ent.article.HasTagsWithID tagID)).OrderDescCreatedAt
  let query := match params.Published with
    | some published => query.Where (ent.article.Published published)
    | none => query
  match query.Count db with
  | .error err => (.error err, db)
  | .ok total =>
    let query :=
      if params.Page > 0 ∧ params.Limit > 0 then
        let offset := wrapInt64 ((params.Page - 1) * params.Limit)
        (query.Offset offset).Limit params.Limit
      else query
    match query.All db with
    | .error err => (.error err, db)
    | .ok entArticles => (.ok (entArticles.map entToDomain, total), db)

/-! ## repository (internal/repository/category.go): Create and GetByName -/

/-- Modelled from the spec: the identity the storage gives a new entity, one
more than the largest identity in use. -/
def nextID (ids : Slice Int) : Int := ids.foldl max 0 + 1

/-- Modelled from the spec: `client.Category.Create().SetName(..)` with an
optional `SetDescription(..)`, then `Save(ctx)`: the name is "non-empty" and
"globally unique", the description is optional, the timestamps are
"server-assigned". -/
def ent.CategoryCreateSave (now : Time) (name : String) (description : Option String)
    (db : Store) : Except Error ent.Category × Store :=
  match db.failure with
  | some err => (.error err, db)
  | none =>
    if name = "" then (.error (.external "ent: validator failed for field \"Category.name\""), db)
    else if db.categories.any (fun c => c.Name == name) then
      (.error (.external "ent: constraint failed: UNIQUE constraint failed: categories.name"), db)
    else
      let entCategory : ent.Category :=
        { ID := nextID (db.categories.map (fun c => c.ID)), Name := name,
          Description := description.getD "", CreatedAt := now, UpdatedAt := now }
      (.ok entCategory, { db with categories := db.categories ++ [entCategory] })

/-- The method `CategoryRepository.Create` (category.go, lines 22-35); `now` is
the reading of the clock the entity's timestamps default to. -/
def repository.CategoryRepository.Create (now : Time) (cat : Goblog.Category) (db : Store) :
    Except Error Goblog.Category × Store :=
  let description := if cat.Description ≠ "" then some cat.Description else none
  match ent.CategoryCreateSave now cat.Name description db with
  | (.error err, db) => (.error err, db)
  | (.ok entCategory, db) => (.ok (entToDomain entCategory), db)

/-- The method `CategoryRepository.GetByName` (category.go, lines 101-114). -/
def repository.CategoryRepository.GetByName (name : String) (db : Store) :
    Except Error Goblog.Category × Store :=
  match ent.CategoryOnly (fun c => c.Name == name) db with
  | .error err =>
    if ent.IsNotFound err then (.error .ErrNotFound, db)
    else (.error err.toError, db)
  | .ok entCategory => (.ok (entToDomain entCategory), db)

/-! ## repository (internal/repository/tag.go): GetByIDs -/

/-- The method `TagRepository.entToDomain`. -/
def repository.TagRepository.entToDomain (entTag : ent.Tag) : Goblog.Tag :=
  { ID := entTag.ID, Name := entTag.Name, Color := entTag.Color,
    CreatedAt := entTag.CreatedAt, UpdatedAt := entTag.UpdatedAt }

/-- Modelled from the spec: `client.Tag.Query().Where(tag.IDIn(ids...)).All(ctx)`,
the stored tags whose id is among `ids`. -/
def ent.TagIDInAll (ids : Slice Int) (db : Store) : Except Error (Slice ent.Tag) :=
  match db.failure with
  | some err => .error err
  | none => .ok (db.tags.filter (fun t => ids.contains t.ID))

/-- The method `TagRepository.GetByIDs` (tag.go, lines 117-131). -/
def repository.TagRepository.GetByIDs (ids : Slice Int) (db : Store) :
    Except Error (Slice Goblog.Tag) × Store :=
  match ent.TagIDInAll ids db with
  | .error err => (.error err, db)
  | .ok entTags => (.ok (entTags.map entToDomain), db)

/-! ## response (internal/pkg/response/response.go) -/

/-- The struct `response.PageMeta`. -/
structure PageMeta where
  Page : Int
  Limit : Int
  Total : Int
  TotalPage : Int
  deriving DecidableEq

/-- The struct `response.Response`; the data of the responses modelled here is
a list of articles. -/
structure Response where
  Code : Int
  Message : String
  Data : Option (Slice Article)
  deriving DecidableEq

/-- The struct `response.PagedResponse`. -/
structure PagedResponse where
  Code : Int
  Message : String
  Data : Option (Slice Article)
  Meta : PageMeta
  deriving DecidableEq

/-- What `c.JSON(status, body)` sends: the HTTP status and a body that is a
`Response` or a `PagedResponse`. -/
inductive Reply where
  | plain (status : Int) (body : Response)
  | paged (status : Int) (body : PagedResponse)
  deriving DecidableEq

/-- The page metadata a reply carries, if any. -/
def Reply.Meta : Reply → Option PageMeta
  | .plain _ _ => none
  | .paged _ body => some body.Meta

/-- The function `response.Success`. -/
def response.Success (data : Slice Article) : Reply :=
  .plain 200 { Code := 200, Message := "success", Data := some data }

/-- The function `response.SuccessPaged`. -/
def response.SuccessPaged (data : Slice Article) (pageMeta : PageMeta) : Reply :=
  .paged 200 { Code := 200, Message := "success", Data := some data, Meta := pageMeta }

/-- The function `response.Error`. -/
def response.Error (code : Int) (message : String) : Reply :=
  .plain code { Code := code, Message := message, Data := none }

/-- The function `response.BadRequest`. -/
def response.BadRequest (message : String) : Reply := response.Error 400 message

/-- The function `response.NotFound`. -/
def response.NotFound (message : String) : Reply := response.Error 404 message

/-- The function `response.InternalServerError`. -/
def response.InternalServerError (message : String) : Reply := response.Error 500 message

/-! ## handler (internal/handler/article.go) -/

/-- The part of an `echo.Context` the list handlers read: the query parameters
and the path parameters of the request, the empty string when absent. -/
structure Context where
  QueryParam : String → String
  Param : String → String

/-- The function `strconv.Atoi`: an optional sign, then one or more decimal
digits, with a value in the range of a 64-bit `int`; anything else is an
error. -/
def atoi (s : String) : Option Int :=
  let parse (neg : Bool) (ds : List Char) : Option Int :=
    if ds.isEmpty || !(ds.all Char.isDigit) then none
    else
      let n : Int := ds.foldl (fun acc c => 10 * acc + ((c.toNat - '0'.toNat : Nat) : Int)) 0
      let v : Int := if neg then -n else n
      if v < -(2 ^ 63) ∨ 2 ^ 63 - 1 < v then none else some v
  match s.data with
  | '-' :: ds => parse true ds
  | '+' :: ds => parse false ds
  | ds => parse false ds

/-- The struct `handler.ArticleHandler`. -/
structure ArticleHandler (σ : Type) where
  articleService : ArticleService σ

/-- The method `ArticleHandler.parseQueryParams` (lines 180-206). -/
def ArticleHandler.parseQueryParams (c : Context) : QueryParams :=
  let params : QueryParams := { Page := 0, Limit := 0, Published := none, Search := "" }
  let params :=
    match atoi (c.QueryParam "page") with
    | some page => if page > 0 then { params with Page := page } else params
    | none => params
  let params :=
    match atoi (c.QueryParam "limit") with
    | some limit =>
      if limit > 0 ∧ limit ≤ 100 then { params with Limit := limit }
      else if params.Page > 0 then { params with Limit := 10 }
      else params
    | none => if params.Page > 0 then { params with Limit := 10 } else params
  let published := c.QueryParam "published"
  let params :=
    if published ≠ "" then
      if published = "true" then { params with Published := some true }
      else if published = "false" then { params with Published := some false }
      else params
    else params
  { params with Search := c.QueryParam "search" }

/-- The method `ArticleHandler.handleError` (lines 209-220). -/
def ArticleHandler.handleError (err : Error) : Reply :=
  if errorsIs err .ErrNotFound then response.NotFound "文章不存在"
  else if errorsIs err .ErrInvalidInput then response.BadRequest "无效的输入参数"
  else if errorsIs err .ErrDuplicateResource then response.BadRequest "资源已存在"
  else response.InternalServerError "内部服务器错误"

/-- The expression `int((total + int64(params.Limit) - 1) / int64(params.Limit))`
of the list handlers: 64-bit addition and subtraction that wrap around, and a
division that truncates toward zero. -/
def totalPage (total limit : Int) : Int :=
  wrapInt64 (Int.tdiv (wrapInt64 (wrapInt64 (total + limit) - 1)) limit)

/-- The method `ArticleHandler.List` (lines 104-123). -/
def ArticleHandler.List {σ : Type} (h : ArticleHandler σ) (c : Context) (st : σ) : Reply × σ :=
  let params := parseQueryParams c
  match h.articleService.List params st with
  | (.error err, st) => (handleError err, st)
  | (.ok (articles, total), st) =>
    if params.Page > 0 ∧ params.Limit > 0 then
      let pageMeta : PageMeta :=
        { Page := params.Page, Limit := params.Limit, Total := total,
          TotalPage := totalPage total params.Limit }
      (response.SuccessPaged articles pageMeta, st)
    else (response.Success articles, st)

/-! ## fixtures: in-memory repositories, as the mocks of the service tests -/

/-- A category repository on a list of categories: lookups search the list,
`Create` appends the category under a new id, `Update` replaces name and
description of the category with the given id. -/
def memCategoryRepo : CategoryRepository (Slice Category) :=
  { Create := fun c st =>
      let c := { c with ID := nextID (st.map (fun x => x.ID)) }
      (.ok c, st ++ [c]),
    GetByID := fun id st =>
      match st.find? (fun c => c.ID == id) with
      | some c => (.ok c, st)
      | none => (.error .ErrNotFound, st),
    Update := fun id c st =>
      match st.find? (fun x => x.ID == id) with
      | some x =>
        let x := { x with Name := c.Name, Description := c.Description }
        (.ok x, st.map (fun y => if y.ID = id then x else y))
      | none => (.error .ErrNotFound, st),
    Delete := fun id st => (none, st.filter (fun c => c.ID != id)),
    GetByName := fun name st =>
      match st.find? (fun c => c.Name == name) with
      | some c => (.ok c, st)
      | none => (.error .ErrNotFound, st),
    List := fun st => (.ok st, st) }

/-- A tag repository on a list of tags, in the same way. -/
def memTagRepo : TagRepository (Slice Tag) :=
  { Create := fun t st =>
      let t := { t with ID := nextID (st.map (fun x => x.ID)) }
      (.ok t, st ++ [t]),
    GetByID := fun id st =>
      match st.find? (fun t => t.ID == id) with
      | some t => (.ok t, st)
      | none => (.error .ErrNotFound, st),
    Update := fun id t st =>
      match st.find? (fun x => x.ID == id) with
      | some x =>
        let x := { x with Name := t.Name, Color := t.Color }
        (.ok x, st.map (fun y => if y.ID = id then x else y))
      | none => (.error .ErrNotFound, st),
    Delete := fun id st => (none, st.filter (fun t => t.ID != id)),
    GetByName := fun name st =>
      match st.find? (fun t => t.Name == name) with
      | some t => (.ok t, st)
      | none => (.error .ErrNotFound, st),
    GetByIDs := fun ids st => (.ok (st.filter (fun t => ids.contains t.ID)), st),
    List := fun st => (.ok st, st) }

/-- The category of the fixture of `category_service_test.go`. -/
def fixtureCategory : Category :=
  { ID := 1, Name := "技术", Description := "已存在的分类",
    CreatedAt := fixtureTime, UpdatedAt := fixtureTime }

/-- A second category. -/
def fixtureCategory2 : Category :=
  { ID := 2, Name := "运维", Description := "",
    CreatedAt := fixtureTime, UpdatedAt := fixtureTime }

/-- A tag of the fixture of `tag_service_test.go`. -/
def fixtureTag : Tag :=
  { ID := 1, Name := "Go语言", Color := "#00ADD8",
    CreatedAt := fixtureTime, UpdatedAt := fixtureTime }

/-- A second tag. -/
def fixtureTag2 : Tag :=
  { ID := 2, Name := "编程", Color := "#007bff",
    CreatedAt := fixtureTime, UpdatedAt := fixtureTime }

/-- A category service on the ent-backed repository as far as it is modelled:
`Create`, `GetByID` and `GetByName`. -/
def storeCategoryService (now : Time) : CategoryService Store :=
  { categoryRepo :=
      { emptyCategoryRepo Store with
        Create := repository.CategoryRepository.Create now,
        GetByID := repository.CategoryRepository.GetByID,
        GetByName := repository.CategoryRepository.GetByName } }

/-! ## the contract of the lookups the article service relies on -/

/-- The category step of `ArticleService.Create` and `Update` passes: the
request names no category, or it names one that the lookup returns; `st1` is the
state the step leaves and `cat` the category it found. -/
def categoryResolved {σ : Type} (s : ArticleService σ) (categoryID : Option Int)
    (st st1 : σ) (cat : Option Category) : Prop :=
  match categoryID with
  | none => st1 = st ∧ cat = none
  | some id => ∃ category, s.categoryRepo.GetByID id st = (.ok category, st1) ∧ cat = some category

/-- The tag lookup returns exactly one tag per distinct existing id: the ids of
the returned tags are pairwise different and are the requested ids that
exist. -/
def tagLookupFaithful (exist : Int → Prop) (ids : Slice Int) (tags : Slice Tag) : Prop :=
  (tags.map (fun t => t.ID)).Nodup ∧
    ∀ i, i ∈ tags.map (fun t => t.ID) ↔ i ∈ ids ∧ exist i

/-- The article the service hands to the repository: title, content, summary
and published flag of the request, the category and the tags it resolved. -/
def articleOf (title content summary : String) (published : Bool) (cat : Option Category)
    (tags : Slice Tag) : Article :=
  { ID := 0, Title := title, Content := content, Summary := summary, Published := published,
    CreatedAt := zeroTime, UpdatedAt := zeroTime, Category := cat, Tags := tags }

/-- Modelled from the spec: `client.Article.Query().Where(p).WithCategory().WithTags().Only(ctx)`. -/
def ent.ArticleOnly (p : ArticleRow → Bool) (db : Store) : Except ent.QueryError ent.Article :=
  match db.failure with
  | some err => .error (.Storage err)
  | none =>
    match db.articles.filter p with
    | [] => .error .NotFound
    | [r] => .ok (loadEdges db r)
    | _ => .error .NotSingular

/-- The method `ArticleRepository.GetByID` (article.go, lines 58-72). -/
def repository.ArticleRepository.GetByID (id : Int) (db : Store) :
    Except Error Article × Store :=
  match ent.ArticleOnly (fun r => r.ID == id) db with
  | .error err =>
    if ent.IsNotFound err then (.error .ErrNotFound, db)
    else (.error err.toError, db)
  | .ok entArticle => (.ok (entToDomain entArticle), db)

/-- An article service on the ent-backed repositories as far as they are
modelled: as `storeService`, with the ent-backed lookups of an article by id
and of tags by ids. -/
def entService : ArticleService Store :=
  { articleRepo :=
      { storeService.articleRepo with GetByID := repository.ArticleRepository.GetByID },
    categoryRepo := storeService.categoryRepo,
    tagRepo := { emptyTagRepo Store with GetByIDs := repository.TagRepository.GetByIDs } }

/-! ## the filter predicate of the listings, in the words of the specification -/

/-- The published filter: "if published filter is set, restrict results to that
exact boolean value". -/
def matchesPublished (params : QueryParams) (r : ArticleRow) : Bool :=
  match params.Published with
  | some published => r.Published == published
  | none => true

/-- The search filter: "if search text is non-empty, restrict to items whose
title OR content contains the substring". -/
def matchesSearch (params : QueryParams) (r : ArticleRow) : Bool :=
  params.Search == "" || strContains r.Title params.Search || strContains r.Content params.Search

/-- The filter predicate of `List`: the published filter and the search
filter. -/
def matchesFilter (params : QueryParams) (r : ArticleRow) : Bool :=
  matchesPublished params r && matchesSearch params r

/-- The rows a listing ranges over: the rows satisfying `p`, "descending by
creation time". -/
def filteredRows (p : ArticleRow → Bool) (db : Store) : List ArticleRow :=
  sortDescCreatedAt (db.articles.filter p)

/-- The page of a list the specification describes: "at most `limit` items
starting at `offset`". -/
def pageOf {α : Type} (rows : List α) (offset limit : Nat) : List α :=
  (rows.drop offset).take limit

/-! ## fixtures: requests to the list handler -/

/-- The context of a request with the given raw query parameters. -/
def queryContext (page limit published search : String) : Context :=
  { QueryParam := fun name =>
      if name = "page" then page
      else if name = "limit" then limit
      else if name = "published" then published
      else if name = "search" then search
      else "",
    Param := fun _ => "" }

/-- Modelled from the spec: `client.Tag.Query().Where(p).Only(ctx)`. -/
def ent.TagOnly (p : ent.Tag → Bool) (db : Store) : Except ent.QueryError ent.Tag :=
  match db.failure with
  | some err => .error (.Storage err)
  | none =>
    match db.tags.filter p with
    | [] => .error .NotFound
    | [t] => .ok t
    | _ => .error .NotSingular

/-- The method `TagRepository.GetByID` (tag.go, lines 37-50). -/
def repository.TagRepository.GetByID (id : Int) (db : Store) :
    Except Error Goblog.Tag × Store :=
  match ent.TagOnly (fun t => t.ID == id) db with
  | .error err =>
    if ent.IsNotFound err then (.error .ErrNotFound, db)
    else (.error err.toError, db)
  | .ok entTag => (.ok (entToDomain entTag), db)

/-- An article service on the ent-backed repositories: as `entService`, with
the ent-backed scoped listings and the ent-backed lookup of a tag by id. -/
def scopedService : ArticleService Store :=
  { articleRepo :=
      { entService.articleRepo with
        ListByCategory := repository.ArticleRepository.ListByCategory,
        ListByTag := repository.ArticleRepository.ListByTag },
    categoryRepo := entService.categoryRepo,
    tagRepo := { entService.tagRepo with GetByID := repository.TagRepository.GetByID } }

/-- The number a list of decimal digits denotes, most significant digit
first. -/
def decimalValue (ds : List Char) : Nat :=
  ds.foldl (fun acc c => 10 * acc + (c.toNat - '0'.toNat)) 0

/-- The slice of articles a listing returns: with an error it is the nil
slice (`return nil, 0, err`). -/
def articlesOf {σ : Type} (result : Except Error (Slice Article × Int) × σ) : Slice Article :=
  match result.1 with
  | .ok (articles, _) => articles
  | .error _ => []

/-! ## repository (internal/repository/article.go): Update -/

/-- Modelled from the spec: the builder `client.Article.UpdateOneID(id)` with
what the setters the repository calls have recorded: the fields to set, the
category to set or clear, whether the tags are cleared, and the tags to add. -/
structure ent.ArticleUpdateOne where
  id : Int
  title : Option String
  content : Option String
  published : Option Bool
  summary : Option String
  categoryID : Option Int
  clearCategory : Bool
  clearTags : Bool
  addTagIDs : Slice Int

/-- Modelled from the spec: `client.Article.UpdateOneID(id)`. -/
def ent.ArticleUpdateOne.new (id : Int) : ent.ArticleUpdateOne :=
  { id := id, title := none, content := none, published := none, summary := none,
    categoryID := none, clearCategory := false, clearTags := false, addTagIDs := [] }

/-- Modelled from the spec: `SetTitle(s)`. -/
def ent.ArticleUpdateOne.SetTitle (u : ent.ArticleUpdateOne) (s : String) : ent.ArticleUpdateOne :=
  { u with title := some s }

/-- Modelled from the spec: `SetContent(s)`. -/
def ent.ArticleUpdateOne.SetContent (u : ent.ArticleUpdateOne) (s : String) :
    ent.ArticleUpdateOne :=
  { u with content := some s }

/-- Modelled from the spec: `SetPublished(b)`. -/
def ent.ArticleUpdateOne.SetPublished (u : ent.ArticleUpdateOne) (b : Bool) :
    ent.ArticleUpdateOne :=
  { u with published := some b }

/-- Modelled from the spec: `SetSummary(s)`. -/
def ent.ArticleUpdateOne.SetSummary (u : ent.ArticleUpdateOne) (s : String) :
    ent.ArticleUpdateOne :=
  { u with summary := some s }

/-- Modelled from the spec: `SetCategoryID(id)`. -/
def ent.ArticleUpdateOne.SetCategoryID (u : ent.ArticleUpdateOne) (id : Int) :
    ent.ArticleUpdateOne :=
  { u with categoryID := some id }

/-- Modelled from the spec: `ClearCategory()`. -/
def ent.ArticleUpdateOne.ClearCategory (u : ent.ArticleUpdateOne) : ent.ArticleUpdateOne :=
  { u with clearCategory := true }

/-- Modelled from the spec: `ClearTags()`. -/
def ent.ArticleUpdateOne.ClearTags (u : ent.ArticleUpdateOne) : ent.ArticleUpdateOne :=
  { u with clearTags := true }

/-- Modelled from the spec: `AddTagIDs(ids...)`. -/
def ent.ArticleUpdateOne.AddTagIDs (u : ent.ArticleUpdateOne) (ids : Slice Int) :
    ent.ArticleUpdateOne :=
  { u with addTagIDs := u.addTagIDs ++ ids }

/-- Modelled from the spec: the row a mutation leaves. A field that was not set
keeps its value; the tags are "unordered, unique by id"; "updated_at refreshed
on every mutation". -/
def ent.ArticleUpdateOne.mutate (u : ent.ArticleUpdateOne) (now : Time) (r : ArticleRow) :
    ArticleRow :=
  let kept := if u.clearTags then [] else r.TagIDs
  { r with
    Title := u.title.getD r.Title,
    Content := u.content.getD r.Content,
    Summary := u.summary.getD r.Summary,
    Published := u.published.getD r.Published,
    UpdatedAt := now,
    CategoryID :=
      match u.categoryID with
      | some id => some id
      | none => if u.clearCategory then none else r.CategoryID,
    TagIDs := kept ++ u.addTagIDs.dedup.filter (fun i => !kept.contains i) }

/-- Modelled from the spec: `Save(ctx)` of the builder. Title and content are
"non-empty"; the update "fails with a NotFound signal when the target id is
absent"; category and tags "are referenced by id", so a reference to an id that
is not stored is a failure of the storage; "all other failures propagate as
opaque storage errors". The entity returned carries no edges. -/
def ent.ArticleUpdateOne.Save (u : ent.ArticleUpdateOne) (now : Time) (db : Store) :
    Except ent.QueryError ent.Article × Store :=
  if u.title = some "" ∨ u.content = some "" then
    (.error (.Storage (.external "ent: validator failed for field \"Article\"")), db)
  else
    match db.failure with
    | some err => (.error (.Storage err), db)
    | none =>
      match db.articles.find? (fun r => r.ID == u.id) with
      | none => (.error .NotFound, db)
      | some r =>
        if (u.categoryID.all fun id => db.categories.any fun c => c.ID == id)
            && (u.addTagIDs.all fun id => db.tags.any fun t => t.ID == id) then
          let row := u.mutate now r
          (.ok { ID := row.ID, Title := row.Title, Content := row.Content,
                 Summary := row.Summary, Published := row.Published,
                 CreatedAt := row.CreatedAt, UpdatedAt := row.UpdatedAt,
                 Edges := { Category := none, Tags := [] } },
           { db with
             articles := db.articles.map (fun x => if x.ID = u.id then u.mutate now x else x) })
        else
          (.error (.Storage (.external "ent: constraint failed: FOREIGN KEY constraint failed")),
            db)

/-- The method `ArticleRepository.Update` (article.go, lines 75-115); `now` and
`later` are the readings of the clock at its two mutations. -/
def repository.ArticleRepository.Update (now later : Time) (id : Int) (article : Article)
    (db : Store) : Except Error Article × Store :=
  let update := (((ent.ArticleUpdateOne.new id).SetTitle article.Title).SetContent
    article.Content).SetPublished article.Published
  let update := if article.Summary ≠ "" then update.SetSummary article.Summary else update
  let update :=
    match article.Category with
    | some category => update.SetCategoryID category.ID
    | none => update.ClearCategory
  let update := update.ClearTags
  match update.Save now db with
  | (.error err, db) =>
    if ent.IsNotFound err then (.error .ErrNotFound, db)
    else (.error err.toError, db)
  | (.ok entArticle, db) =>
    if article.Tags.length > 0 then
      let tagIDs := article.Tags.map (fun tag => tag.ID)
      match ((ent.ArticleUpdateOne.new entArticle.ID).AddTagIDs tagIDs).Save later db with
      | (.error err, db) => (.error err.toError, db)
      | (.ok _, db) => GetByID entArticle.ID db
    else GetByID entArticle.ID db

/-- An article service on the ent-backed repositories: as `scopedService`, with
the ent-backed `Update`. -/
def updateService (now later : Time) : ArticleService Store :=
  { scopedService with
    articleRepo :=
      { scopedService.articleRepo with Update := repository.ArticleRepository.Update now later } }

/-- A store with the two articles, the two categories and the three tags of the
fixture of `backup_test.go`. -/
def blogStore : Store :=
  { articles :=
      [{ ID := 1, Title := "Go语言入门", Content := "这是一篇关于Go语言的入门文章",
         Summary := "Go语言基础教程", Published := true,
         CreatedAt := fixtureTime, UpdatedAt := fixtureTime,
         CategoryID := some 1, TagIDs := [1, 2] },
       { ID := 2, Title := "Docker容器化部署", Content := "这是一篇关于Docker的文章",
         Summary := "Docker部署指南", Published := true,
         CreatedAt := fixtureTime, UpdatedAt := fixtureTime,
         CategoryID := some 2, TagIDs := [3] }],
    categories :=
      [{ ID := 1, Name := "技术", Description := "",
         CreatedAt := fixtureTime, UpdatedAt := fixtureTime },
       { ID := 2, Name := "运维", Description := "",
         CreatedAt := fixtureTime, UpdatedAt := fixtureTime }],
    tags :=
      [{ ID := 1, Name := "Go语言", Color := "#00ADD8",
         CreatedAt := fixtureTime, UpdatedAt := fixtureTime },
       { ID := 2, Name := "编程", Color := "#007bff",
         CreatedAt := fixtureTime, UpdatedAt := fixtureTime },
       { ID := 3, Name := "Docker", Color := "#2496ED",
         CreatedAt := fixtureTime, UpdatedAt := fixtureTime }],
    failure := none }

/-- A clock reading one minute after `fixtureTime`. -/
def laterTime : Time :=
  { fixtureTime with UnixNano := 1709967960000000000, Minute := 6 }

/-! # Theorems -/

/-! ## sanitizeFilename -/

/-- The piece appended for a rune is the one character the replacement rule gives. -/
theorem sanitizeRune_eq (r : Char) : sanitizeRune r = String.singleton (specReplace r) := by
  unfold sanitizeRune specReplace unsafeChars isPrintableASCII
  by_cases h1 : r = '/' ∨ r = '\\' ∨ r = ':' ∨ r = '*' ∨ r = '?' ∨ r = '"' ∨ r = '<' ∨ r = '>' ∨ r = '|'
  · have : r ∈ ['/', '\\', ':', '*', '?', '"', '<', '>', '|'] := by simpa using h1
    simp [h1, this]
    rfl
  · have : r ∉ ['/', '\\', ':', '*', '?', '"', '<', '>', '|'] := by simpa using h1
    rw [if_neg h1]
    by_cases h2 : r.toNat < 32 ∨ r.toNat > 126
    · have h3 : ¬ (32 ≤ r.toNat ∧ r.toNat ≤ 126) := by omega
      simp [h2, h3]
      rfl
    · have h3 : (32 ≤ r.toNat ∧ r.toNat ≤ 126) := by omega
      rw [if_neg h2, if_neg]
      simp [this, h3]

/-- The loop appends the image of the runes under the replacement rule. -/
theorem foldl_sanitize (l : List Char) (acc : String) :
    l.foldl (fun safeName r => safeName ++ sanitizeRune r) acc
      = acc ++ ⟨l.map specReplace⟩ := by
  induction l generalizing acc with
  | nil => simp [String.ext_iff]
  | cons c cs ih =>
    rw [List.foldl_cons, ih, sanitizeRune_eq]
    simp [String.ext_iff, String.singleton]

/-- The loop computes the character-by-character replacement. -/
theorem sanitizeLoop_eq (name : String) :
    sanitizeLoop name = ⟨name.data.map specReplace⟩ := by
  unfold sanitizeLoop
  rw [foldl_sanitize]
  simp [String.ext_iff]


/-- A replaced character takes one byte in UTF-8. -/
theorem specReplace_ascii (c : Char) : (specReplace c).utf8Size = 1 := by
  unfold specReplace
  split
  · rfl
  · rename_i h
    simp only [not_or, not_not, isPrintableASCII] at h
    have h2 := h.2.2
    have : c.val.toNat ≤ 126 := h2
    simp [Char.utf8Size]
    intro h3
    have h4 : (127 : UInt32).toNat < c.val.toNat := h3
    have h5 : (127 : UInt32).toNat = 127 := rfl
    omega

/-- The byte length of the replacement is its number of characters. -/
theorem utf8Len_map_specReplace (l : List Char) :
    String.utf8Len (l.map specReplace) = l.length := by
  induction l with
  | nil => rfl
  | cons c cs ih =>
    rw [List.map_cons, String.utf8Len_cons, ih, specReplace_ascii, List.length_cons]


/-- Closed form of sanitizeFilename: the first 50 characters of the replacement. -/
theorem sanitizeFilename_eq (name : String) :
    sanitizeFilename name = ⟨(name.data.map specReplace).take 50⟩ := by
  unfold sanitizeFilename
  simp only [sanitizeLoop_eq]
  have hlen : String.utf8ByteSize ⟨name.data.map specReplace⟩ = name.data.length := by
    rw [String.utf8ByteSize_mk, utf8Len_map_specReplace]
  rw [hlen]
  split
  · rename_i h
    have h50 : String.utf8Len ((name.data.map specReplace).take 50) = 50 := by
      rw [← List.map_take, utf8Len_map_specReplace, List.length_take]
      omega
    have key := String.extract_of_valid [] ((name.data.map specReplace).take 50)
      ((name.data.map specReplace).drop 50)
    simp only [List.nil_append, List.take_append_drop, String.utf8Len_nil, Nat.zero_add, h50] at key
    exact key
  · rename_i h
    have : name.data.length ≤ 50 := by omega
    rw [List.take_of_length_le (by simpa using this)]

/-- A replaced character is printable ASCII and is not unsafe. -/
theorem specReplace_safe (c : Char) :
    isPrintableASCII (specReplace c) ∧ specReplace c ∉ unsafeChars := by
  unfold specReplace
  split
  · exact ⟨by decide, by decide⟩
  · rename_i h
    simp only [not_or, not_not] at h
    exact ⟨h.2, h.1⟩

/-- C1: every character of the output of sanitizeFilename is printable ASCII
(code 32..126) and is none of the nine unsafe characters; before truncation the
loop replaces each code point that is unsafe or outside 32..126 by exactly one
underscore and copies every other code point unchanged. -/
theorem sanitizeFilename_output_safe (name : String) :
    (∀ c ∈ (sanitizeFilename name).data, (32 ≤ c.toNat ∧ c.toNat ≤ 126) ∧ c ∉ unsafeChars) ∧
    (sanitizeLoop name).data =
      name.data.map (fun c => if c ∈ unsafeChars ∨ ¬ (32 ≤ c.toNat ∧ c.toNat ≤ 126) then '_' else c) := by
  constructor
  · intro c hc
    rw [sanitizeFilename_eq] at hc
    have hc2 := List.mem_of_mem_take hc
    obtain ⟨d, _, rfl⟩ := List.mem_map.1 hc2
    exact specReplace_safe d
  · rw [sanitizeLoop_eq]
    rfl

/-- C2: the output of sanitizeFilename has at most 50 characters; it is the
first 50 characters of the character-by-character replacement when that is
longer than 50 characters, and the whole replacement otherwise. -/
theorem sanitizeFilename_length_cap (name : String) :
    (sanitizeFilename name).length ≤ 50 ∧
    sanitizeFilename name =
      if 50 < (sanitizeLoop name).length then String.mk ((sanitizeLoop name).data.take 50)
      else sanitizeLoop name := by
  constructor
  · rw [sanitizeFilename_eq]
    exact List.length_take_le 50 _
  · rw [sanitizeFilename_eq, sanitizeLoop_eq]
    split
    · rfl
    · rename_i h
      simp only [String.length, not_lt] at h
      rw [List.take_of_length_le h]

/-! ## the archive built by BackupAll -/

/-- Writing to the file created last changes that file only. -/
theorem appendAt_length (l : List ZipEntry) (e : ZipEntry) (data : String) :
    appendAt (l ++ [e]) l.length data = l ++ [{ e with Data := e.Data ++ data }] := by
  induction l with
  | nil => rfl
  | cons x xs ih => simp [appendAt, ih]

/-- The empty string is a left unit of concatenation. -/
theorem empty_append_str (s : String) : "" ++ s = s := by
  apply String.ext
  simp

/-- One loop iteration adds the files given by articleFiles. -/
theorem backupArticle_eq (rt : Runtime) (w : ZipWriter) (article : Article)
    (hw : w.faults = rt.zip) :
    backupArticle rt w article =
      { faults := rt.zip, dir := w.dir ++ articleFiles rt w.created article,
        created := w.created + 1 } := by
  obtain ⟨f, d, c⟩ := w
  simp only at hw
  subst hw
  unfold backupArticle articleFiles ZipWriter.Create
  simp only
  cases hc : rt.zip.createErr c with
  | some err => simp
  | none =>
    simp only
    cases hm : rt.MarshalIndentArticle article with
    | error err => simp
    | ok data =>
      simp only [ZipWriter.Write]
      cases hwr : rt.zip.writeErr c with
      | some err => simp
      | none => simp [appendAt_length, empty_append_str]

/-- The loop adds the files given by loopFiles. -/
theorem foldl_backupArticle (rt : Runtime) (articles : List Article) (w : ZipWriter)
    (hw : w.faults = rt.zip) :
    articles.foldl (backupArticle rt) w =
      { faults := rt.zip, dir := w.dir ++ loopFiles rt w.created articles,
        created := w.created + articles.length } := by
  induction articles generalizing w with
  | nil => obtain ⟨f, d, c⟩ := w; simp at hw; subst hw; simp [loopFiles]
  | cons a as ih =>
    rw [List.foldl_cons, backupArticle_eq rt w a hw, ih _ rfl]
    simp [loopFiles, Nat.add_assoc, Nat.add_comm 1]

/-- The info step adds the files given by infoFiles. -/
theorem backupInfoFile_eq (rt : Runtime) (w : ZipWriter) (backupData : BackupData)
    (hw : w.faults = rt.zip) :
    (backupInfoFile w backupData).dir = w.dir ++ infoFiles rt w.created backupData ∧
    (backupInfoFile w backupData).faults = rt.zip := by
  obtain ⟨f, d, c⟩ := w
  simp only at hw
  subst hw
  unfold backupInfoFile infoFiles ZipWriter.Create
  simp only
  cases hc : rt.zip.createErr c with
  | some err => simp
  | none =>
    simp only [ZipWriter.Write]
    cases hwr : rt.zip.writeErr c with
    | some err => simp
    | none => simp [appendAt_length, empty_append_str]

/-- BackupAll as a cascade of its five fatal steps, with the archive in closed form. -/
theorem BackupAll_unfold {σ : Type} (s : ArticleService σ) (rt : Runtime) (st : σ) :
    s.BackupAll rt st =
      match s.articleRepo.List backupParams st with
      | (.error err, st) => (.error (.wrapped "获取文章列表失败" err), st)
      | (.ok (articles, _), st) =>
        match rt.MarshalIndentBackup (manifestOf rt articles) with
        | .error err => (.error (.wrapped "序列化文章数据失败" err), st)
        | .ok jsonData =>
          match rt.zip.createErr 0 with
          | some err => (.error (.wrapped "创建备份文件失败" err), st)
          | none =>
            match rt.zip.writeErr 0 with
            | some err => (.error (.wrapped "写入备份文件失败" err), st)
            | none =>
              match rt.zip.closeErr with
              | some err => (.error (.wrapped "完成ZIP文件写入失败" err), st)
              | none => (.ok (backupArchive rt articles jsonData), st) := by
  unfold ArticleService.BackupAll
  simp only [backupParams]
  rcases hl : s.articleRepo.List { Page := 1, Limit := 10000, Published := none, Search := "" } st
    with ⟨r, st1⟩
  cases r with
  | error err => rfl
  | ok p =>
    obtain ⟨articles, total⟩ := p
    simp only [manifestOf]
    cases hm : rt.MarshalIndentBackup
        { BackupTime := rt.Now, ArticleCount := articles.length, Articles := articles } with
    | error err => rfl
    | ok jsonData =>
      simp only [zipNewWriter, ZipWriter.Create]
      cases hc : rt.zip.createErr 0 with
      | some err => rfl
      | none =>
        simp only [ZipWriter.Write]
        cases hw : rt.zip.writeErr 0 with
        | some err => rfl
        | none =>
          simp only
          rw [foldl_backupArticle rt articles _ rfl]
          have hi := backupInfoFile_eq rt
            { faults := rt.zip,
              dir := appendAt ([] ++ [{ Name := "articles_backup.json", Data := "" }])
                ([] : List ZipEntry).length jsonData ++ loopFiles rt (0 + 1) articles,
              created := 0 + 1 + articles.length }
            { BackupTime := rt.Now, ArticleCount := articles.length, Articles := articles } rfl
          simp only [ZipWriter.Close, hi.1, hi.2]
          cases hcl : rt.zip.closeErr with
          | some err => rfl
          | none =>
            simp [backupArchive, manifestOf, appendAt, empty_append_str, Nat.add_comm]

/-- A successful BackupAll passed the listing and the manifest serialization and returns the archive in closed form. -/
theorem BackupAll_ok_inv {σ : Type} (s : ArticleService σ) (rt : Runtime) (st st' : σ)
    (archive : List ZipEntry) (hok : s.BackupAll rt st = (.ok archive, st')) :
    ∃ articles total jsonData,
      s.articleRepo.List backupParams st = (.ok (articles, total), st') ∧
      rt.MarshalIndentBackup (manifestOf rt articles) = .ok jsonData ∧
      archive = backupArchive rt articles jsonData := by
  rw [BackupAll_unfold] at hok
  rcases hl : s.articleRepo.List backupParams st with ⟨r, st1⟩
  rw [hl] at hok
  cases r with
  | error err => simp at hok
  | ok p =>
    obtain ⟨articles, total⟩ := p
    simp only at hok
    cases hm : rt.MarshalIndentBackup (manifestOf rt articles) with
    | error err => rw [hm] at hok; simp at hok
    | ok jsonData =>
      rw [hm] at hok
      simp only at hok
      cases hc : rt.zip.createErr 0 with
      | some err => rw [hc] at hok; simp at hok
      | none =>
        rw [hc] at hok
        simp only at hok
        cases hw : rt.zip.writeErr 0 with
        | some err => rw [hw] at hok; simp at hok
        | none =>
          rw [hw] at hok
          simp only at hok
          cases hcl : rt.zip.closeErr with
          | some err => rw [hcl] at hok; simp at hok
          | none =>
            rw [hcl] at hok
            simp only [Prod.mk.injEq, Except.ok.injEq] at hok
            obtain ⟨h1, h2⟩ := hok
            subst h1 h2
            exact ⟨articles, total, jsonData, rfl, hm, rfl⟩

/-- Without writer failures the loop adds one file per article, named for it. -/
theorem loopFiles_noFaults_names (rt : Runtime) (hzip : rt.zip = noFaults) (articles : List Article)
    (k : Nat) :
    (loopFiles rt k articles).map (fun e => e.Name) = articles.map articleFilename := by
  induction articles generalizing k with
  | nil => rfl
  | cons a as ih =>
    simp only [loopFiles, List.map_append, List.map_cons, ih]
    have : (articleFiles rt k a).map (fun e => e.Name) = [articleFilename a] := by
      unfold articleFiles
      rw [hzip]
      simp only [noFaults]
      cases rt.MarshalIndentArticle a <;> rfl
    rw [this]
    rfl

/-- Without writer failures the info step adds the info file. -/
theorem infoFiles_noFaults (rt : Runtime) (hzip : rt.zip = noFaults) (k : Nat) (b : BackupData) :
    infoFiles rt k b = [{ Name := "backup_info.txt", Data := backupInfo b }] := by
  unfold infoFiles
  rw [hzip]
  rfl

/-- The path of an article lies under articles/. -/
theorem underArticles_articleFilename (a : Article) : underArticles (articleFilename a) = true := by
  unfold underArticles articleFilename
  simp only [String.data_append, List.append_assoc]
  rw [List.isPrefixOf_iff_prefix]
  exact List.prefix_append _ _

/-- C3 (as amended): when the listing returns n articles, the manifest is
serialized and the archive writer reports no failure, BackupAll succeeds and
the names of the archive are "articles_backup.json", then
"articles/<id>_<sanitizeFilename(title)>.json" for each article in listing
order, then "backup_info.txt": n+2 files, n of them under "articles/". -/
theorem BackupAll_entry_names {σ : Type} (s : ArticleService σ) (rt : Runtime) (st st' : σ)
    (articles : List Article) (total : Int) (jsonData : String)
    (hlist : s.articleRepo.List
        { Page := 1, Limit := 10000, Published := none, Search := "" } st
      = (.ok (articles, total), st'))
    (hjson : rt.MarshalIndentBackup
        { BackupTime := rt.Now, ArticleCount := articles.length, Articles := articles }
      = .ok jsonData)
    (hzip : rt.zip = noFaults) :
    ∃ archive, s.BackupAll rt st = (.ok archive, st') ∧
      archive.map (fun e => e.Name) =
        "articles_backup.json" ::
          (articles.map (fun a =>
              "articles/" ++ formatInt a.ID ++ "_" ++ sanitizeFilename a.Title ++ ".json")
            ++ ["backup_info.txt"]) ∧
      archive.length = articles.length + 2 ∧
      (archive.filter (fun e => underArticles e.Name)).length = articles.length := by
  have hnames : (backupArchive rt articles jsonData).map (fun e => e.Name) =
      "articles_backup.json" :: (articles.map articleFilename ++ ["backup_info.txt"]) := by
    simp only [backupArchive, List.map_cons, List.map_append,
      loopFiles_noFaults_names rt hzip, infoFiles_noFaults rt hzip, List.map_nil]
  have hlist2 : s.articleRepo.List backupParams st = (.ok (articles, total), st') := hlist
  have hjson2 : rt.MarshalIndentBackup (manifestOf rt articles) = .ok jsonData := hjson
  refine ⟨backupArchive rt articles jsonData, ?_, hnames, ?_, ?_⟩
  · rw [BackupAll_unfold, hlist2]
    simp only [hjson2, hzip, noFaults]
  · have := congrArg List.length hnames
    simpa using this
  · have h1 : ((backupArchive rt articles jsonData).filter (fun e => underArticles e.Name)).length
        = (((backupArchive rt articles jsonData).map (fun e => e.Name)).filter underArticles).length := by
      rw [List.filter_map, List.length_map]
      rfl
    rw [h1, hnames]
    have h2 : underArticles "articles_backup.json" = false := by decide
    have h3 : underArticles "backup_info.txt" = false := by decide
    rw [List.filter_cons_of_neg (by simp [h2]), List.filter_append,
      List.filter_cons_of_neg (by simp [h3]), List.filter_nil, List.append_nil]
    rw [List.filter_eq_self.2, List.length_map]
    intro n hn
    obtain ⟨a, _, rfl⟩ := List.mem_map.1 hn
    exact underArticles_articleFilename a

/-- C3, witness: the two-article fixture of backup_test.go. -/
theorem BackupAll_entry_names_witness :
    ∃ archive,
      (listingService (.ok ([fixtureArticle1, fixtureArticle2], 2))).BackupAll
          (jsonRuntime fixtureTime noFaults) () = (.ok archive, ()) ∧
      archive.map (fun e => e.Name) =
        "articles_backup.json" ::
          ([fixtureArticle1, fixtureArticle2].map (fun a =>
              "articles/" ++ formatInt a.ID ++ "_" ++ sanitizeFilename a.Title ++ ".json")
            ++ ["backup_info.txt"]) ∧
      archive.length = [fixtureArticle1, fixtureArticle2].length + 2 ∧
      (archive.filter (fun e => underArticles e.Name)).length
        = [fixtureArticle1, fixtureArticle2].length :=
  BackupAll_entry_names (listingService (.ok ([fixtureArticle1, fixtureArticle2], 2)))
    (jsonRuntime fixtureTime noFaults) () () [fixtureArticle1, fixtureArticle2] 2
    "\x7b\n  \"article_count\": 2,\n  \"articles\": [\"Go语言入门\", \"Docker容器化部署\"]\n\x7d"
    rfl (by decide) rfl

/-- C3, counterexample: the listing returns one article and the archive writer
never fails, yet BackupAll does not succeed, because the manifest cannot be
serialized (the article was created in the year 10000). -/
theorem BackupAll_fails_on_unserializable_manifest :
    (listingService (.ok ([farFutureArticle], 1))).articleRepo.List backupParams ()
        = (.ok ([farFutureArticle], 1), ()) ∧
      (jsonRuntime fixtureTime noFaults).zip = noFaults ∧
      (listingService (.ok ([farFutureArticle], 1))).BackupAll (jsonRuntime fixtureTime noFaults) ()
        = (.error (.wrapped "序列化文章数据失败" jsonTimeError), ()) := by
  refine ⟨rfl, rfl, ?_⟩
  decide

/-- C4: after every successful BackupAll the first file of the archive is the
manifest "articles_backup.json", the serialization of the value whose articles
are exactly the list the listing returned, in the same order, and whose
article_count is the length of that list. -/
theorem BackupAll_manifest {σ : Type} (s : ArticleService σ) (rt : Runtime) (st st' : σ)
    (archive : List ZipEntry)
    (hok : s.BackupAll rt st = (.ok archive, st')) :
    ∃ articles total jsonData,
      s.articleRepo.List
          { Page := 1, Limit := 10000, Published := none, Search := "" } st = (.ok (articles, total), st') ∧
      rt.MarshalIndentBackup
          { BackupTime := rt.Now, ArticleCount := articles.length, Articles := articles }
        = .ok jsonData ∧
      archive.head? = some { Name := "articles_backup.json", Data := jsonData } := by
  obtain ⟨articles, total, jsonData, hl, hm, rfl⟩ := BackupAll_ok_inv s rt st st' archive hok
  exact ⟨articles, total, jsonData, hl, hm, rfl⟩

/-- C4, witness: the two-article fixture of backup_test.go. -/
theorem BackupAll_manifest_witness :
    ∃ articles total jsonData,
      (listingService (.ok ([fixtureArticle1, fixtureArticle2], 2))).articleRepo.List
          backupParams () = (.ok (articles, total), ()) ∧
      (jsonRuntime fixtureTime noFaults).MarshalIndentBackup
          { BackupTime := (jsonRuntime fixtureTime noFaults).Now,
            ArticleCount := articles.length, Articles := articles }
        = .ok jsonData ∧
      (backupArchive (jsonRuntime fixtureTime noFaults) [fixtureArticle1, fixtureArticle2]
          "\x7b\n  \"article_count\": 2,\n  \"articles\": [\"Go语言入门\", \"Docker容器化部署\"]\n\x7d").head?
        = some { Name := "articles_backup.json", Data := jsonData } :=
  BackupAll_manifest (listingService (.ok ([fixtureArticle1, fixtureArticle2], 2)))
    (jsonRuntime fixtureTime noFaults) () () _ (by decide)

/-- An error is itself. -/
theorem errorsIs_refl (e : Error) : errorsIs e e = true := by
  unfold errorsIs
  simp

/-- A wrapped error is the error it wraps. -/
theorem errorsIs_wrapped (stage : String) (e : Error) : errorsIs (.wrapped stage e) e = true := by
  unfold errorsIs
  split
  · rfl
  · exact errorsIs_refl e

/-- C5: when the listing fails with error e, BackupAll returns no archive but
an error that wraps e (errors.Is holds) and whose message starts with
"获取文章列表失败". -/
theorem BackupAll_listing_error {σ : Type} (s : ArticleService σ) (rt : Runtime) (st st' : σ)
    (e : Error)
    (hlist : s.articleRepo.List
          { Page := 1, Limit := 10000, Published := none, Search := "" } st = (.error e, st')) :
    ∃ err, s.BackupAll rt st = (.error err, st') ∧ errorsIs err e = true ∧
      ∃ rest, err.Error = "获取文章列表失败" ++ rest := by
  have hlist2 : s.articleRepo.List backupParams st = (.error e, st') := hlist
  refine ⟨.wrapped "获取文章列表失败" e, ?_, errorsIs_wrapped _ e, ": " ++ e.Error, ?_⟩
  · rw [BackupAll_unfold, hlist2]
  · exact String.append_assoc "获取文章列表失败" ": " e.Error

/-- C5, witness: the mock of TestArticleService_BackupAll_RepositoryError, whose
listing returns ErrNotFound. -/
theorem BackupAll_listing_error_witness :
    ∃ err, (listingService (.error .ErrNotFound)).BackupAll (jsonRuntime fixtureTime noFaults) ()
        = (.error err, ()) ∧ errorsIs err .ErrNotFound = true ∧
      ∃ rest, err.Error = "获取文章列表失败" ++ rest :=
  BackupAll_listing_error (listingService (.error .ErrNotFound))
    (jsonRuntime fixtureTime noFaults) () () .ErrNotFound rfl

/-! ## the listing behind BackupAll -/

/-- Sorting keeps the number of rows. -/
theorem length_sortDescCreatedAt (rows : List ArticleRow) :
    (sortDescCreatedAt rows).length = rows.length := by
  unfold sortDescCreatedAt
  exact List.length_insertionSort _ _

/-- Sorting rearranges the rows. -/
theorem perm_sortDescCreatedAt (rows : List ArticleRow) :
    (sortDescCreatedAt rows).Perm rows := by
  unfold sortDescCreatedAt
  exact List.perm_insertionSort _ _

/-- The listing call of BackupAll on a working store: the 10000 most recently created articles and the total. -/
theorem List_backupParams (db : Store) (hdb : db.failure = none) :
    repository.ArticleRepository.List backupParams db =
      (.ok (((sortDescCreatedAt db.articles).take 10000).map (domainOf db),
            (db.articles.length : Int)), db) := by
  unfold repository.ArticleRepository.List
  simp only [backupParams]
  simp [ent.ArticleQuery.Count, ent.ArticleQuery.All, ent.ArticleQuery.matching,
    ent.ArticleQuery.new, ent.ArticleQuery.OrderDescCreatedAt, ent.ArticleQuery.Offset,
    ent.ArticleQuery.Limit, hdb, wrapInt64, length_sortDescCreatedAt]
  rfl


/-- A successful BackupAll on the ent-backed listing serialized the 10000 most recently created articles. -/
theorem BackupAll_store_inv (s : ArticleService Store) (rt : Runtime) (db db' : Store)
    (archive : List ZipEntry)
    (hrepo : s.articleRepo.List = repository.ArticleRepository.List)
    (hok : s.BackupAll rt db = (.ok archive, db')) :
    db.failure = none ∧
    ∃ jsonData,
      rt.MarshalIndentBackup
        (manifestOf rt (((sortDescCreatedAt db.articles).take 10000).map (domainOf db)))
          = .ok jsonData ∧
      archive.head? = some { Name := "articles_backup.json", Data := jsonData } := by
  obtain ⟨articles, total, jsonData, hl, hm, rfl⟩ := BackupAll_ok_inv s rt db db' archive hok
  rw [hrepo] at hl
  cases hf : db.failure with
  | some err =>
    exfalso
    unfold repository.ArticleRepository.List at hl
    simp [ent.ArticleQuery.Count, hf] at hl
  | none =>
    rw [List_backupParams db hf] at hl
    simp only [Prod.mk.injEq, Except.ok.injEq] at hl
    obtain ⟨⟨h1, -⟩, -⟩ := hl
    subst h1
    exact ⟨rfl, jsonData, hm, rfl⟩

/-- C6 (as amended): for every repository content of at most 10000 articles, the
manifest of a successful BackupAll on the ent-backed repository is the
serialization of a list that holds every stored article, published or not: the
listing call (page 1, limit 10000, no published filter, no search) returns a
rearrangement of all the stored articles. -/
theorem BackupAll_lists_every_article (s : ArticleService Store) (rt : Runtime)
    (db db' : Store) (archive : List ZipEntry)
    (hrepo : s.articleRepo.List = repository.ArticleRepository.List)
    (hsmall : db.articles.length ≤ 10000)
    (hok : s.BackupAll rt db = (.ok archive, db')) :
    ∃ articles jsonData,
      s.articleRepo.List
          { Page := 1, Limit := 10000, Published := none, Search := "" } db
        = (.ok (articles, (db.articles.length : Int)), db) ∧
      rt.MarshalIndentBackup
          { BackupTime := rt.Now, ArticleCount := articles.length, Articles := articles }
        = .ok jsonData ∧
      archive.head? = some { Name := "articles_backup.json", Data := jsonData } ∧
      articles.Perm (db.articles.map (domainOf db)) ∧
      ∀ row ∈ db.articles, domainOf db row ∈ articles := by
  obtain ⟨hf, jsonData, hm, hhead⟩ := BackupAll_store_inv s rt db db' archive hrepo hok
  have htake : (sortDescCreatedAt db.articles).take 10000 = sortDescCreatedAt db.articles :=
    List.take_of_length_le (by rw [length_sortDescCreatedAt]; exact hsmall)
  rw [htake] at hm
  have hperm : ((sortDescCreatedAt db.articles).map (domainOf db)).Perm
      (db.articles.map (domainOf db)) := (perm_sortDescCreatedAt db.articles).map _
  refine ⟨(sortDescCreatedAt db.articles).map (domainOf db), jsonData, ?_, hm, hhead, hperm, ?_⟩
  · rw [hrepo]
    have := List_backupParams db hf
    rw [htake] at this
    exact this
  · intro row hrow
    exact hperm.symm.subset (List.mem_map_of_mem _ hrow)

/-- C6, witness: a store of two articles, one of them unpublished. -/
theorem BackupAll_lists_every_article_witness :
    ∃ articles jsonData,
      storeService.articleRepo.List
          { Page := 1, Limit := 10000, Published := none, Search := "" } smallStore
        = (.ok (articles, (smallStore.articles.length : Int)), smallStore) ∧
      (jsonRuntime fixtureTime noFaults).MarshalIndentBackup
          { BackupTime := (jsonRuntime fixtureTime noFaults).Now,
            ArticleCount := articles.length, Articles := articles }
        = .ok jsonData ∧
      (backupArchive (jsonRuntime fixtureTime noFaults)
          (smallStore.articles.reverse.map (domainOf smallStore))
          "\x7b\n  \"article_count\": 2,\n  \"articles\": [\"news\", \"draft\"]\n\x7d").head?
        = some { Name := "articles_backup.json", Data := jsonData } ∧
      articles.Perm (smallStore.articles.map (domainOf smallStore)) ∧
      ∀ row ∈ smallStore.articles, domainOf smallStore row ∈ articles :=
  BackupAll_lists_every_article storeService (jsonRuntime fixtureTime noFaults)
    smallStore smallStore _ rfl (by decide) (by decide)

/-- The large store holds 10001 articles. -/
theorem bigStore_length : bigStore.articles.length = 10001 := by
  simp only [bigStore, List.length_map, List.length_range]

/-- The ids of the large store are pairwise different. -/
theorem bigStore_ids_nodup : (bigStore.articles.map (fun r => r.ID)).Nodup := by
  simp only [bigStore, List.map_map]
  exact (List.nodup_range 10001).map (fun a b hab => by
    simp only [Function.comp, bigRow] at hab
    exact_mod_cast hab)

/-- The large store is working. -/
theorem bigStore_failure : bigStore.failure = none := by
  simp only [bigStore]

/-- The listing call of BackupAll on the large store. -/
theorem big_hlist : repository.ArticleRepository.List backupParams bigStore =
      (.ok (((sortDescCreatedAt bigStore.articles).take 10000).map (domainOf bigStore),
            (10001 : Int)), bigStore) := by
  have hlist := List_backupParams bigStore bigStore_failure
  rw [bigStore_length] at hlist
  exact hlist

/-- The listing call of BackupAll on the large store returns 10000 articles. -/
theorem big_hlen : (((sortDescCreatedAt bigStore.articles).take 10000).map (domainOf bigStore)).length
      = 10000 := by
  rw [List.length_map, List.length_take, length_sortDescCreatedAt, bigStore_length]
  decide

/-- C6, counterexample: a store holds 10001 articles; BackupAll succeeds, its
listing returns 10000 articles out of a total of 10001, the manifest records
article_count 10000, and some stored article is missing from the list. -/
theorem BackupAll_omits_article_beyond_limit :
    ∃ articles archive,
      storeService.articleRepo.List backupParams bigStore = (.ok (articles, 10001), bigStore) ∧
      storeService.BackupAll (plainRuntime fixtureTime noFaults) bigStore
        = (.ok archive, bigStore) ∧
      (plainRuntime fixtureTime noFaults).MarshalIndentBackup
          (manifestOf (plainRuntime fixtureTime noFaults) articles)
        = .ok "\x7b\"article_count\": 10000\x7d" ∧
      archive.head? = some { Name := "articles_backup.json", Data := "\x7b\"article_count\": 10000\x7d" } ∧
      articles.length = 10000 ∧
      bigStore.articles.length = 10001 ∧
      ¬ (∀ row ∈ bigStore.articles, ∃ a ∈ articles, a.ID = row.ID) := by
  have hjson : (plainRuntime fixtureTime noFaults).MarshalIndentBackup
      (manifestOf (plainRuntime fixtureTime noFaults)
        (((sortDescCreatedAt bigStore.articles).take 10000).map (domainOf bigStore)))
      = .ok "\x7b\"article_count\": 10000\x7d" := by
    simp only [plainRuntime, manifestOf, big_hlen]
    decide
  have hl2 : storeService.articleRepo.List backupParams bigStore = _ := big_hlist
  refine ⟨((sortDescCreatedAt bigStore.articles).take 10000).map (domainOf bigStore),
    backupArchive (plainRuntime fixtureTime noFaults)
      (((sortDescCreatedAt bigStore.articles).take 10000).map (domainOf bigStore))
      "\x7b\"article_count\": 10000\x7d",
    hl2, ?_, hjson, ?_, big_hlen, bigStore_length, ?_⟩
  · rw [BackupAll_unfold, hl2]
    simp only [hjson]
    simp only [plainRuntime, noFaults]
  · simp only [backupArchive, List.head?_cons]
  · intro hall
    have hsub : bigStore.articles.map (fun r => r.ID) ⊆
        (((sortDescCreatedAt bigStore.articles).take 10000).map (domainOf bigStore)).map
          (fun a => a.ID) := by
      intro i hi
      obtain ⟨row, hrow, rfl⟩ := List.mem_map.1 hi
      obtain ⟨a, ha, hid⟩ := hall row hrow
      exact List.mem_map.2 ⟨a, ha, hid⟩
    have hle := (bigStore_ids_nodup.subperm hsub).length_le
    rw [List.length_map, List.length_map, big_hlen, bigStore_length] at hle
    omega

/-! ## failures inside BackupAll -/

/-- C7: whatever the failures of the per-article steps (creation of a file,
serialization, write), BackupAll returns an archive, provided the listing, the
manifest (serialization, creation, write) and the final close succeed. -/
theorem BackupAll_tolerates_article_failures {σ : Type} (s : ArticleService σ) (rt : Runtime)
    (st st' : σ) (articles : List Article) (total : Int) (jsonData : String)
    (hlist : s.articleRepo.List
        { Page := 1, Limit := 10000, Published := none, Search := "" } st
      = (.ok (articles, total), st'))
    (hjson : rt.MarshalIndentBackup
        { BackupTime := rt.Now, ArticleCount := articles.length, Articles := articles }
      = .ok jsonData)
    (hcreate : rt.zip.createErr 0 = none)
    (hwrite : rt.zip.writeErr 0 = none)
    (hclose : rt.zip.closeErr = none) :
    ∃ archive, s.BackupAll rt st = (.ok archive, st') ∧
      archive.head? = some { Name := "articles_backup.json", Data := jsonData } := by
  have hlist2 : s.articleRepo.List backupParams st = (.ok (articles, total), st') := hlist
  have hjson2 : rt.MarshalIndentBackup (manifestOf rt articles) = .ok jsonData := hjson
  refine ⟨backupArchive rt articles jsonData, ?_, rfl⟩
  rw [BackupAll_unfold, hlist2]
  simp only [hjson2, hcreate, hwrite, hclose]

/-- C7, witness: three articles; the file of the first cannot be created, the
second cannot be serialized, the write of the third fails. -/
theorem BackupAll_tolerates_article_failures_witness :
    ∃ archive,
      (listingService (.ok ([fixtureArticle1, fixtureArticle2,
          { fixtureArticle2 with ID := 3 }], 3))).BackupAll
          (flakyRuntime 2 (faultsAt 1 3)) () = (.ok archive, ()) ∧
      archive.head? = some
        { Name := "articles_backup.json",
          Data := "\x7b\n  \"article_count\": 3,\n  \"articles\": "
            ++ "[\"Go语言入门\", \"Docker容器化部署\", \"Docker容器化部署\"]\n\x7d" } :=
  BackupAll_tolerates_article_failures
    (listingService (.ok ([fixtureArticle1, fixtureArticle2, { fixtureArticle2 with ID := 3 }], 3)))
    (flakyRuntime 2 (faultsAt 1 3)) () ()
    [fixtureArticle1, fixtureArticle2, { fixtureArticle2 with ID := 3 }] 3 _
    rfl (by decide) (by decide) (by decide) rfl

/-- The encoder is a function of the value it is given: an article that was
serialized as part of the manifest is serialized on its own as well, so that in
a run of BackupAll that got past the manifest no serialization inside the loop
fails. -/
theorem jsonRuntime_article_of_manifest (now : Time) (faults : ZipFaults) (b : BackupData)
    (jsonData : String) (h : (jsonRuntime now faults).MarshalIndentBackup b = .ok jsonData) :
    ∀ a ∈ b.Articles,
      ∃ articleData, (jsonRuntime now faults).MarshalIndentArticle a = .ok articleData := by
  intro a ha
  by_cases hall : (timeMarshals b.BackupTime && b.Articles.all articleMarshals) = true
  · have ha2 : articleMarshals a = true := by
      simp only [Bool.and_eq_true, List.all_eq_true] at hall
      exact hall.2 a ha
    simp [jsonRuntime, ha2]
  · exfalso
    unfold jsonRuntime at h
    dsimp only at h
    rw [if_neg hall] at h
    cases h

/-- The info text contains the count marker. -/
theorem backupInfo_count_marker (b : BackupData) :
    ∃ pre post, backupInfo b = pre ++ "文章总数: " ++ formatInt b.ArticleCount ++ "\n" ++ post := by
  refine ⟨"博客文章备份\n备份时间: " ++ b.BackupTime.Format ++ "\n",
    "备份格式: JSON\n备份工具: goblog backend\n\n文件说明:\n"
      ++ "- articles_backup.json: 完整的文章备份数据\n"
      ++ "- articles/: 每个文章的单独文件\n"
      ++ "- backup_info.txt: 备份信息（本文件）\n", ?_⟩
  apply String.ext
  simp [backupInfo, String.data_append]

/-- The info text contains the time line. -/
theorem backupInfo_time_line (b : BackupData) :
    ∃ pre post, backupInfo b = pre ++ "\n备份时间: " ++ b.BackupTime.Format ++ "\n" ++ post := by
  refine ⟨"博客文章备份",
    "文章总数: " ++ formatInt b.ArticleCount
      ++ "\n备份格式: JSON\n备份工具: goblog backend\n\n文件说明:\n"
      ++ "- articles_backup.json: 完整的文章备份数据\n"
      ++ "- articles/: 每个文章的单独文件\n"
      ++ "- backup_info.txt: 备份信息（本文件）\n", ?_⟩
  apply String.ext
  simp [backupInfo, String.data_append]

/-- When the info file is created and written it is the last file of the archive. -/
theorem backupArchive_getLast (rt : Runtime) (articles : List Article) (jsonData : String)
    (hcreate : rt.zip.createErr (articles.length + 1) = none)
    (hwrite : rt.zip.writeErr (articles.length + 1) = none) :
    (backupArchive rt articles jsonData).getLast? =
      some { Name := "backup_info.txt", Data := backupInfo (manifestOf rt articles) } := by
  have hinfo : infoFiles rt (articles.length + 1) (manifestOf rt articles)
      = [{ Name := "backup_info.txt", Data := backupInfo (manifestOf rt articles) }] := by
    unfold infoFiles
    rw [hcreate, hwrite]
  unfold backupArchive
  rw [hinfo, ← List.cons_append, List.getLast?_append]
  rfl

/-- C9: for every successful BackupAll over the n listed articles, whose
archive writer is the one it builds over an in-memory buffer and reports no
failure, the archive holds the file "backup_info.txt" as its last file and
under no other name; it contains the marker "文章总数: n" with the n that is the
manifest's article_count, and the line "备份时间: " followed by the manifest's
backup_time in the layout 2006-01-02 15:04:05. -/
theorem BackupAll_info_file {σ : Type} (s : ArticleService σ) (rt : Runtime) (st st' : σ)
    (articles : List Article) (total : Int) (archive : List ZipEntry)
    (hlist : s.articleRepo.List
          { Page := 1, Limit := 10000, Published := none, Search := "" } st = (.ok (articles, total), st'))
    (hok : s.BackupAll rt st = (.ok archive, st'))
    (hzip : rt.zip = noFaults) :
    ∃ jsonData info,
      rt.MarshalIndentBackup
          { BackupTime := rt.Now, ArticleCount := articles.length, Articles := articles }
        = .ok jsonData ∧
      archive.head? = some { Name := "articles_backup.json", Data := jsonData } ∧
      archive.getLast? = some { Name := "backup_info.txt", Data := info } ∧
      (∀ e ∈ archive, e.Name = "backup_info.txt" → e.Data = info) ∧
      (∃ pre post, info = pre ++ "文章总数: " ++ formatInt articles.length ++ "\n" ++ post) ∧
      (∃ pre post, info = pre ++ "\n备份时间: " ++ rt.Now.Format ++ "\n" ++ post) := by
  obtain ⟨articles2, total2, jsonData, hl, hm, rfl⟩ := BackupAll_ok_inv s rt st st' archive hok
  have hlist2 : s.articleRepo.List backupParams st = (.ok (articles, total), st') := hlist
  rw [hlist2] at hl
  simp only [Prod.mk.injEq, Except.ok.injEq] at hl
  obtain ⟨⟨h1, -⟩, -⟩ := hl
  subst h1
  have hcreate : rt.zip.createErr (articles.length + 1) = none := by rw [hzip]; rfl
  have hwrite : rt.zip.writeErr (articles.length + 1) = none := by rw [hzip]; rfl
  refine ⟨jsonData, backupInfo (manifestOf rt articles), hm, rfl,
    backupArchive_getLast rt articles jsonData hcreate hwrite, ?_,
    backupInfo_count_marker (manifestOf rt articles),
    backupInfo_time_line (manifestOf rt articles)⟩
  intro e he hname
  unfold backupArchive at he
  rw [infoFiles_noFaults rt hzip] at he
  rcases List.mem_cons.1 he with h | h
  · rw [h] at hname
    have hname2 : "articles_backup.json" = "backup_info.txt" := hname
    exact absurd hname2 (by decide)
  · rcases List.mem_append.1 h with h | h
    · exfalso
      have hn : e.Name ∈ (loopFiles rt 1 articles).map (fun e => e.Name) :=
        List.mem_map.2 ⟨e, h, rfl⟩
      rw [loopFiles_noFaults_names rt hzip] at hn
      obtain ⟨a, -, ha⟩ := List.mem_map.1 hn
      have hu := underArticles_articleFilename a
      rw [ha, hname] at hu
      exact absurd hu (by decide)
    · rw [List.mem_singleton] at h
      rw [h]

/-- C9, witness: the two-article fixture of backup_test.go, whose clock reads
2024-03-09 07:05:00. -/
theorem BackupAll_info_file_witness :
    fixtureTime.Format = "2024-03-09 07:05:00" ∧
    ∃ jsonData info,
      (jsonRuntime fixtureTime noFaults).MarshalIndentBackup
          { BackupTime := (jsonRuntime fixtureTime noFaults).Now,
            ArticleCount := [fixtureArticle1, fixtureArticle2].length,
            Articles := [fixtureArticle1, fixtureArticle2] }
        = .ok jsonData ∧
      (backupArchive (jsonRuntime fixtureTime noFaults) [fixtureArticle1, fixtureArticle2]
          "\x7b\n  \"article_count\": 2,\n  \"articles\": [\"Go语言入门\", \"Docker容器化部署\"]\n\x7d").head?
        = some { Name := "articles_backup.json", Data := jsonData } ∧
      (backupArchive (jsonRuntime fixtureTime noFaults) [fixtureArticle1, fixtureArticle2]
          "\x7b\n  \"article_count\": 2,\n  \"articles\": [\"Go语言入门\", \"Docker容器化部署\"]\n\x7d").getLast?
        = some { Name := "backup_info.txt", Data := info } ∧
      (∀ e ∈ backupArchive (jsonRuntime fixtureTime noFaults) [fixtureArticle1, fixtureArticle2]
          "\x7b\n  \"article_count\": 2,\n  \"articles\": [\"Go语言入门\", \"Docker容器化部署\"]\n\x7d",
        e.Name = "backup_info.txt" → e.Data = info) ∧
      (∃ pre post, info = pre ++ "文章总数: "
          ++ formatInt [fixtureArticle1, fixtureArticle2].length ++ "\n" ++ post) ∧
      (∃ pre post, info = pre ++ "\n备份时间: "
          ++ (jsonRuntime fixtureTime noFaults).Now.Format ++ "\n" ++ post) :=
  ⟨by decide,
   BackupAll_info_file (listingService (.ok ([fixtureArticle1, fixtureArticle2], 2)))
    (jsonRuntime fixtureTime noFaults) () () [fixtureArticle1, fixtureArticle2] 2 _
    rfl (by decide) rfl⟩

/-! ## Create -/

/-- The ent-backed lookup of an id no stored category has reports NotFound. -/
theorem GetByID_absent (db : Store) (id : Int) (hdb : db.failure = none)
    (habs : ∀ c ∈ db.categories, c.ID ≠ id) :
    repository.CategoryRepository.GetByID id db = (.error .ErrNotFound, db) := by
  have hf : db.categories.filter (fun c => c.ID == id) = [] := by
    rw [List.filter_eq_nil_iff]
    intro c hc
    simpa using habs c hc
  simp [repository.CategoryRepository.GetByID, ent.CategoryOnly, hdb, hf, ent.IsNotFound]

/-- C10: when the category_id of the request is present and the category
lookup reports NotFound (the id refers to no existing category),
ArticleService.Create fails with NotFound in the state the lookup left, and the
result does not depend on the article repository's Create, which is never
invoked: no article is persisted. -/
theorem Create_category_not_found {σ : Type} (s : ArticleService σ) (req : ArticleCreateRequest)
    (id : Int) (st st' : σ)
    (hreq : req.CategoryID = some id)
    (hmiss : s.categoryRepo.GetByID id st = (.error .ErrNotFound, st')) :
    s.Create req st = (.error .ErrNotFound, st') ∧
    ∀ create : Article → σ → Except Error Article × σ,
      ({ s with articleRepo := { s.articleRepo with Create := create } } :
        ArticleService σ).Create req st = (.error .ErrNotFound, st') := by
  constructor
  · unfold ArticleService.Create
    simp only [hreq, hmiss]
  · intro create
    unfold ArticleService.Create
    simp only [hreq, hmiss]

/-- C10, witness: a request naming category 99 on a store whose only category
has id 1; the store is left as it was. -/
theorem Create_category_not_found_witness :
    storeService.Create
        { Title := "t", Content := "c", Summary := "", Published := true,
          CategoryID := some 99, TagIDs := [] } smallStore
      = (.error .ErrNotFound, smallStore) ∧
    ∀ create : Article → Store → Except Error Article × Store,
      ({ storeService with articleRepo := { storeService.articleRepo with Create := create } } :
        ArticleService Store).Create
          { Title := "t", Content := "c", Summary := "", Published := true,
            CategoryID := some 99, TagIDs := [] } smallStore
        = (.error .ErrNotFound, smallStore) :=
  Create_category_not_found storeService
    { Title := "t", Content := "c", Summary := "", Published := true,
      CategoryID := some 99, TagIDs := [] } 99 smallStore smallStore rfl (by decide)

/-! ## category and tag services -/

/-- CategoryService.Create hands a category with the request's name and
description to the repository when the name lookup reports NotFound. -/
theorem CategoryService_Create_of_notFound {σ : Type} (s : CategoryService σ)
    (req : CategoryCreateRequest) (st st1 : σ)
    (hmiss : s.categoryRepo.GetByName req.Name st = (.error .ErrNotFound, st1)) :
    s.Create req st =
      s.categoryRepo.Create
        { ID := 0, Name := req.Name, Description := req.Description,
          CreatedAt := zeroTime, UpdatedAt := zeroTime } st1 := by
  unfold CategoryService.Create
  simp only [hmiss]
  simp

/-- The ent-backed Create returns an entity with the name and the description it
was given. -/
theorem CategoryRepository_Create_echo (now : Time) (cat c : Category) (db db1 : Store)
    (h : repository.CategoryRepository.Create now cat db = (.ok c, db1)) :
    c.Name = cat.Name ∧ c.Description = cat.Description := by
  unfold repository.CategoryRepository.Create ent.CategoryCreateSave at h
  cases hf : db.failure with
  | some err => simp [hf] at h
  | none =>
    simp only [hf] at h
    by_cases h1 : cat.Name = ""
    · simp [h1] at h
    · by_cases h2 : db.categories.any (fun c => c.Name == cat.Name) = true
      · simp [h1, h2] at h
      · simp only [h1, h2, if_false] at h
        simp only [Bool.false_eq_true, if_false, Prod.mk.injEq, Except.ok.injEq] at h
        obtain ⟨hc, -⟩ := h
        subst hc
        simp only [repository.CategoryRepository.entToDomain]
        refine ⟨trivial, ?_⟩
        by_cases h3 : cat.Description = ""
        · simp [h3]
        · simp [h3]

/-- C13: when the name lookup reports NotFound, CategoryService.Create calls the
repository Create with a category holding exactly the request's name and
description, and returns its result; with the ent-backed repository Create, an
entity that is returned has the name and the description of the request. -/
theorem CategoryService_Create_fresh_name (s : CategoryService Store) (now : Time)
    (req : CategoryCreateRequest) (db db1 : Store)
    (hrepo : s.categoryRepo.Create = repository.CategoryRepository.Create now)
    (hmiss : s.categoryRepo.GetByName req.Name db = (.error .ErrNotFound, db1)) :
    s.Create req db =
      s.categoryRepo.Create
        { ID := 0, Name := req.Name, Description := req.Description,
          CreatedAt := zeroTime, UpdatedAt := zeroTime } db1 ∧
    ∀ c db2, s.Create req db = (.ok c, db2) →
      c.Name = req.Name ∧ c.Description = req.Description := by
  have h1 := CategoryService_Create_of_notFound s req db db1 hmiss
  refine ⟨h1, ?_⟩
  intro c db2 hc
  rw [h1, hrepo] at hc
  exact CategoryRepository_Create_echo now _ c db1 db2 hc

/-- C13, witness: the request of TestCategoryService_Create on a store that
holds another category; the category is stored under the next id. -/
theorem CategoryService_Create_fresh_name_witness :
    ((storeCategoryService fixtureTime).Create
        { Name := "新分类", Description := "技术相关分类" } smallStore).1 =
      .ok { ID := 2, Name := "新分类", Description := "技术相关分类",
            CreatedAt := fixtureTime, UpdatedAt := fixtureTime } ∧
    (storeCategoryService fixtureTime).Create
        { Name := "新分类", Description := "技术相关分类" } smallStore =
      (storeCategoryService fixtureTime).categoryRepo.Create
        { ID := 0, Name := "新分类", Description := "技术相关分类",
          CreatedAt := zeroTime, UpdatedAt := zeroTime } smallStore ∧
    ∀ c db2, (storeCategoryService fixtureTime).Create
        { Name := "新分类", Description := "技术相关分类" } smallStore = (.ok c, db2) →
      c.Name = "新分类" ∧ c.Description = "技术相关分类" :=
  ⟨by decide,
   CategoryService_Create_fresh_name (storeCategoryService fixtureTime) fixtureTime
    { Name := "新分类", Description := "技术相关分类" } smallStore smallStore rfl (by decide)⟩
/-- C14: when the name of a create request is held by an existing entity (the
name lookup returns it), CategoryService.Create and TagService.Create fail with
DuplicateResource whatever the description or colour of the request; no entity
is returned and the result does not depend on the repository Create, which is
never invoked. -/
theorem Create_duplicate_name {σ τ : Type} (cs : CategoryService σ) (ts : TagService τ)
    (name : String) (existingCategory : Category) (st st1 : σ)
    (tagName : String) (existingTag : Tag) (tst tst1 : τ)
    (hcat : cs.categoryRepo.GetByName name st = (.ok existingCategory, st1))
    (htag : ts.tagRepo.GetByName tagName tst = (.ok existingTag, tst1)) :
    (∀ description,
      cs.Create { Name := name, Description := description } st
        = (.error .ErrDuplicateResource, st1) ∧
      ∀ create : Category → σ → Except Error Category × σ,
        ({ categoryRepo := { cs.categoryRepo with Create := create } } : CategoryService σ).Create
            { Name := name, Description := description } st
          = (.error .ErrDuplicateResource, st1)) ∧
    (∀ color,
      ts.Create { Name := tagName, Color := color } tst
        = (.error .ErrDuplicateResource, tst1) ∧
      ∀ create : Tag → τ → Except Error Tag × τ,
        ({ tagRepo := { ts.tagRepo with Create := create } } : TagService τ).Create
            { Name := tagName, Color := color } tst
          = (.error .ErrDuplicateResource, tst1)) := by
  constructor
  · intro description
    constructor
    · unfold CategoryService.Create
      simp only [hcat]
    · intro create
      unfold CategoryService.Create
      simp only [hcat]
  · intro color
    constructor
    · unfold TagService.Create
      simp only [htag]
    · intro create
      unfold TagService.Create
      simp only [htag]

/-- C14, witness: the fixture of TestCategoryService_Create_Duplicate, a
category named "技术" exists; likewise a tag named "Go语言". -/
theorem Create_duplicate_name_witness :
    (∀ description,
      (⟨memCategoryRepo⟩ : CategoryService (Slice Category)).Create
          { Name := "技术", Description := description } [fixtureCategory]
        = (.error .ErrDuplicateResource, [fixtureCategory]) ∧
      ∀ create : Category → Slice Category → Except Error Category × Slice Category,
        ({ categoryRepo := { memCategoryRepo with Create := create } } :
          CategoryService (Slice Category)).Create
            { Name := "技术", Description := description } [fixtureCategory]
          = (.error .ErrDuplicateResource, [fixtureCategory])) ∧
    (∀ color,
      (⟨memTagRepo⟩ : TagService (Slice Tag)).Create
          { Name := "Go语言", Color := color } [fixtureTag]
        = (.error .ErrDuplicateResource, [fixtureTag]) ∧
      ∀ create : Tag → Slice Tag → Except Error Tag × Slice Tag,
        ({ tagRepo := { memTagRepo with Create := create } } : TagService (Slice Tag)).Create
            { Name := "Go语言", Color := color } [fixtureTag]
          = (.error .ErrDuplicateResource, [fixtureTag])) :=
  Create_duplicate_name ⟨memCategoryRepo⟩ ⟨memTagRepo⟩ "技术" fixtureCategory
    [fixtureCategory] [fixtureCategory] "Go语言" fixtureTag [fixtureTag] [fixtureTag]
    (by decide) (by decide)

/-- C16: when the name lookup reports NotFound, TagService.Create hands the
repository a tag with the request's name, and with the colour "#007bff" when the
request's colour is empty and the request's colour otherwise. -/
theorem TagService_Create_colour {σ : Type} (s : TagService σ) (req : TagCreateRequest)
    (st st1 : σ)
    (hmiss : s.tagRepo.GetByName req.Name st = (.error .ErrNotFound, st1)) :
    s.Create req st =
      s.tagRepo.Create
        { ID := 0, Name := req.Name,
          Color := if req.Color = "" then "#007bff" else req.Color,
          CreatedAt := zeroTime, UpdatedAt := zeroTime } st1 := by
  unfold TagService.Create
  simp only [hmiss, tagOfRequest]
  by_cases h : req.Color = "" <;> simp [h]

/-- C16, witness: the request of TestTagService_Create_WithoutColor, with an
empty colour; the stored tag has the colour "#007bff". -/
theorem TagService_Create_colour_witness :
    ((⟨memTagRepo⟩ : TagService (Slice Tag)).Create { Name := "编程", Color := "" }
        [fixtureTag]).1
      = .ok { ID := 2, Name := "编程", Color := "#007bff",
              CreatedAt := zeroTime, UpdatedAt := zeroTime } ∧
    (⟨memTagRepo⟩ : TagService (Slice Tag)).Create { Name := "编程", Color := "" } [fixtureTag] =
      memTagRepo.Create
        { ID := 0, Name := "编程",
          Color := if ("" : String) = "" then "#007bff" else "",
          CreatedAt := zeroTime, UpdatedAt := zeroTime } [fixtureTag] :=
  ⟨by decide,
   TagService_Create_colour ⟨memTagRepo⟩ { Name := "编程", Color := "" }
     [fixtureTag] [fixtureTag] (by decide)⟩
/-- C15: for an existing category or tag with id `id` and a name lookup that
does not fail with a storage error, Update is rejected with DuplicateResource
when the name lookup finds an entity whose id differs from `id`, and otherwise
(the name is free, or held by the entity itself, as when it keeps its own name)
it is the call of the repository Update. Hence, as long as the repository Update
does not itself report DuplicateResource, Update fails with DuplicateResource if
and only if the lookup finds an entity with another id. -/
theorem Update_duplicate_iff {σ τ : Type} (cs : CategoryService σ) (ts : TagService τ)
    (id : Int) (req : CategoryUpdateRequest) (current : Category)
    (found : Except Error Category) (st st1 st2 : σ)
    (tagID : Int) (treq : TagUpdateRequest) (currentTag : Tag)
    (foundTag : Except Error Tag) (tst tst1 tst2 : τ)
    (hget : cs.categoryRepo.GetByID id st = (.ok current, st1))
    (hname : cs.categoryRepo.GetByName req.Name st1 = (found, st2))
    (hfound : ∀ err, found = .error err → err = .ErrNotFound)
    (htget : ts.tagRepo.GetByID tagID tst = (.ok currentTag, tst1))
    (htname : ts.tagRepo.GetByName treq.Name tst1 = (foundTag, tst2))
    (htfound : ∀ err, foundTag = .error err → err = .ErrNotFound) :
    ((((∃ e, found = .ok e ∧ e.ID ≠ id) ∧
          cs.Update id req st = (.error .ErrDuplicateResource, st2)) ∨
        ((¬ ∃ e, found = .ok e ∧ e.ID ≠ id) ∧
          cs.Update id req st =
            cs.categoryRepo.Update id
              { ID := 0, Name := req.Name, Description := req.Description,
                CreatedAt := zeroTime, UpdatedAt := zeroTime } st2)) ∧
      ((cs.categoryRepo.Update id
            { ID := 0, Name := req.Name, Description := req.Description,
              CreatedAt := zeroTime, UpdatedAt := zeroTime } st2).1
          ≠ .error .ErrDuplicateResource →
        ((cs.Update id req st).1 = .error .ErrDuplicateResource ↔
          ∃ e, found = .ok e ∧ e.ID ≠ id))) ∧
    ((((∃ e, foundTag = .ok e ∧ e.ID ≠ tagID) ∧
          ts.Update tagID treq tst = (.error .ErrDuplicateResource, tst2)) ∨
        ((¬ ∃ e, foundTag = .ok e ∧ e.ID ≠ tagID) ∧
          ts.Update tagID treq tst =
            ts.tagRepo.Update tagID
              { ID := 0, Name := treq.Name,
                Color := if treq.Color = "" then "#007bff" else treq.Color,
                CreatedAt := zeroTime, UpdatedAt := zeroTime } tst2)) ∧
      ((ts.tagRepo.Update tagID
            { ID := 0, Name := treq.Name,
              Color := if treq.Color = "" then "#007bff" else treq.Color,
              CreatedAt := zeroTime, UpdatedAt := zeroTime } tst2).1
          ≠ .error .ErrDuplicateResource →
        ((ts.Update tagID treq tst).1 = .error .ErrDuplicateResource ↔
          ∃ e, foundTag = .ok e ∧ e.ID ≠ tagID))) := by
  have hcol : tagOfRequest treq.Name treq.Color =
      { ID := 0, Name := treq.Name, Color := if treq.Color = "" then "#007bff" else treq.Color,
        CreatedAt := zeroTime, UpdatedAt := zeroTime } := by
    unfold tagOfRequest
    by_cases h : treq.Color = "" <;> simp [h]
  constructor
  · have key : ((∃ e, found = .ok e ∧ e.ID ≠ id) ∧
          cs.Update id req st = (.error .ErrDuplicateResource, st2)) ∨
        ((¬ ∃ e, found = .ok e ∧ e.ID ≠ id) ∧
          cs.Update id req st =
            cs.categoryRepo.Update id
              { ID := 0, Name := req.Name, Description := req.Description,
                CreatedAt := zeroTime, UpdatedAt := zeroTime } st2) := by
      unfold CategoryService.Update
      simp only [hget, hname]
      cases found with
      | ok e =>
        by_cases he : e.ID = id
        · right
          exact ⟨by simp [he], by simp [he]⟩
        · left
          exact ⟨⟨e, rfl, he⟩, by simp [he]⟩
      | error err =>
        right
        have := hfound err rfl
        subst this
        exact ⟨by simp, by simp⟩
    refine ⟨key, ?_⟩
    intro hupd
    rcases key with ⟨h1, h2⟩ | ⟨h1, h2⟩
    · rw [h2]
      exact ⟨fun _ => h1, fun _ => rfl⟩
    · rw [h2]
      exact ⟨fun h => absurd h hupd, fun h => absurd h h1⟩
  · have key : ((∃ e, foundTag = .ok e ∧ e.ID ≠ tagID) ∧
          ts.Update tagID treq tst = (.error .ErrDuplicateResource, tst2)) ∨
        ((¬ ∃ e, foundTag = .ok e ∧ e.ID ≠ tagID) ∧
          ts.Update tagID treq tst =
            ts.tagRepo.Update tagID
              { ID := 0, Name := treq.Name,
                Color := if treq.Color = "" then "#007bff" else treq.Color,
                CreatedAt := zeroTime, UpdatedAt := zeroTime } tst2) := by
      unfold TagService.Update
      simp only [htget, htname, hcol]
      cases foundTag with
      | ok e =>
        by_cases he : e.ID = tagID
        · right
          exact ⟨by simp [he], by simp [he]⟩
        · left
          exact ⟨⟨e, rfl, he⟩, by simp [he]⟩
      | error err =>
        right
        have := htfound err rfl
        subst this
        exact ⟨by simp, by simp⟩
    refine ⟨key, ?_⟩
    intro htupd
    rcases key with ⟨h1, h2⟩ | ⟨h1, h2⟩
    · rw [h2]
      exact ⟨fun _ => h1, fun _ => rfl⟩
    · rw [h2]
      exact ⟨fun h => absurd h htupd, fun h => absurd h h1⟩

/-- C15, witness: the category with id 1 is updated to its own name "技术" while
another category exists, and the tag with id 1 to its own name "Go语言"; both
updates reach the repository and succeed. -/
theorem Update_duplicate_iff_witness :
    (((⟨memCategoryRepo⟩ : CategoryService (Slice Category)).Update 1
          { Name := "技术", Description := "新的描述" } [fixtureCategory, fixtureCategory2]).1
        = .ok { fixtureCategory with Description := "新的描述" }) ∧
    (((⟨memTagRepo⟩ : TagService (Slice Tag)).Update 1 { Name := "Go语言", Color := "" }
          [fixtureTag, fixtureTag2]).1
        = .ok { fixtureTag with Color := "#007bff" }) ∧
    ((((∃ e, (Except.ok fixtureCategory : Except Error Category) = .ok e ∧ e.ID ≠ 1) ∧
          (⟨memCategoryRepo⟩ : CategoryService (Slice Category)).Update 1
              { Name := "技术", Description := "新的描述" } [fixtureCategory, fixtureCategory2]
            = (.error .ErrDuplicateResource, [fixtureCategory, fixtureCategory2])) ∨
        ((¬ ∃ e, (Except.ok fixtureCategory : Except Error Category) = .ok e ∧ e.ID ≠ 1) ∧
          (⟨memCategoryRepo⟩ : CategoryService (Slice Category)).Update 1
              { Name := "技术", Description := "新的描述" } [fixtureCategory, fixtureCategory2] =
            memCategoryRepo.Update 1
              { ID := 0, Name := "技术", Description := "新的描述",
                CreatedAt := zeroTime, UpdatedAt := zeroTime }
              [fixtureCategory, fixtureCategory2])) ∧
      ((memCategoryRepo.Update 1
            { ID := 0, Name := "技术", Description := "新的描述",
              CreatedAt := zeroTime, UpdatedAt := zeroTime }
            [fixtureCategory, fixtureCategory2]).1
          ≠ .error .ErrDuplicateResource →
        (((⟨memCategoryRepo⟩ : CategoryService (Slice Category)).Update 1
            { Name := "技术", Description := "新的描述" }
            [fixtureCategory, fixtureCategory2]).1 = .error .ErrDuplicateResource ↔
          ∃ e, (Except.ok fixtureCategory : Except Error Category) = .ok e ∧ e.ID ≠ 1))) ∧
    ((((∃ e, (Except.ok fixtureTag : Except Error Tag) = .ok e ∧ e.ID ≠ 1) ∧
          (⟨memTagRepo⟩ : TagService (Slice Tag)).Update 1 { Name := "Go语言", Color := "" }
              [fixtureTag, fixtureTag2]
            = (.error .ErrDuplicateResource, [fixtureTag, fixtureTag2])) ∨
        ((¬ ∃ e, (Except.ok fixtureTag : Except Error Tag) = .ok e ∧ e.ID ≠ 1) ∧
          (⟨memTagRepo⟩ : TagService (Slice Tag)).Update 1 { Name := "Go语言", Color := "" }
              [fixtureTag, fixtureTag2] =
            memTagRepo.Update 1
              { ID := 0, Name := "Go语言",
                Color := if ("" : String) = "" then "#007bff" else "",
                CreatedAt := zeroTime, UpdatedAt := zeroTime }
              [fixtureTag, fixtureTag2])) ∧
      ((memTagRepo.Update 1
            { ID := 0, Name := "Go语言",
              Color := if ("" : String) = "" then "#007bff" else "",
              CreatedAt := zeroTime, UpdatedAt := zeroTime }
            [fixtureTag, fixtureTag2]).1
          ≠ .error .ErrDuplicateResource →
        (((⟨memTagRepo⟩ : TagService (Slice Tag)).Update 1 { Name := "Go语言", Color := "" }
            [fixtureTag, fixtureTag2]).1 = .error .ErrDuplicateResource ↔
          ∃ e, (Except.ok fixtureTag : Except Error Tag) = .ok e ∧ e.ID ≠ 1))) :=
  ⟨by decide, by decide,
   Update_duplicate_iff ⟨memCategoryRepo⟩ ⟨memTagRepo⟩
    1 { Name := "技术", Description := "新的描述" } fixtureCategory (.ok fixtureCategory)
    [fixtureCategory, fixtureCategory2] [fixtureCategory, fixtureCategory2]
    [fixtureCategory, fixtureCategory2]
    1 { Name := "Go语言", Color := "" } fixtureTag (.ok fixtureTag)
    [fixtureTag, fixtureTag2] [fixtureTag, fixtureTag2] [fixtureTag, fixtureTag2]
    (by decide) (by decide) (by intro err h; cases h)
    (by decide) (by decide) (by intro err h; cases h)⟩

/-! ## tag validation of the article service -/

/-- Create after its category step, for a request with tag ids whose lookup
returns: InvalidInput when the counts differ, else the repository Create. -/
theorem Create_tags_step {σ : Type} (s : ArticleService σ) (req : ArticleCreateRequest)
    (st st1 st2 : σ) (cat : Option Category) (tags : List Tag)
    (hcat : categoryResolved s req.CategoryID st st1 cat)
    (hne : req.TagIDs ≠ [])
    (hlook : s.tagRepo.GetByIDs req.TagIDs st1 = (.ok tags, st2)) :
    s.Create req st =
      if tags.length ≠ req.TagIDs.length then (.error .ErrInvalidInput, st2)
      else s.articleRepo.Create
        (articleOf req.Title req.Content req.Summary req.Published cat tags) st2 := by
  have hlen : req.TagIDs.length > 0 := List.length_pos.2 hne
  unfold ArticleService.Create
  cases hc : req.CategoryID with
  | none =>
    rw [hc] at hcat
    obtain ⟨h1, h2⟩ := hcat
    subst h1 h2
    simp only [hlen, if_true, hlook]
    rfl
  | some id =>
    rw [hc] at hcat
    obtain ⟨category, h1, h2⟩ := hcat
    subst h2
    simp only [h1, hlen, if_true, hlook]
    rfl

/-- Update after its existence check and category step, in the same way. -/
theorem Update_tags_step {σ : Type} (s : ArticleService σ) (id : Int)
    (req : ArticleUpdateRequest) (current : Article)
    (st0 st st1 st2 : σ) (cat : Option Category) (tags : List Tag)
    (hget : s.articleRepo.GetByID id st0 = (.ok current, st))
    (hcat : categoryResolved s req.CategoryID st st1 cat)
    (hne : req.TagIDs ≠ [])
    (hlook : s.tagRepo.GetByIDs req.TagIDs st1 = (.ok tags, st2)) :
    s.Update id req st0 =
      if tags.length ≠ req.TagIDs.length then (.error .ErrInvalidInput, st2)
      else s.articleRepo.Update id
        (articleOf req.Title req.Content req.Summary req.Published cat tags) st2 := by
  have hlen : req.TagIDs.length > 0 := List.length_pos.2 hne
  unfold ArticleService.Update
  simp only [hget]
  cases hc : req.CategoryID with
  | none =>
    rw [hc] at hcat
    obtain ⟨h1, h2⟩ := hcat
    subst h1 h2
    simp only [hlen, if_true, hlook]
    rfl
  | some cid =>
    rw [hc] at hcat
    obtain ⟨category, h1, h2⟩ := hcat
    subst h2
    simp only [h1, hlen, if_true, hlook]
    rfl

/-- A faithful lookup returns as many tags as ids were asked for exactly when
the ids are pairwise different and all exist. -/
theorem tagLookupFaithful_length (exist : Int → Prop) (ids : List Int) (tags : List Tag)
    (hf : tagLookupFaithful exist ids tags) :
    tags.length = ids.length ↔ ids.Nodup ∧ ∀ i ∈ ids, exist i := by
  obtain ⟨hnd, hmem⟩ := hf
  have hsub : tags.map (fun t => t.ID) ⊆ ids := fun i hi => ((hmem i).1 hi).1
  have hsp := hnd.subperm hsub
  constructor
  · intro hlen
    have hperm : (tags.map (fun t => t.ID)).Perm ids :=
      hsp.perm_of_length_le (by rw [List.length_map]; omega)
    refine ⟨hperm.nodup_iff.1 hnd, ?_⟩
    intro i hi
    exact ((hmem i).1 (hperm.symm.subset hi)).2
  · rintro ⟨hidn, hall⟩
    have hsub2 : ids ⊆ tags.map (fun t => t.ID) := fun i hi => (hmem i).2 ⟨hi, hall i hi⟩
    have h1 := hsp.length_le
    have h2 := (hidn.subperm hsub2).length_le
    rw [List.length_map] at h1 h2
    omega
/-- The ent-backed lookup of tags by ids is faithful on a working store whose
tags have pairwise different ids. -/
theorem GetByIDs_faithful (db : Store) (ids : List Int) (hdb : db.failure = none)
    (hnd : (db.tags.map (fun t => t.ID)).Nodup) :
    repository.TagRepository.GetByIDs ids db =
        (.ok ((db.tags.filter (fun t => ids.contains t.ID)).map
          repository.TagRepository.entToDomain), db) ∧
      tagLookupFaithful (fun i => ∃ t ∈ db.tags, t.ID = i) ids
        ((db.tags.filter (fun t => ids.contains t.ID)).map
          repository.TagRepository.entToDomain) := by
  constructor
  · simp [repository.TagRepository.GetByIDs, ent.TagIDInAll, hdb]
  · have hmap : ((db.tags.filter (fun t => ids.contains t.ID)).map
        repository.TagRepository.entToDomain).map (fun t => t.ID)
        = (db.tags.filter (fun t => ids.contains t.ID)).map (fun t => t.ID) := by
      rw [List.map_map]
      rfl
    unfold tagLookupFaithful
    rw [hmap]
    constructor
    · exact (List.filter_sublist _).map _ |>.nodup hnd
    · intro i
      simp only [List.mem_map, List.mem_filter, List.contains_iff_exists_mem_beq, beq_iff_eq,
        exists_eq_right']
      constructor
      · rintro ⟨t, ⟨ht, hin⟩, rfl⟩
        exact ⟨hin, t, ht, rfl⟩
      · rintro ⟨hin, t, ht, rfl⟩
        exact ⟨t, ⟨ht, hin⟩, rfl⟩

/-- C11: when the category of the request is absent or exists, and the tag
lookup (which returns one tag per distinct existing id asked for) is asked for
an id that does not exist, ArticleService.Create fails with InvalidInput; the
result does not depend on the article repository's Create, which is never
invoked. -/
theorem Create_missing_tag {σ : Type} (s : ArticleService σ) (req : ArticleCreateRequest)
    (st st1 st2 : σ) (cat : Option Category) (tags : List Tag) (exist : Int → Prop)
    (hcat : categoryResolved s req.CategoryID st st1 cat)
    (hlook : s.tagRepo.GetByIDs req.TagIDs st1 = (.ok tags, st2))
    (hfaith : tagLookupFaithful exist req.TagIDs tags)
    (hmissing : ∃ i ∈ req.TagIDs, ¬ exist i) :
    s.Create req st = (.error .ErrInvalidInput, st2) ∧
    ∀ create : Article → σ → Except Error Article × σ,
      ({ s with articleRepo := { s.articleRepo with Create := create } } :
        ArticleService σ).Create req st = (.error .ErrInvalidInput, st2) := by
  obtain ⟨i, hi, hex⟩ := hmissing
  have hne : req.TagIDs ≠ [] := List.ne_nil_of_mem hi
  have hlen : tags.length ≠ req.TagIDs.length := by
    intro h
    exact hex (((tagLookupFaithful_length exist _ _ hfaith).1 h).2 i hi)
  constructor
  · rw [Create_tags_step s req st st1 st2 cat tags hcat hne hlook, if_pos hlen]
  · intro create
    have h := Create_tags_step
      ({ s with articleRepo := { s.articleRepo with Create := create } } : ArticleService σ)
      req st st1 st2 cat tags hcat hne hlook
    rw [if_pos hlen] at h
    exact h

/-- C11, witness: tag_ids = [3, 4] on a store whose only tag has id 3, no
category; the store is left as it was. -/
theorem Create_missing_tag_witness :
    entService.Create
        { Title := "t", Content := "c", Summary := "", Published := true,
          CategoryID := none, TagIDs := [3, 4] } smallStore
      = (.error .ErrInvalidInput, smallStore) ∧
    ∀ create : Article → Store → Except Error Article × Store,
      ({ entService with articleRepo := { entService.articleRepo with Create := create } } :
        ArticleService Store).Create
          { Title := "t", Content := "c", Summary := "", Published := true,
            CategoryID := none, TagIDs := [3, 4] } smallStore
        = (.error .ErrInvalidInput, smallStore) :=
  Create_missing_tag entService
    { Title := "t", Content := "c", Summary := "", Published := true,
      CategoryID := none, TagIDs := [3, 4] }
    smallStore smallStore smallStore none _ (fun i => ∃ t ∈ smallStore.tags, t.ID = i)
    ⟨rfl, rfl⟩
    (GetByIDs_faithful smallStore [3, 4] rfl (by decide)).1
    (GetByIDs_faithful smallStore [3, 4] rfl (by decide)).2
    ⟨4, by decide, by decide⟩
/-- C12: with the tag lookup returning exactly one tag per distinct existing id,
for a non-empty tag_ids list the validation `len(tags) == len(req.TagIDs)` of
ArticleService.Create and Update passes if and only if the ids are pairwise
different and every id exists. When it passes, Create and Update are the calls
of the repository with the resolved tags, whose ids are pairwise different and
are the requested ids; otherwise (in particular when an existing id is
repeated) both fail with InvalidInput. -/
theorem tag_validation_iff {σ : Type} (s : ArticleService σ) (req : ArticleCreateRequest)
    (id : Int) (ureq : ArticleUpdateRequest) (current : Article)
    (st0 st st1 st2 : σ) (cat : Option Category) (tags : List Tag) (exist : Int → Prop)
    (hcat : categoryResolved s req.CategoryID st st1 cat)
    (hne : req.TagIDs ≠ [])
    (hlook : s.tagRepo.GetByIDs req.TagIDs st1 = (.ok tags, st2))
    (hfaith : tagLookupFaithful exist req.TagIDs tags)
    (hget : s.articleRepo.GetByID id st0 = (.ok current, st))
    (hucat : ureq.CategoryID = req.CategoryID)
    (hutags : ureq.TagIDs = req.TagIDs) :
    (tags.length = req.TagIDs.length ↔ req.TagIDs.Nodup ∧ ∀ i ∈ req.TagIDs, exist i) ∧
    (((req.TagIDs.Nodup ∧ ∀ i ∈ req.TagIDs, exist i) ∧
        s.Create req st =
          s.articleRepo.Create
            { ID := 0, Title := req.Title, Content := req.Content, Summary := req.Summary,
              Published := req.Published, CreatedAt := zeroTime, UpdatedAt := zeroTime,
              Category := cat, Tags := tags } st2 ∧
        s.Update id ureq st0 =
          s.articleRepo.Update id
            { ID := 0, Title := ureq.Title, Content := ureq.Content, Summary := ureq.Summary,
              Published := ureq.Published, CreatedAt := zeroTime, UpdatedAt := zeroTime,
              Category := cat, Tags := tags } st2 ∧
        (tags.map (fun t => t.ID)).Nodup ∧
        (tags.map (fun t => t.ID)).Perm req.TagIDs) ∨
      (¬ (req.TagIDs.Nodup ∧ ∀ i ∈ req.TagIDs, exist i) ∧
        s.Create req st = (.error .ErrInvalidInput, st2) ∧
        s.Update id ureq st0 = (.error .ErrInvalidInput, st2))) := by
  have hiff := tagLookupFaithful_length exist req.TagIDs tags hfaith
  have hcreate := Create_tags_step s req st st1 st2 cat tags hcat hne hlook
  have hupdate := Update_tags_step s id ureq current st0 st st1 st2 cat tags hget
    (by rw [hucat]; exact hcat) (by rw [hutags]; exact hne) (by rw [hutags]; exact hlook)
  rw [hutags] at hupdate
  refine ⟨hiff, ?_⟩
  by_cases hlen : tags.length = req.TagIDs.length
  · left
    rw [if_neg (not_not.2 hlen)] at hcreate hupdate
    have hsub : tags.map (fun t => t.ID) ⊆ req.TagIDs := fun i hi => ((hfaith.2 i).1 hi).1
    exact ⟨hiff.1 hlen, hcreate, hupdate, hfaith.1,
      (hfaith.1.subperm hsub).perm_of_length_le (by rw [List.length_map]; omega)⟩
  · right
    rw [if_pos hlen] at hcreate hupdate
    exact ⟨fun h => hlen (hiff.2 h), hcreate, hupdate⟩

/-- C12, witness: tag_ids = [3, 3] repeats the id of the one stored tag; Create
and the Update of article 1 are rejected with InvalidInput. -/
theorem tag_validation_iff_witness :
    (entService.Create
        { Title := "t", Content := "c", Summary := "", Published := true,
          CategoryID := none, TagIDs := [3, 3] } smallStore
      = (.error .ErrInvalidInput, smallStore)) ∧
    ((((smallStore.tags.filter (fun t => [3, 3].contains t.ID)).map
          repository.TagRepository.entToDomain).length = ([3, 3] : List Int).length ↔
        ([3, 3] : List Int).Nodup ∧ ∀ i ∈ ([3, 3] : List Int), ∃ t ∈ smallStore.tags, t.ID = i) ∧
    (((([3, 3] : List Int).Nodup ∧ ∀ i ∈ ([3, 3] : List Int), ∃ t ∈ smallStore.tags, t.ID = i) ∧
        entService.Create
            { Title := "t", Content := "c", Summary := "", Published := true,
              CategoryID := none, TagIDs := [3, 3] } smallStore =
          entService.articleRepo.Create
            { ID := 0, Title := "t", Content := "c", Summary := "",
              Published := true, CreatedAt := zeroTime, UpdatedAt := zeroTime,
              Category := none,
              Tags := (smallStore.tags.filter (fun t => [3, 3].contains t.ID)).map
                repository.TagRepository.entToDomain } smallStore ∧
        entService.Update 1
            { Title := "u", Content := "c", Summary := "", Published := false,
              CategoryID := none, TagIDs := [3, 3] } smallStore =
          entService.articleRepo.Update 1
            { ID := 0, Title := "u", Content := "c", Summary := "",
              Published := false, CreatedAt := zeroTime, UpdatedAt := zeroTime,
              Category := none,
              Tags := (smallStore.tags.filter (fun t => [3, 3].contains t.ID)).map
                repository.TagRepository.entToDomain } smallStore ∧
        (((smallStore.tags.filter (fun t => [3, 3].contains t.ID)).map
          repository.TagRepository.entToDomain).map (fun t => t.ID)).Nodup ∧
        (((smallStore.tags.filter (fun t => [3, 3].contains t.ID)).map
          repository.TagRepository.entToDomain).map (fun t => t.ID)).Perm ([3, 3] : List Int)) ∨
      (¬ (([3, 3] : List Int).Nodup ∧ ∀ i ∈ ([3, 3] : List Int), ∃ t ∈ smallStore.tags, t.ID = i) ∧
        entService.Create
            { Title := "t", Content := "c", Summary := "", Published := true,
              CategoryID := none, TagIDs := [3, 3] } smallStore
          = (.error .ErrInvalidInput, smallStore) ∧
        entService.Update 1
            { Title := "u", Content := "c", Summary := "", Published := false,
              CategoryID := none, TagIDs := [3, 3] } smallStore
          = (.error .ErrInvalidInput, smallStore)))) :=
  ⟨by decide,
   tag_validation_iff entService
    { Title := "t", Content := "c", Summary := "", Published := true,
      CategoryID := none, TagIDs := [3, 3] }
    1
    { Title := "u", Content := "c", Summary := "", Published := false,
      CategoryID := none, TagIDs := [3, 3] }
    (domainOf smallStore
      { ID := 1, Title := "draft", Content := "text", Summary := "", Published := false,
        CreatedAt := { fixtureTime with UnixNano := 10 },
        UpdatedAt := { fixtureTime with UnixNano := 10 },
        CategoryID := some 1, TagIDs := [3] })
    smallStore smallStore smallStore smallStore none _
    (fun i => ∃ t ∈ smallStore.tags, t.ID = i)
    ⟨rfl, rfl⟩ (by decide)
    (GetByIDs_faithful smallStore [3, 3] rfl (by decide)).1
    (GetByIDs_faithful smallStore [3, 3] rfl (by decide)).2
    (by decide) rfl rfl⟩

/-! ## the listings of the repository -/

/-- The predicates `List` adds to its query are the filter predicate. -/
theorem matchesFilter_eq (params : QueryParams) :
    matchesFilter params = fun r =>
      (match params.Published with
        | some published => [ent.article.Published published]
        | none => []).all (fun p => p r) &&
      (if params.Search ≠ "" then
        (ent.article.Or (ent.article.TitleContains params.Search)
          (ent.article.ContentContains params.Search)) r
       else true) := by
  funext r
  unfold matchesFilter matchesPublished matchesSearch
  have hb : params.Search ≠ "" → (params.Search == "") = false := fun h => by simpa using h
  cases hp : params.Published <;> by_cases hs : params.Search = "" <;>
    simp [hs, hb, ent.article.Published, ent.article.Or, ent.article.TitleContains,
      ent.article.ContentContains]

/-- The domain article of a row is the conversion of the row with its edges. -/
theorem domainOf_eq (db : Store) :
    domainOf db = repository.ArticleRepository.entToDomain ∘ loadEdges db := rfl

/-- Closed form of `List` on a working store. -/
theorem List_closed (params : QueryParams) (db : Store) (hdb : db.failure = none) :
    repository.ArticleRepository.List params db =
      (.ok ((if params.Page > 0 ∧ params.Limit > 0 then
              pageOf (filteredRows (matchesFilter params) db)
                (wrapInt64 ((params.Page - 1) * params.Limit)).toNat params.Limit.toNat
            else filteredRows (matchesFilter params) db).map (domainOf db),
            ((filteredRows (matchesFilter params) db).length : Int)), db) := by
  rw [matchesFilter_eq]
  unfold repository.ArticleRepository.List
  cases hp : params.Published <;> by_cases hs : params.Search = "" <;>
    by_cases hpl : params.Page > 0 ∧ params.Limit > 0 <;>
    simp [hs, hpl, hdb, ent.ArticleQuery.Count, ent.ArticleQuery.All, ent.ArticleQuery.matching,
      ent.ArticleQuery.new, ent.ArticleQuery.OrderDescCreatedAt, ent.ArticleQuery.Where,
      ent.ArticleQuery.Offset, ent.ArticleQuery.Limit, filteredRows, pageOf, domainOf_eq]
/-- A value in the range of a non-negative 64-bit integer does not wrap. -/
theorem wrapInt64_of_fits (x : Int) (h0 : 0 ≤ x) (h1 : x < 2 ^ 63) : wrapInt64 x = x := by
  unfold wrapInt64
  omega

/-- The sorted rows are in descending order of creation time. -/
theorem sorted_sortDescCreatedAt (rows : List ArticleRow) :
    (sortDescCreatedAt rows).Sorted (fun a b => b.CreatedAt.UnixNano ≤ a.CreatedAt.UnixNano) := by
  haveI : IsTotal ArticleRow (fun a b => b.CreatedAt.UnixNano ≤ a.CreatedAt.UnixNano) :=
    ⟨fun a b => le_total _ _⟩
  haveI : IsTrans ArticleRow (fun a b => b.CreatedAt.UnixNano ≤ a.CreatedAt.UnixNano) :=
    ⟨fun a b c hab hbc => le_trans hbc hab⟩
  exact List.sorted_insertionSort _ _

/-- C18 (as amended): for page >= 1 and limit >= 1 whose product (page-1)*limit
is below 2^63, List on a working store returns the total of the filtered list
and exactly the contiguous slice of the filtered list, ordered by creation time
descending, that starts at index offset = (page-1)*limit and has length
min(limit, max(0, total - offset)): never more than limit items, and none when
offset >= total. -/
theorem List_page_slice (params : QueryParams) (db : Store)
    (hdb : db.failure = none)
    (hpage : 1 ≤ params.Page) (hlimit : 1 ≤ params.Limit)
    (hfit : (params.Page - 1) * params.Limit < 2 ^ 63) :
    ∃ (rows : List ArticleRow) (offset : Nat) (articles : List Article),
      rows = sortDescCreatedAt (db.articles.filter (matchesFilter params)) ∧
      rows.Sorted (fun a b => b.CreatedAt.UnixNano ≤ a.CreatedAt.UnixNano) ∧
      rows.Perm (db.articles.filter (matchesFilter params)) ∧
      (offset : Int) = (params.Page - 1) * params.Limit ∧
      repository.ArticleRepository.List params db = (.ok (articles, (rows.length : Int)), db) ∧
      articles = ((rows.drop offset).take params.Limit.toNat).map (domainOf db) ∧
      (articles.length : Int) = min params.Limit (max 0 ((rows.length : Int) - offset)) ∧
      (articles.length : Int) ≤ params.Limit ∧
      (offset < rows.length ∨ articles = []) := by
  have h0 : 0 ≤ (params.Page - 1) * params.Limit :=
    Int.mul_nonneg (by omega) (by omega)
  have hoff : ((((params.Page - 1) * params.Limit).toNat : Nat) : Int)
      = (params.Page - 1) * params.Limit := Int.toNat_of_nonneg h0
  have hlen : (((sortDescCreatedAt (db.articles.filter (matchesFilter params))).drop
      ((params.Page - 1) * params.Limit).toNat).take params.Limit.toNat).length
      = min params.Limit.toNat
          ((sortDescCreatedAt (db.articles.filter (matchesFilter params))).length
            - ((params.Page - 1) * params.Limit).toNat) := by
    rw [List.length_take, List.length_drop]
  refine ⟨sortDescCreatedAt (db.articles.filter (matchesFilter params)),
    ((params.Page - 1) * params.Limit).toNat, _, rfl, sorted_sortDescCreatedAt _,
    perm_sortDescCreatedAt _, hoff, ?_, rfl, ?_, ?_, ?_⟩
  · rw [List_closed params db hdb, if_pos ⟨by omega, by omega⟩, wrapInt64_of_fits _ h0 hfit]
    rfl
  · rw [List.length_map, hlen]
    omega
  · rw [List.length_map, hlen]
    omega
  · by_cases hlt : ((params.Page - 1) * params.Limit).toNat
        < (sortDescCreatedAt (db.articles.filter (matchesFilter params))).length
    · exact Or.inl hlt
    · right
      rw [List.drop_eq_nil_of_le (by omega)]
      simp
/-- C18, witness: page 2 with limit 1 of a store of two articles is the older
article. -/
theorem List_page_slice_witness :
    ((repository.ArticleRepository.List
        { Page := 2, Limit := 1, Published := none, Search := "" } smallStore).1
      = .ok ((smallStore.articles.take 1).map (domainOf smallStore), 2)) ∧
    ∃ (rows : List ArticleRow) (offset : Nat) (articles : List Article),
      rows = sortDescCreatedAt (smallStore.articles.filter
        (matchesFilter { Page := 2, Limit := 1, Published := none, Search := "" })) ∧
      rows.Sorted (fun a b => b.CreatedAt.UnixNano ≤ a.CreatedAt.UnixNano) ∧
      rows.Perm (smallStore.articles.filter
        (matchesFilter { Page := 2, Limit := 1, Published := none, Search := "" })) ∧
      (offset : Int) = ((2 : Int) - 1) * 1 ∧
      repository.ArticleRepository.List
          { Page := 2, Limit := 1, Published := none, Search := "" } smallStore
        = (.ok (articles, (rows.length : Int)), smallStore) ∧
      articles = ((rows.drop offset).take (1 : Int).toNat).map (domainOf smallStore) ∧
      (articles.length : Int) = min 1 (max 0 ((rows.length : Int) - offset)) ∧
      (articles.length : Int) ≤ 1 ∧
      (offset < rows.length ∨ articles = []) :=
  ⟨by decide,
   List_page_slice { Page := 2, Limit := 1, Published := none, Search := "" } smallStore
    rfl (by decide) (by decide) (by decide)⟩

/-- C18, counterexample: the request `?page=288230376151711745&limit=64` on a
store of two articles. The exact offset (page-1)*limit is 2^64, far beyond the
total of 2, so the slice of the claim is empty; the 64-bit product wraps to 0
and List returns both articles. -/
theorem List_offset_wraps :
    ArticleHandler.parseQueryParams (queryContext "288230376151711745" "64" "" "")
      = { Page := 288230376151711745, Limit := 64, Published := none, Search := "" } ∧
    ((288230376151711745 : Int) - 1) * 64 = 2 ^ 64 ∧
    repository.ArticleRepository.List
        { Page := 288230376151711745, Limit := 64, Published := none, Search := "" } smallStore
      = (.ok (smallStore.articles.reverse.map (domainOf smallStore), 2), smallStore) ∧
    ((smallStore.articles.reverse.map (domainOf smallStore)).length : Int)
      ≠ min 64 (max 0 (2 - ((288230376151711745 : Int) - 1) * 64)) := by
  refine ⟨by decide, by decide, by decide, by decide⟩

/-- A listing that returns a result ran on a working store. -/
theorem List_ok_working (params : QueryParams) (db db1 : Store) (articles : List Article)
    (total : Int)
    (hok : repository.ArticleRepository.List params db = (.ok (articles, total), db1)) :
    db.failure = none := by
  cases hf : db.failure with
  | none => rfl
  | some err =>
    exfalso
    unfold repository.ArticleRepository.List at hok
    simp [ent.ArticleQuery.Count, hf] at hok

/-- The filter predicate does not read the page or the limit. -/
theorem matchesFilter_page (params : QueryParams) (page limit : Int) :
    matchesFilter { params with Page := page, Limit := limit } = matchesFilter params := rfl

/-- C20: the total returned by List is the number of stored articles that
satisfy the filter predicate (published equals the given value when set, title
or content contains the search text when non-empty, the case of the letters A-Z
being ignored as the specification assumes); the total does not depend on page
and limit: List returns it for every page and limit without pagination or with
a non-negative 64-bit offset, and whatever List returns for any page and limit
carries the same total; and every article of the returned page satisfies the
predicate. -/
theorem List_total_and_filter (params : QueryParams) (db db1 : Store)
    (articles : List Article) (total : Int)
    (hok : repository.ArticleRepository.List params db = (.ok (articles, total), db1)) :
    total = ((db.articles.filter (fun r =>
        (match params.Published with
          | some published => r.Published == published
          | none => true) &&
        (params.Search == "" || strContains r.Title params.Search
          || strContains r.Content params.Search))).length : Int) ∧
    (∀ page limit, (page ≤ 0 ∨ limit ≤ 0 ∨ 0 ≤ wrapInt64 ((page - 1) * limit)) →
      ∃ page_articles,
        repository.ArticleRepository.List { params with Page := page, Limit := limit } db
          = (.ok (page_articles, total), db)) ∧
    (∀ page limit page_articles page_total db2,
      repository.ArticleRepository.List { params with Page := page, Limit := limit } db
          = (.ok (page_articles, page_total), db2) →
        page_total = total) ∧
    ∀ a ∈ articles,
      (∀ published, params.Published = some published → a.Published = published) ∧
      (params.Search ≠ "" →
        strContains a.Title params.Search = true ∨ strContains a.Content params.Search = true) := by
  have hdb := List_ok_working params db db1 articles total hok
  rw [List_closed params db hdb] at hok
  simp only [Prod.mk.injEq, Except.ok.injEq] at hok
  obtain ⟨⟨harts, htotal⟩, -⟩ := hok
  have hcount : total = ((db.articles.filter (matchesFilter params)).length : Int) := by
    rw [← htotal, filteredRows, length_sortDescCreatedAt]
  refine ⟨hcount, ?_, ?_, ?_⟩
  · intro page limit _
    have h := List_closed { params with Page := page, Limit := limit } db hdb
    rw [matchesFilter_page, htotal] at h
    exact ⟨_, h⟩
  · intro page limit page_articles page_total db2 hpage
    have h := List_closed { params with Page := page, Limit := limit } db hdb
    rw [matchesFilter_page, htotal, hpage] at h
    simp only [Prod.mk.injEq, Except.ok.injEq] at h
    exact h.1.2
  · intro a ha
    have hrows : ∀ r ∈ filteredRows (matchesFilter params) db, matchesFilter params r = true := by
      intro r hr
      have := (perm_sortDescCreatedAt _).subset hr
      exact (List.mem_filter.1 this).2
    have hmem : ∃ r, matchesFilter params r = true ∧ domainOf db r = a := by
      rw [← harts] at ha
      obtain ⟨r, hr, rfl⟩ := List.mem_map.1 ha
      refine ⟨r, hrows r ?_, rfl⟩
      split at hr
      · exact List.mem_of_mem_take hr |> List.mem_of_mem_drop
      · exact hr
    obtain ⟨r, hr, rfl⟩ := hmem
    unfold matchesFilter matchesPublished matchesSearch at hr
    simp only [Bool.and_eq_true, Bool.or_eq_true] at hr
    obtain ⟨hp, hs⟩ := hr
    constructor
    · intro published hpub
      rw [hpub] at hp
      simpa using hp
    · intro hne
      rcases hs with (hs | hs) | hs
      · exact absurd (by simpa using hs) hne
      · exact Or.inl hs
      · exact Or.inr hs

/-- C20, witness: the published articles matching "EW", of which the store of
two articles has one, titled "news"; page 2 of limit 5 carries the same total,
and the search for "NEWS" finds the article as well. -/
theorem List_total_and_filter_witness :
    (repository.ArticleRepository.List
        { Page := 1, Limit := 1, Published := none, Search := "NEWS" } smallStore
      = (.ok ((smallStore.articles.drop 1).map (domainOf smallStore), 1), smallStore) ∧
    repository.ArticleRepository.List
        { Page := 2, Limit := 5, Published := some true, Search := "EW" } smallStore
      = (.ok ([], 1), smallStore)) ∧
    ((1 : Int) = ((smallStore.articles.filter (fun r =>
        (match (some true : Option Bool) with
          | some published => r.Published == published
          | none => true) &&
        (("EW" : String) == "" || strContains r.Title "EW"
          || strContains r.Content "EW"))).length : Int) ∧
    (∀ page limit, (page ≤ 0 ∨ limit ≤ 0 ∨ 0 ≤ wrapInt64 ((page - 1) * limit)) →
      ∃ page_articles,
        repository.ArticleRepository.List
            { ({ Page := 1, Limit := 1, Published := some true, Search := "EW" } : QueryParams)
              with Page := page, Limit := limit } smallStore
          = (.ok (page_articles, 1), smallStore)) ∧
    (∀ page limit page_articles page_total db2,
      repository.ArticleRepository.List
            { ({ Page := 1, Limit := 1, Published := some true, Search := "EW" } : QueryParams)
              with Page := page, Limit := limit } smallStore
          = (.ok (page_articles, page_total), db2) →
        page_total = 1) ∧
    ∀ a ∈ (smallStore.articles.drop 1).map (domainOf smallStore),
      (∀ published, (some true : Option Bool) = some published → a.Published = published) ∧
      (("EW" : String) ≠ "" →
        strContains a.Title "EW" = true ∨ strContains a.Content "EW" = true)) :=
  ⟨by decide,
   List_total_and_filter { Page := 1, Limit := 1, Published := some true, Search := "EW" }
    smallStore smallStore ((smallStore.articles.drop 1).map (domainOf smallStore)) 1
    (by decide)⟩

/-- Without wrap-around the expression of the handlers is the quotient
(total + limit - 1) / limit. -/
theorem totalPage_eq (total limit : Int) (htotal : 0 ≤ total) (hlimit : 1 ≤ limit)
    (hfit : total + limit - 1 < 2 ^ 63) :
    totalPage total limit = (total + limit - 1) / limit := by
  have h1 : wrapInt64 (wrapInt64 (total + limit) - 1) = total + limit - 1 := by
    unfold wrapInt64
    omega
  have h2 : Int.tdiv (total + limit - 1) limit = (total + limit - 1) / limit :=
    Int.tdiv_eq_ediv (by omega) (by omega)
  have h3 : 0 ≤ (total + limit - 1) / limit := Int.ediv_nonneg (by omega) (by omega)
  have h4 : (total + limit - 1) / limit ≤ total + limit - 1 :=
    Int.ediv_le_self _ (by omega)
  unfold totalPage
  rw [h1, h2]
  exact wrapInt64_of_fits _ h3 (by omega)

/-- C17 (as amended): for total >= 0 and limit >= 1 with total + limit - 1 below
2^63, the total_page the list handlers compute as (total + limit - 1) / limit is
ceil(total / limit): the least k with k * limit >= total, which is 0 when
total = 0. -/
theorem totalPage_is_ceil (total limit : Int) (htotal : 0 ≤ total) (hlimit : 1 ≤ limit)
    (hfit : total + limit - 1 < 2 ^ 63) :
    total ≤ totalPage total limit * limit ∧
    (∀ k : Int, total ≤ k * limit → totalPage total limit ≤ k) ∧
    (0 < total ∨ totalPage total limit = 0) := by
  rw [totalPage_eq total limit htotal hlimit hfit]
  have hpos : 0 < limit := by omega
  have hle : (total + limit - 1) / limit * limit ≤ total + limit - 1 :=
    Int.ediv_mul_le _ (by omega)
  have hlt : total + limit - 1 < ((total + limit - 1) / limit + 1) * limit :=
    Int.lt_ediv_add_one_mul_self _ hpos
  refine ⟨?_, ?_, ?_⟩
  · have : ((total + limit - 1) / limit + 1) * limit
        = (total + limit - 1) / limit * limit + limit := by ring
    omega
  · intro k hk
    by_contra hcon
    have hk1 : k + 1 ≤ (total + limit - 1) / limit := by omega
    have hmul : (k + 1) * limit ≤ (total + limit - 1) / limit * limit :=
      Int.mul_le_mul_of_nonneg_right hk1 (by omega)
    have : (k + 1) * limit = k * limit + limit := by ring
    omega
  · by_cases h0 : 0 < total
    · exact Or.inl h0
    · right
      have ht : total = 0 := by omega
      subst ht
      have : (0 + limit - 1) / limit = 0 := Int.ediv_eq_zero_of_lt (by omega) (by omega)
      exact this

/-- C17, witness: 25 matching articles in pages of 10 make 3 pages. -/
theorem totalPage_is_ceil_witness :
    totalPage 25 10 = 3 ∧
    ((25 : Int) ≤ totalPage 25 10 * 10 ∧
      (∀ k : Int, 25 ≤ k * 10 → totalPage 25 10 ≤ k) ∧
      ((0 : Int) < 25 ∨ totalPage 25 10 = 0)) :=
  ⟨by decide, totalPage_is_ceil 25 10 (by decide) (by decide) (by decide)⟩

/-- C17, counterexample: for total = 2^63 - 1 and limit = 2 the sum wraps around
and the handlers compute total_page = -2^62, which is not the least k with
k * 2 >= total (that is 2^62). -/
theorem totalPage_wraps :
    (0 : Int) ≤ 9223372036854775807 ∧ (1 : Int) ≤ 2 ∧
    totalPage 9223372036854775807 2 = -4611686018427387904 ∧
    ¬ ((9223372036854775807 : Int) ≤ totalPage 9223372036854775807 2 * 2) := by
  refine ⟨by decide, by decide, by decide, by decide⟩

/-! ## sanitizeFilename: idempotence and identity on safe names -/

/-- The replacement rule keeps a printable character that is not unsafe. -/
theorem specReplace_of_safe (c : Char) (h1 : isPrintableASCII c) (h2 : c ∉ unsafeChars) :
    specReplace c = c := by
  unfold specReplace
  rw [if_neg]
  intro h
  rcases h with h | h
  · exact h2 h
  · exact h h1

/-- The replacement rule applied twice is the replacement rule. -/
theorem specReplace_idem (c : Char) : specReplace (specReplace c) = specReplace c :=
  specReplace_of_safe _ (specReplace_safe c).1 (specReplace_safe c).2

/-- C29: sanitizeFilename is idempotent: for every string s,
sanitizeFilename (sanitizeFilename s) = sanitizeFilename s. -/
theorem sanitizeFilename_idempotent (s : String) :
    sanitizeFilename (sanitizeFilename s) = sanitizeFilename s := by
  rw [sanitizeFilename_eq (sanitizeFilename s), sanitizeFilename_eq s]
  have hmap : ((s.data.map specReplace).take 50).map specReplace
      = (s.data.map specReplace).take 50 := by
    rw [← List.map_take, List.map_map]
    congr 1
    funext c
    exact specReplace_idem c
  rw [hmap, List.take_take]
  simp

/-- C30: for every string of at most 50 code points the output of
sanitizeFilename has exactly as many characters as the input has code points;
and when the string moreover consists only of printable ASCII characters
(32..126) other than the nine unsafe ones, sanitizeFilename returns it
unchanged. -/
theorem sanitizeFilename_short (s : String) (hlen : s.length ≤ 50) :
    (sanitizeFilename s).length = s.length ∧
    ((∀ c ∈ s.data, (32 ≤ c.toNat ∧ c.toNat ≤ 126) ∧ c ∉ unsafeChars) →
      sanitizeFilename s = s) := by
  have htake : (s.data.map specReplace).take 50 = s.data.map specReplace :=
    List.take_of_length_le (by simpa using hlen)
  rw [sanitizeFilename_eq, htake]
  constructor
  · show (s.data.map specReplace).length = s.data.length
    rw [List.length_map]
  · intro hsafe
    have hid : s.data.map specReplace = s.data := by
      conv_rhs => rw [← List.map_id s.data]
      apply List.map_congr_left
      intro c hc
      exact specReplace_of_safe c (hsafe c hc).1 (hsafe c hc).2
    rw [hid]

/-- C30, witness: a safe name is returned as it is, and a name of three
non-ASCII code points becomes three underscores. -/
theorem sanitizeFilename_short_witness :
    ("Go notes (v2).txt".length ≤ 50 ∧ sanitizeFilename "Go notes (v2).txt" = "Go notes (v2).txt") ∧
    (sanitizeFilename "日本語" = "___" ∧
      (sanitizeFilename "日本語").length = "日本語".length) :=
  ⟨⟨by decide, (sanitizeFilename_short "Go notes (v2).txt" (by decide)).2 (by decide)⟩,
   by decide, (sanitizeFilename_short "日本語" (by decide)).1⟩

/-! ## parseQueryParams -/

/-- The page and the limit parseQueryParams sets, by the results of
strconv.Atoi on the raw strings. -/
theorem parseQueryParams_page_limit (c : Context) :
    (ArticleHandler.parseQueryParams c).Page =
      (match atoi (c.QueryParam "page") with
        | some page => if page > 0 then page else 0
        | none => 0) ∧
    (ArticleHandler.parseQueryParams c).Limit =
      (match atoi (c.QueryParam "limit") with
        | some limit =>
          if 1 ≤ limit ∧ limit ≤ 100 then limit
          else if (ArticleHandler.parseQueryParams c).Page > 0 then 10 else 0
        | none => if (ArticleHandler.parseQueryParams c).Page > 0 then 10 else 0) := by
  have hpub : ∀ (params : QueryParams) (published : String),
      (if published ≠ "" then
        if published = "true" then { params with Published := some true }
        else if published = "false" then { params with Published := some false }
        else params
      else params).Page = params.Page ∧
      (if published ≠ "" then
        if published = "true" then { params with Published := some true }
        else if published = "false" then { params with Published := some false }
        else params
      else params).Limit = params.Limit := by
    intro params published
    split_ifs <;> exact ⟨rfl, rfl⟩
  have hpage : (ArticleHandler.parseQueryParams c).Page =
      (match atoi (c.QueryParam "page") with
        | some page => if page > 0 then page else 0
        | none => 0) := by
    unfold ArticleHandler.parseQueryParams
    simp only [(hpub _ _).1]
    cases atoi (c.QueryParam "page") <;> cases atoi (c.QueryParam "limit") <;>
      simp only [] <;> split_ifs <;> rfl
  refine ⟨hpage, ?_⟩
  rw [hpage]
  unfold ArticleHandler.parseQueryParams
  simp only [(hpub _ _).2]
  cases atoi (c.QueryParam "page") <;> cases atoi (c.QueryParam "limit") <;>
    simp only [] <;> split_ifs <;>
    first | rfl | (exfalso; omega)

/-- C21: for every request, parseQueryParams sets Page to the parsed page when
that is a positive integer and to 0 otherwise; it sets Limit to l when the limit
string parses to an integer l with 1 <= l <= 100, otherwise to 10 when the
parsed Page is > 0, otherwise to 0; hence Page > 0 implies 1 <= Limit <= 100,
and an out-of-range limit such as 500 falls back to 10, not to 100. -/
theorem parseQueryParams_limit_rule (c : Context) :
    (ArticleHandler.parseQueryParams c).Page =
      (match atoi (c.QueryParam "page") with
        | some page => if page > 0 then page else 0
        | none => 0) ∧
    (ArticleHandler.parseQueryParams c).Limit =
      (match atoi (c.QueryParam "limit") with
        | some limit =>
          if 1 ≤ limit ∧ limit ≤ 100 then limit
          else if (ArticleHandler.parseQueryParams c).Page > 0 then 10 else 0
        | none => if (ArticleHandler.parseQueryParams c).Page > 0 then 10 else 0) ∧
    ((ArticleHandler.parseQueryParams c).Page > 0 →
      1 ≤ (ArticleHandler.parseQueryParams c).Limit
        ∧ (ArticleHandler.parseQueryParams c).Limit ≤ 100) ∧
    (ArticleHandler.parseQueryParams (queryContext "3" "500" "" "")).Limit = 10 := by
  obtain ⟨hp, hl⟩ := parseQueryParams_page_limit c
  refine ⟨hp, hl, ?_, by decide⟩
  intro hpos
  rw [hl]
  cases atoi (c.QueryParam "limit") <;> simp only [] <;> split_ifs <;> omega

/-- C27 (as amended): for every request whose parsed page is >= 1, the parsed
limit lies in 1..100, and when the exact product (page-1)*limit is at most
2^63 - 1 the offset the repository listings compute in 64-bit signed arithmetic
is non-negative and equals that product; when the product is larger the computed
offset differs from it. -/
theorem listing_offset_exact (c : Context)
    (hpage : 1 ≤ (ArticleHandler.parseQueryParams c).Page) :
    (1 ≤ (ArticleHandler.parseQueryParams c).Limit
      ∧ (ArticleHandler.parseQueryParams c).Limit ≤ 100) ∧
    (((ArticleHandler.parseQueryParams c).Page - 1) * (ArticleHandler.parseQueryParams c).Limit
        < 2 ^ 63 →
      0 ≤ wrapInt64 (((ArticleHandler.parseQueryParams c).Page - 1)
            * (ArticleHandler.parseQueryParams c).Limit) ∧
      wrapInt64 (((ArticleHandler.parseQueryParams c).Page - 1)
            * (ArticleHandler.parseQueryParams c).Limit)
        = ((ArticleHandler.parseQueryParams c).Page - 1)
            * (ArticleHandler.parseQueryParams c).Limit) ∧
    (¬ ((ArticleHandler.parseQueryParams c).Page - 1) * (ArticleHandler.parseQueryParams c).Limit
        < 2 ^ 63 →
      wrapInt64 (((ArticleHandler.parseQueryParams c).Page - 1)
            * (ArticleHandler.parseQueryParams c).Limit)
        ≠ ((ArticleHandler.parseQueryParams c).Page - 1)
            * (ArticleHandler.parseQueryParams c).Limit) := by
  obtain ⟨-, hl⟩ := parseQueryParams_page_limit c
  have hlim : 1 ≤ (ArticleHandler.parseQueryParams c).Limit
      ∧ (ArticleHandler.parseQueryParams c).Limit ≤ 100 := by
    rw [hl]
    cases atoi (c.QueryParam "limit") <;> simp only [] <;> split_ifs <;> omega
  have h0 : 0 ≤ ((ArticleHandler.parseQueryParams c).Page - 1)
      * (ArticleHandler.parseQueryParams c).Limit :=
    Int.mul_nonneg (by omega) (by omega)
  refine ⟨hlim, ?_, ?_⟩
  · intro hfit
    rw [wrapInt64_of_fits _ h0 hfit]
    exact ⟨h0, rfl⟩
  · intro hbig
    unfold wrapInt64
    omega

/-- C27, witness: `?page=3&limit=20` gives the offset 40. -/
theorem listing_offset_exact_witness :
    ArticleHandler.parseQueryParams (queryContext "3" "20" "" "")
      = { Page := 3, Limit := 20, Published := none, Search := "" } ∧
    wrapInt64 (((3 : Int) - 1) * 20) = 40 ∧
    ((1 ≤ (ArticleHandler.parseQueryParams (queryContext "3" "20" "" "")).Limit
      ∧ (ArticleHandler.parseQueryParams (queryContext "3" "20" "" "")).Limit ≤ 100) ∧
    (((ArticleHandler.parseQueryParams (queryContext "3" "20" "" "")).Page - 1)
        * (ArticleHandler.parseQueryParams (queryContext "3" "20" "" "")).Limit < 2 ^ 63 →
      0 ≤ wrapInt64 (((ArticleHandler.parseQueryParams (queryContext "3" "20" "" "")).Page - 1)
            * (ArticleHandler.parseQueryParams (queryContext "3" "20" "" "")).Limit) ∧
      wrapInt64 (((ArticleHandler.parseQueryParams (queryContext "3" "20" "" "")).Page - 1)
            * (ArticleHandler.parseQueryParams (queryContext "3" "20" "" "")).Limit)
        = ((ArticleHandler.parseQueryParams (queryContext "3" "20" "" "")).Page - 1)
            * (ArticleHandler.parseQueryParams (queryContext "3" "20" "" "")).Limit) ∧
    (¬ ((ArticleHandler.parseQueryParams (queryContext "3" "20" "" "")).Page - 1)
        * (ArticleHandler.parseQueryParams (queryContext "3" "20" "" "")).Limit < 2 ^ 63 →
      wrapInt64 (((ArticleHandler.parseQueryParams (queryContext "3" "20" "" "")).Page - 1)
            * (ArticleHandler.parseQueryParams (queryContext "3" "20" "" "")).Limit)
        ≠ ((ArticleHandler.parseQueryParams (queryContext "3" "20" "" "")).Page - 1)
            * (ArticleHandler.parseQueryParams (queryContext "3" "20" "" "")).Limit)) :=
  ⟨by decide, by decide,
   listing_offset_exact (queryContext "3" "20" "" "") (by decide)⟩

/-- C27, counterexample: the request `?page=9223372036854775807&limit=100` is
parsed to page 2^63 - 1 and limit 100; the exact product (page-1)*limit is
922337203685477580600, and the 64-bit product is -200: negative, and not the
exact product. -/
theorem listing_offset_wraps :
    ArticleHandler.parseQueryParams (queryContext "9223372036854775807" "100" "" "")
      = { Page := 9223372036854775807, Limit := 100, Published := none, Search := "" } ∧
    ((9223372036854775807 : Int) - 1) * 100 = 922337203685477580600 ∧
    wrapInt64 (((9223372036854775807 : Int) - 1) * 100) = -200 ∧
    ¬ (0 ≤ wrapInt64 (((9223372036854775807 : Int) - 1) * 100) ∧
        wrapInt64 (((9223372036854775807 : Int) - 1) * 100)
          = ((9223372036854775807 : Int) - 1) * 100) := by
  refine ⟨by decide, by decide, by decide, by decide⟩

/-! ## the scoped listings of the service -/

/-- The ent-backed lookup of an id no stored tag has reports NotFound. -/
theorem TagRepository_GetByID_absent (db : Store) (id : Int) (hdb : db.failure = none)
    (habs : ∀ t ∈ db.tags, t.ID ≠ id) :
    repository.TagRepository.GetByID id db = (.error .ErrNotFound, db) := by
  have hf : db.tags.filter (fun t => t.ID == id) = [] := by
    rw [List.filter_eq_nil_iff]
    intro t ht
    simpa using habs t ht
  simp [repository.TagRepository.GetByID, ent.TagOnly, hdb, hf, ent.IsNotFound]

/-- C23: when the lookup of the category id (of the tag id) reports NotFound,
the id refers to nothing that exists, ArticleService.ListByCategory (ListByTag)
returns that NotFound error, with no list and no total, in the state the lookup
left; the result is the same whatever the article repository's scoped listings
are, which are never invoked. On the ent-backed repositories the lookup of an
id that no stored category (tag) has does report NotFound. -/
theorem ListByCategory_not_found {σ : Type} (s : ArticleService σ) (categoryID tagID : Int)
    (params : QueryParams) (st st1 st2 : σ)
    (hcat : s.categoryRepo.GetByID categoryID st = (.error .ErrNotFound, st1))
    (htag : s.tagRepo.GetByID tagID st = (.error .ErrNotFound, st2)) :
    s.ListByCategory categoryID params st = (.error .ErrNotFound, st1) ∧
    s.ListByTag tagID params st = (.error .ErrNotFound, st2) ∧
    (∀ listByCategory listByTag : Int → QueryParams → σ → Except Error (Slice Article × Int) × σ,
      ({ s with articleRepo := { s.articleRepo with
            ListByCategory := listByCategory, ListByTag := listByTag } } :
          ArticleService σ).ListByCategory categoryID params st = (.error .ErrNotFound, st1) ∧
      ({ s with articleRepo := { s.articleRepo with
            ListByCategory := listByCategory, ListByTag := listByTag } } :
          ArticleService σ).ListByTag tagID params st = (.error .ErrNotFound, st2)) ∧
    (∀ db : Store, db.failure = none →
      ((∀ c ∈ db.categories, c.ID ≠ categoryID) →
        scopedService.ListByCategory categoryID params db = (.error .ErrNotFound, db)) ∧
      ((∀ t ∈ db.tags, t.ID ≠ tagID) →
        scopedService.ListByTag tagID params db = (.error .ErrNotFound, db))) := by
  refine ⟨?_, ?_, ?_, ?_⟩
  · unfold ArticleService.ListByCategory
    simp only [hcat]
  · unfold ArticleService.ListByTag
    simp only [htag]
  · intro listByCategory listByTag
    constructor
    · unfold ArticleService.ListByCategory
      simp only [hcat]
    · unfold ArticleService.ListByTag
      simp only [htag]
  · intro db hdb
    constructor
    · intro habs
      have h : scopedService.categoryRepo.GetByID categoryID db = (.error .ErrNotFound, db) :=
        GetByID_absent db categoryID hdb habs
      unfold ArticleService.ListByCategory
      simp only [h]
    · intro habs
      have h : scopedService.tagRepo.GetByID tagID db = (.error .ErrNotFound, db) :=
        TagRepository_GetByID_absent db tagID hdb habs
      unfold ArticleService.ListByTag
      simp only [h]

/-- C23, witness: category 99 and tag 98 on the store of two articles, whose
only category has id 1 and whose only tag has id 3. -/
theorem ListByCategory_not_found_witness :
    scopedService.ListByCategory 99 { Page := 1, Limit := 10, Published := none, Search := "" }
        smallStore = (.error .ErrNotFound, smallStore) ∧
    scopedService.ListByTag 98 { Page := 1, Limit := 10, Published := none, Search := "" }
        smallStore = (.error .ErrNotFound, smallStore) ∧
    scopedService.ListByCategory 1
        { Page := 1, Limit := 10, Published := none, Search := "" } smallStore
      = (.ok ((smallStore.articles.take 1).map (domainOf smallStore), 1), smallStore) :=
  ⟨(ListByCategory_not_found scopedService 99 98
      { Page := 1, Limit := 10, Published := none, Search := "" } smallStore smallStore smallStore
      (by decide) (by decide)).1,
   (ListByCategory_not_found scopedService 99 98
      { Page := 1, Limit := 10, Published := none, Search := "" } smallStore smallStore smallStore
      (by decide) (by decide)).2.1,
   by decide⟩

/-- C28: for ArticleService.Update, CategoryService.Update and
TagService.Update, when the initial GetByID of the entity id fails (the id does
not exist: NotFound), that error is returned in the state the lookup left, for
every request, also one that would fail name-uniqueness or reference validation;
the result is the same whatever the repository Update is, which is never
invoked. -/
theorem Update_not_found_first {σ τ υ : Type} (sa : ArticleService σ) (sc : CategoryService τ)
    (st : TagService υ) (aid cid tid : Int) (areq : ArticleUpdateRequest) (creq : CategoryUpdateRequest)
    (treq : TagUpdateRequest) (ea ec et : Error) (a a1 : σ) (c c1 : τ) (t t1 : υ)
    (ha : sa.articleRepo.GetByID aid a = (.error ea, a1))
    (hc : sc.categoryRepo.GetByID cid c = (.error ec, c1))
    (ht : st.tagRepo.GetByID tid t = (.error et, t1)) :
    (sa.Update aid areq a = (.error ea, a1) ∧
      ∀ update : Int → Article → σ → Except Error Article × σ,
        ({ sa with articleRepo := { sa.articleRepo with Update := update } } :
          ArticleService σ).Update aid areq a = (.error ea, a1)) ∧
    (sc.Update cid creq c = (.error ec, c1) ∧
      ∀ update : Int → Category → τ → Except Error Category × τ,
        ({ categoryRepo := { sc.categoryRepo with Update := update } } :
          CategoryService τ).Update cid creq c = (.error ec, c1)) ∧
    (st.Update tid treq t = (.error et, t1) ∧
      ∀ update : Int → Tag → υ → Except Error Tag × υ,
        ({ tagRepo := { st.tagRepo with Update := update } } :
          TagService υ).Update tid treq t = (.error et, t1)) := by
  refine ⟨⟨?_, ?_⟩, ⟨?_, ?_⟩, ⟨?_, ?_⟩⟩
  · unfold ArticleService.Update
    simp only [ha]
  · intro update
    unfold ArticleService.Update
    simp only [ha]
  · unfold CategoryService.Update
    simp only [hc]
  · intro update
    unfold CategoryService.Update
    simp only [hc]
  · unfold TagService.Update
    simp only [ht]
  · intro update
    unfold TagService.Update
    simp only [ht]

/-- C28, witness: id 99 of no article, with a request naming a category that
does not exist and a repeated tag id; id 5 of no category and of no tag, with
the name of another category and of another tag. The same category request on
the existing id 2 is a DuplicateResource. -/
theorem Update_not_found_first_witness :
    (({ categoryRepo := memCategoryRepo } : CategoryService (Slice Category)).Update 2
        { Name := "技术", Description := "" } [fixtureCategory, fixtureCategory2]
      = (.error .ErrDuplicateResource, [fixtureCategory, fixtureCategory2])) ∧
    entService.Update 99
        { Title := "t", Content := "c", Summary := "", Published := true,
          CategoryID := some 42, TagIDs := [7, 7] } smallStore
      = (.error .ErrNotFound, smallStore) ∧
    ({ categoryRepo := memCategoryRepo } : CategoryService (Slice Category)).Update 5
        { Name := "技术", Description := "" } [fixtureCategory, fixtureCategory2]
      = (.error .ErrNotFound, [fixtureCategory, fixtureCategory2]) ∧
    ({ tagRepo := memTagRepo } : TagService (Slice Tag)).Update 5
        { Name := "Go语言", Color := "" } [fixtureTag, fixtureTag2]
      = (.error .ErrNotFound, [fixtureTag, fixtureTag2]) :=
  have h := Update_not_found_first entService { categoryRepo := memCategoryRepo }
    { tagRepo := memTagRepo } 99 5 5
    { Title := "t", Content := "c", Summary := "", Published := true,
      CategoryID := some 42, TagIDs := [7, 7] }
    { Name := "技术", Description := "" } { Name := "Go语言", Color := "" }
    .ErrNotFound .ErrNotFound .ErrNotFound smallStore smallStore
    [fixtureCategory, fixtureCategory2] [fixtureCategory, fixtureCategory2]
    [fixtureTag, fixtureTag2] [fixtureTag, fixtureTag2]
    (by decide) (by decide) (by decide)
  ⟨by decide, h.1.1, h.2.1.1, h.2.2.1⟩

/-! ## the archive paths of the articles -/

/-- The character of a digit below ten is a decimal digit and has that value. -/
theorem digitChar_decimal (k : Nat) (hk : k < 10) :
    (Nat.digitChar k).isDigit = true ∧ (Nat.digitChar k).toNat - '0'.toNat = k := by
  interval_cases k <;> exact ⟨rfl, rfl⟩

/-- Appending one digit multiplies the value by ten and adds the digit. -/
theorem decimalValue_append_singleton (l : List Char) (c : Char) :
    decimalValue (l ++ [c]) = 10 * decimalValue l + (c.toNat - '0'.toNat) := by
  unfold decimalValue
  rw [List.foldl_append]
  rfl

/-- With enough fuel the digit loop of the runtime puts, before the digits it
was given, a non-empty list of decimal digits that denotes `n`. -/
theorem toDigitsCore_decimal (fuel : Nat) : ∀ (n : Nat) (ds : List Char), n < fuel →
    ∃ l, Nat.toDigitsCore 10 fuel n ds = l ++ ds ∧ decimalValue l = n ∧
      (∀ c ∈ l, c.isDigit = true) ∧ l ≠ [] := by
  induction fuel with
  | zero => intro n ds h; omega
  | succ fuel ih =>
    intro n ds h
    have hd := digitChar_decimal (n % 10) (Nat.mod_lt _ (by decide))
    unfold Nat.toDigitsCore
    by_cases h0 : n / 10 = 0
    · refine ⟨[Nat.digitChar (n % 10)], by simp [h0], ?_, ?_, by simp⟩
      · have : decimalValue [Nat.digitChar (n % 10)]
            = (Nat.digitChar (n % 10)).toNat - '0'.toNat := by
          simp [decimalValue]
        rw [this, hd.2]
        omega
      · intro c hc
        rw [List.mem_singleton] at hc
        rw [hc]
        exact hd.1
    · obtain ⟨l, hl, hv, hdig, -⟩ := ih (n / 10) (Nat.digitChar (n % 10) :: ds) (by omega)
      refine ⟨l ++ [Nat.digitChar (n % 10)], by simp [h0, hl], ?_, ?_, by simp⟩
      · rw [decimalValue_append_singleton, hv, hd.2]
        omega
      · intro c hc
        rcases List.mem_append.1 hc with hc | hc
        · exact hdig c hc
        · rw [List.mem_singleton] at hc
          rw [hc]
          exact hd.1

/-- The decimal form of a natural number: non-empty, decimal digits only, and
denoting the number. -/
theorem repr_decimal (n : Nat) :
    decimalValue (Nat.repr n).data = n ∧ (∀ c ∈ (Nat.repr n).data, c.isDigit = true) ∧
      (Nat.repr n).data ≠ [] := by
  obtain ⟨l, hl, hv, hdig, hne⟩ := toDigitsCore_decimal (n + 1) n [] (by omega)
  have : (Nat.repr n).data = l := by
    simp [Nat.repr, Nat.toDigits, hl, List.asString]
  rw [this]
  exact ⟨hv, hdig, hne⟩

/-- The text `%d` prints determines the integer. -/
theorem formatInt_injective (a b : Int) (h : formatInt a = formatInt b) : a = b := by
  have hdata := congrArg String.data h
  cases a with
  | ofNat m =>
    cases b with
    | ofNat k =>
      have : m = k := by
        rw [← (repr_decimal m).1, ← (repr_decimal k).1]
        exact congrArg decimalValue hdata
      rw [this]
    | negSucc k =>
      exfalso
      simp only [formatInt, String.data_append] at hdata
      have hmem : '-' ∈ (Nat.repr m).data := by
        rw [hdata]
        exact List.mem_cons_self _ _
      exact absurd ((repr_decimal m).2.1 _ hmem) (by decide)
  | negSucc m =>
    cases b with
    | ofNat k =>
      exfalso
      simp only [formatInt, String.data_append] at hdata
      have hmem : '-' ∈ (Nat.repr k).data := by
        rw [← hdata]
        exact List.mem_cons_self _ _
      exact absurd ((repr_decimal k).2.1 _ hmem) (by decide)
    | negSucc k =>
      simp only [formatInt, String.data_append] at hdata
      have hl : (Nat.repr (m + 1)).data = (Nat.repr (k + 1)).data := by
        simpa using hdata
      have : m + 1 = k + 1 := by
        rw [← (repr_decimal (m + 1)).1, ← (repr_decimal (k + 1)).1, hl]
      have : m = k := by omega
      rw [this]

/-- The text `%d` prints holds no underscore. -/
theorem formatInt_no_underscore (a : Int) : '_' ∉ (formatInt a).data := by
  intro hmem
  cases a with
  | ofNat m => exact absurd ((repr_decimal m).2.1 _ hmem) (by decide)
  | negSucc m =>
    simp only [formatInt, String.data_append] at hmem
    rcases List.mem_append.1 hmem with h | h
    · exact absurd h (by decide)
    · exact absurd ((repr_decimal (m + 1)).2.1 _ h) (by decide)

/-- Two lists cut at the first occurrence of a separator have the same part
before it. -/
theorem eq_of_append_sep {α : Type} (a : α) : ∀ (l1 l2 r1 r2 : List α),
    a ∉ l1 → a ∉ l2 → l1 ++ a :: r1 = l2 ++ a :: r2 → l1 = l2 := by
  intro l1
  induction l1 with
  | nil =>
    intro l2 r1 r2 _ h2 h
    cases l2 with
    | nil => rfl
    | cons b l2 =>
      exfalso
      simp only [List.nil_append, List.cons_append, List.cons.injEq] at h
      exact h2 (h.1 ▸ List.mem_cons_self _ _)
  | cons b l1 ih =>
    intro l2 r1 r2 h1 h2 h
    cases l2 with
    | nil =>
      exfalso
      simp only [List.nil_append, List.cons_append, List.cons.injEq] at h
      exact h1 (h.1 ▸ List.mem_cons_self _ _)
    | cons c l2 =>
      simp only [List.cons_append, List.cons.injEq] at h
      rw [h.1, ih l2 r1 r2 (fun hm => h1 (List.mem_cons_of_mem _ hm))
        (fun hm => h2 (List.mem_cons_of_mem _ hm)) h.2]

/-- The archive paths of two articles agree only if their ids agree. -/
theorem articleFilename_id (a b : Article) (h : articleFilename a = articleFilename b) :
    a.ID = b.ID := by
  apply formatInt_injective
  have hdata := congrArg String.data h
  unfold articleFilename at hdata
  have hu : "_".data = ['_'] := rfl
  simp only [String.data_append, List.append_assoc, hu, List.singleton_append] at hdata
  have hrest := List.append_cancel_left hdata
  exact String.ext (eq_of_append_sep '_' _ _ _ _ (formatInt_no_underscore a.ID)
    (formatInt_no_underscore b.ID) hrest)

/-- C25: for any two articles with different integer ids and arbitrary titles,
the entry names "articles/<id>_<sanitizeFilename(title)>.json" that BackupAll
builds are different; hence the entry names of a list of articles with pairwise
different ids are pairwise different. -/
theorem articleFilename_distinct (a b : Article) (articles : Slice Article)
    (hid : a.ID ≠ b.ID) (hids : (articles.map (fun x => x.ID)).Nodup) :
    articleFilename a ≠ articleFilename b ∧ (articles.map articleFilename).Nodup := by
  constructor
  · intro h
    exact hid (articleFilename_id a b h)
  · have hnd : articles.Nodup := List.Nodup.of_map _ hids
    refine List.Nodup.map_on ?_ hnd
    intro x hx y hy hxy
    have hinj := List.inj_on_of_nodup_map hids hx hy (articleFilename_id x y hxy)
    exact hinj

/-- C25, witness: the articles 1 and 2 of the test fixture, whose titles are
sanitized to underscores and digits, and two articles whose titles are
sanitized to the same text. -/
theorem articleFilename_distinct_witness :
    (articleFilename { fixtureArticle1 with ID := 1, Title := "1_x" } = "articles/1_1_x.json" ∧
      articleFilename { fixtureArticle1 with ID := 11, Title := "x" } = "articles/11_x.json" ∧
      sanitizeFilename "a/b" = sanitizeFilename "a:b") ∧
    (articleFilename { fixtureArticle1 with ID := 1, Title := "1_x" }
        ≠ articleFilename { fixtureArticle1 with ID := 11, Title := "x" } ∧
      ([({ fixtureArticle1 with Title := "a/b" } : Article),
        { fixtureArticle2 with Title := "a:b" }].map articleFilename).Nodup) :=
  ⟨by decide,
   articleFilename_distinct { fixtureArticle1 with ID := 1, Title := "1_x" }
    { fixtureArticle1 with ID := 11, Title := "x" }
    [{ fixtureArticle1 with Title := "a/b" }, { fixtureArticle2 with Title := "a:b" }]
    (by decide) (by decide)⟩

/-! ## the pages of a listing -/

/-- The articles of one page of `List` on a working store, when the offset does
not wrap around. -/
theorem List_page_articles (params : QueryParams) (db : Store) (hdb : db.failure = none)
    (page : Int) (hpage : 1 ≤ page) (hlimit : 1 ≤ params.Limit)
    (hfit : (page - 1) * params.Limit < 2 ^ 63) :
    articlesOf (repository.ArticleRepository.List { params with Page := page } db) =
      (((filteredRows (matchesFilter params) db).drop ((page - 1) * params.Limit).toNat).take
        params.Limit.toNat).map (domainOf db) := by
  have h0 : 0 ≤ (page - 1) * params.Limit := Int.mul_nonneg (by omega) (by omega)
  have hpl : ({ params with Page := page } : QueryParams).Page > 0
      ∧ ({ params with Page := page } : QueryParams).Limit > 0 := ⟨by show page > 0; omega,
        by show params.Limit > 0; omega⟩
  rw [List_closed _ db hdb, if_pos hpl]
  show (pageOf (filteredRows (matchesFilter params) db)
    (wrapInt64 ((page - 1) * params.Limit)).toNat params.Limit.toNat).map (domainOf db) = _
  rw [wrapInt64_of_fits _ h0 hfit]
  rfl

/-- The first `n` pages of `List`, one after the other, are the first
`n * limit` articles of the filtered result. -/
theorem List_pages_take (params : QueryParams) (db : Store) (hdb : db.failure = none)
    (hlimit : 1 ≤ params.Limit) : ∀ n : Nat,
    (∀ i : Nat, i < n → (i : Int) * params.Limit < 2 ^ 63) →
    (List.range n).flatMap (fun i =>
        articlesOf (repository.ArticleRepository.List { params with Page := (i : Int) + 1 } db))
      = ((filteredRows (matchesFilter params) db).take (n * params.Limit.toNat)).map
          (domainOf db) := by
  intro n
  induction n with
  | zero => intro _; simp
  | succ n ih =>
    intro hfit
    have hk : ((params.Limit.toNat : Nat) : Int) = params.Limit := Int.toNat_of_nonneg (by omega)
    have hoff : (((n : Int) + 1 - 1) * params.Limit).toNat = n * params.Limit.toNat := by
      have : ((n : Int) + 1 - 1) * params.Limit = ((n * params.Limit.toNat : Nat) : Int) := by
        rw [Nat.cast_mul, hk]
        ring
      rw [this, Int.toNat_ofNat]
    rw [List.range_succ, List.flatMap_append, List.flatMap_singleton,
      ih (fun i hi => hfit i (by omega)),
      List_page_articles params db hdb ((n : Int) + 1) (by omega) hlimit
        (by have := hfit n (by omega); simpa using this),
      hoff, ← List.map_append, Nat.succ_mul, List.take_add]

/-- C26 (as amended): on a working store of fewer than 2^63 articles, for every
filter and every limit >= 1, the pages List returns for page = 1, 2, ...,
ceil(total/limit), one after the other, are exactly the unpaginated result in
the same order, so that every matching article is on exactly one page; and a
page beyond ceil(total/limit) is empty as long as its offset (page-1)*limit is
below 2^63. -/
theorem List_pages_concat (params : QueryParams) (db : Store) (hdb : db.failure = none)
    (hlimit : 1 ≤ params.Limit) (hsize : (db.articles.length : Int) < 2 ^ 63) :
    (List.range (((db.articles.filter (matchesFilter params)).length + params.Limit.toNat - 1)
        / params.Limit.toNat)).flatMap (fun i =>
        articlesOf (repository.ArticleRepository.List { params with Page := (i : Int) + 1 } db))
      = articlesOf (repository.ArticleRepository.List { params with Page := 0 } db) ∧
    articlesOf (repository.ArticleRepository.List { params with Page := 0 } db)
      = (sortDescCreatedAt (db.articles.filter (matchesFilter params))).map (domainOf db) ∧
    ∀ page : Int,
      ((((db.articles.filter (matchesFilter params)).length + params.Limit.toNat - 1)
        / params.Limit.toNat : Nat) : Int) < page →
      (page - 1) * params.Limit < 2 ^ 63 →
      articlesOf (repository.ArticleRepository.List { params with Page := page } db) = [] := by
  have hk : ((params.Limit.toNat : Nat) : Int) = params.Limit := Int.toNat_of_nonneg (by omega)
  have hk1 : 1 ≤ params.Limit.toNat := by omega
  have htotal : (filteredRows (matchesFilter params) db).length
      = (db.articles.filter (matchesFilter params)).length := by
    rw [filteredRows, length_sortDescCreatedAt]
  have hle : (db.articles.filter (matchesFilter params)).length ≤ db.articles.length :=
    List.length_filter_le _ _
  generalize hn : ((db.articles.filter (matchesFilter params)).length + params.Limit.toNat - 1)
    / params.Limit.toNat = n
  have hn1 : n * params.Limit.toNat
      ≤ (db.articles.filter (matchesFilter params)).length + params.Limit.toNat - 1 := by
    rw [← hn]
    exact Nat.div_mul_le_self _ _
  have hn2 : (db.articles.filter (matchesFilter params)).length + params.Limit.toNat - 1
      < n * params.Limit.toNat + params.Limit.toNat := by
    rw [← Nat.succ_mul, ← Nat.div_lt_iff_lt_mul (by omega), hn]
    exact Nat.lt_succ_self n
  have hall : (filteredRows (matchesFilter params) db).length ≤ n * params.Limit.toNat := by
    omega
  have hunpaged : articlesOf (repository.ArticleRepository.List { params with Page := 0 } db)
      = (filteredRows (matchesFilter params) db).map (domainOf db) := by
    have hnp : ¬ (({ params with Page := 0 } : QueryParams).Page > 0
        ∧ ({ params with Page := 0 } : QueryParams).Limit > 0) := by
      intro h
      have h1 : (0 : Int) > 0 := h.1
      omega
    rw [List_closed _ db hdb, if_neg hnp]
    rfl
  refine ⟨?_, hunpaged, ?_⟩
  · rw [List_pages_take params db hdb hlimit n ?_, hunpaged, List.take_of_length_le hall]
    intro i hi
    have h1 : (i + 1) * params.Limit.toNat ≤ n * params.Limit.toNat :=
      Nat.mul_le_mul_right _ (by omega)
    rw [Nat.succ_mul] at h1
    have h2 : ((i * params.Limit.toNat : Nat) : Int) = (i : Int) * params.Limit := by
      rw [Nat.cast_mul, hk]
    rw [← h2]
    omega
  · intro page hpage hfit
    rw [List_page_articles params db hdb page (by omega) hlimit hfit]
    have h0 : 0 ≤ (page - 1) * params.Limit := Int.mul_nonneg (by omega) (by omega)
    have h1 : (n : Int) * params.Limit ≤ (page - 1) * params.Limit :=
      Int.mul_le_mul_of_nonneg_right (by omega) (by omega)
    have h2 : ((n * params.Limit.toNat : Nat) : Int) = (n : Int) * params.Limit := by
      rw [Nat.cast_mul, hk]
    have h3 : (filteredRows (matchesFilter params) db).length
        ≤ ((page - 1) * params.Limit).toNat := by
      omega
    rw [List.drop_eq_nil_of_le h3]
    simp

/-- C26, witness: the store of two articles in pages of one article; the two
pages, one after the other, are the unpaginated result, and page 3 is empty. -/
theorem List_pages_concat_witness :
    (smallStore.failure = none ∧ (smallStore.articles.length : Int) < 2 ^ 63 ∧
      ((smallStore.articles.filter (matchesFilter
        { Page := 1, Limit := 1, Published := none, Search := "" })).length
          + (1 : Int).toNat - 1) / (1 : Int).toNat = 2 ∧
      articlesOf (repository.ArticleRepository.List
        { Page := 1, Limit := 1, Published := none, Search := "" } smallStore)
          = (smallStore.articles.drop 1).map (domainOf smallStore) ∧
      articlesOf (repository.ArticleRepository.List
        { Page := 2, Limit := 1, Published := none, Search := "" } smallStore)
          = (smallStore.articles.take 1).map (domainOf smallStore) ∧
      articlesOf (repository.ArticleRepository.List
        { Page := 0, Limit := 1, Published := none, Search := "" } smallStore)
          = smallStore.articles.reverse.map (domainOf smallStore)) ∧
    articlesOf (repository.ArticleRepository.List
        { Page := 3, Limit := 1, Published := none, Search := "" } smallStore) = [] :=
  ⟨by decide,
   (List_pages_concat { Page := 1, Limit := 1, Published := none, Search := "" } smallStore
      rfl (by decide) (by decide)).2.2 3 (by decide) (by decide)⟩

/-- C26, counterexample: the request `?page=4611686018427387905&limit=4` on the
store of two articles. The filtered result has total 2, so ceil(total/limit) is
1 and the page lies far beyond it; its offset (page-1)*limit = 2^64 wraps to 0
and List returns both articles. -/
theorem List_far_page_nonempty :
    ArticleHandler.parseQueryParams (queryContext "4611686018427387905" "4" "" "")
      = { Page := 4611686018427387905, Limit := 4, Published := none, Search := "" } ∧
    ((smallStore.articles.filter (matchesFilter
        { Page := 4611686018427387905, Limit := 4, Published := none, Search := "" })).length
          + 4 - 1) / 4 = 1 ∧
    articlesOf (repository.ArticleRepository.List
        { Page := 4611686018427387905, Limit := 4, Published := none, Search := "" } smallStore)
      = smallStore.articles.reverse.map (domainOf smallStore) ∧
    articlesOf (repository.ArticleRepository.List
        { Page := 4611686018427387905, Limit := 4, Published := none, Search := "" } smallStore)
      ≠ [] := by
  refine ⟨by decide, by decide, by decide, by decide⟩

/-! ## Update of an article -/

/-- The entity `Save` returns has the id of the builder, the store it leaves is
the store with the mutation applied to the rows of that id, and the references
of the mutation are stored. -/
theorem Save_ok_inv (u : ent.ArticleUpdateOne) (now : Time) (db db1 : Store) (e : ent.Article)
    (h : u.Save now db = (.ok e, db1)) :
    e.ID = u.id ∧
    db1 = { db with
      articles := db.articles.map (fun x => if x.ID = u.id then u.mutate now x else x) } ∧
    (∀ id, u.categoryID = some id → ∃ c ∈ db.categories, c.ID = id) ∧
    (∀ i ∈ u.addTagIDs, ∃ t ∈ db.tags, t.ID = i) := by
  unfold ent.ArticleUpdateOne.Save at h
  split at h
  · simp at h
  · split at h
    · simp at h
    · split at h
      · simp at h
      · rename_i r hfind
        split at h
        · rename_i hc
          simp only [Prod.mk.injEq, Except.ok.injEq] at h
          obtain ⟨he, hdb⟩ := h
          have hid : r.ID = u.id := by
            have := List.find?_some hfind
            simpa using this
          simp only [Bool.and_eq_true, List.all_eq_true, List.any_eq_true, beq_iff_eq] at hc
          refine ⟨?_, hdb.symm, ?_, ?_⟩
          · rw [← he]
            exact hid
          · intro id hcat
            have h1 := hc.1
            rw [hcat] at h1
            simpa using h1
          · intro i hi
            exact hc.2 i hi
        · simp at h

/-- A lookup by id that succeeds leaves the store as it is and returns the one
row of that id, with its edges. -/
theorem ArticleRepository_GetByID_ok_inv (id : Int) (db db1 : Store) (a : Article)
    (h : repository.ArticleRepository.GetByID id db = (.ok a, db1)) :
    db1 = db ∧ ∃ r, db.articles.filter (fun r => r.ID == id) = [r] ∧ a = domainOf db r := by
  unfold repository.ArticleRepository.GetByID ent.ArticleOnly at h
  cases hf : db.failure with
  | some err => simp [hf, ent.IsNotFound] at h
  | none =>
    cases hl : db.articles.filter (fun r => r.ID == id) with
    | nil => simp [hf, hl, ent.IsNotFound] at h
    | cons r rs =>
      cases rs with
      | nil =>
        simp only [hf, hl, Prod.mk.injEq, Except.ok.injEq] at h
        exact ⟨h.2.symm, r, rfl, h.1.symm⟩
      | cons r2 rs => simp [hf, hl, ent.IsNotFound] at h

/-- The rows of an id after a mutation of the rows of that id are the mutated
rows of that id. -/
theorem filter_map_mutate (f : ArticleRow → ArticleRow) (id : Int)
    (hf : ∀ x, (f x).ID = x.ID) (rows : List ArticleRow) :
    (rows.map (fun x => if x.ID = id then f x else x)).filter (fun r => r.ID == id)
      = (rows.filter (fun r => r.ID == id)).map f := by
  induction rows with
  | nil => rfl
  | cons x xs ih =>
    by_cases hx : x.ID = id
    · have h1 : ((f x).ID == id) = true := by simp [hf, hx]
      have h2 : (x.ID == id) = true := by simp [hx]
      simp only [List.map_cons, if_pos hx, List.filter_cons, h1, h2, if_true, ih]
    · have h2 : (x.ID == id) = false := by simp [hx]
      simp only [List.map_cons, if_neg hx, List.filter_cons, h2, ih]
      simp

/-- The first mutation of `Update`: what its builder has recorded, and `Update`
in terms of it. -/
theorem Update_builder (id : Int) (article : Article) :
    ∃ u : ent.ArticleUpdateOne,
      (u.id = id ∧ u.title = some article.Title ∧ u.content = some article.Content ∧
        u.published = some article.Published ∧
        u.summary = (if article.Summary ≠ "" then some article.Summary else none) ∧
        u.categoryID = article.Category.map (fun c => c.ID) ∧
        u.clearCategory = article.Category.isNone ∧ u.clearTags = true ∧ u.addTagIDs = []) ∧
      ∀ (now later : Time) (db : Store),
        repository.ArticleRepository.Update now later id article db =
          match u.Save now db with
          | (.error err, db) =>
            if ent.IsNotFound err then (.error .ErrNotFound, db)
            else (.error err.toError, db)
          | (.ok entArticle, db) =>
            if article.Tags.length > 0 then
              match ((ent.ArticleUpdateOne.new entArticle.ID).AddTagIDs
                  (article.Tags.map (fun tag => tag.ID))).Save later db with
              | (.error err, db) => (.error err.toError, db)
              | (.ok _, db) => repository.ArticleRepository.GetByID entArticle.ID db
            else repository.ArticleRepository.GetByID entArticle.ID db := by
  refine ⟨((match article.Category with
      | some category =>
        (if article.Summary ≠ "" then
          ((((ent.ArticleUpdateOne.new id).SetTitle article.Title).SetContent
            article.Content).SetPublished article.Published).SetSummary article.Summary
         else (((ent.ArticleUpdateOne.new id).SetTitle article.Title).SetContent
            article.Content).SetPublished article.Published).SetCategoryID category.ID
      | none =>
        (if article.Summary ≠ "" then
          ((((ent.ArticleUpdateOne.new id).SetTitle article.Title).SetContent
            article.Content).SetPublished article.Published).SetSummary article.Summary
         else (((ent.ArticleUpdateOne.new id).SetTitle article.Title).SetContent
            article.Content).SetPublished article.Published).ClearCategory).ClearTags), ?_,
    fun _ _ _ => rfl⟩
  cases article.Category <;> by_cases hs : article.Summary = "" <;>
    simp [hs, ent.ArticleUpdateOne.new, ent.ArticleUpdateOne.SetTitle,
      ent.ArticleUpdateOne.SetContent, ent.ArticleUpdateOne.SetPublished,
      ent.ArticleUpdateOne.SetSummary, ent.ArticleUpdateOne.SetCategoryID,
      ent.ArticleUpdateOne.ClearCategory, ent.ArticleUpdateOne.ClearTags]

/-- The fields of a row after the first mutation of `Update`. -/
theorem mutate_first (u : ent.ArticleUpdateOne) (article : Article) (now : Time)
    (x : ArticleRow)
    (hu : u.title = some article.Title ∧ u.content = some article.Content ∧
        u.published = some article.Published ∧
        u.summary = (if article.Summary ≠ "" then some article.Summary else none) ∧
        u.categoryID = article.Category.map (fun c => c.ID) ∧
        u.clearCategory = article.Category.isNone ∧ u.clearTags = true ∧ u.addTagIDs = []) :
    (u.mutate now x).ID = x.ID ∧ (u.mutate now x).Title = article.Title ∧
    (u.mutate now x).Content = article.Content ∧
    (u.mutate now x).Published = article.Published ∧
    (u.mutate now x).Summary = (if article.Summary ≠ "" then article.Summary else x.Summary) ∧
    (u.mutate now x).CategoryID = article.Category.map (fun c => c.ID) ∧
    (u.mutate now x).TagIDs = [] := by
  obtain ⟨htitle, hcontent, hpub, hsum, hcat, hclear, hct, hadd⟩ := hu
  unfold ent.ArticleUpdateOne.mutate
  refine ⟨rfl, ?_, ?_, ?_, ?_, ?_, ?_⟩
  · simp [htitle]
  · simp [hcontent]
  · simp [hpub]
  · by_cases hs : article.Summary = "" <;> simp [hsum, hs]
  · cases hc : article.Category <;> simp [hcat, hclear, hc]
  · simp [hct, hadd]

/-- The fields of a row after the second mutation of `Update`, which adds
tags. -/
theorem mutate_second (eid : Int) (ids : Slice Int) (later : Time) (y : ArticleRow) :
    (((ent.ArticleUpdateOne.new eid).AddTagIDs ids).mutate later y).ID = y.ID ∧
    (((ent.ArticleUpdateOne.new eid).AddTagIDs ids).mutate later y).Title = y.Title ∧
    (((ent.ArticleUpdateOne.new eid).AddTagIDs ids).mutate later y).Content = y.Content ∧
    (((ent.ArticleUpdateOne.new eid).AddTagIDs ids).mutate later y).Published = y.Published ∧
    (((ent.ArticleUpdateOne.new eid).AddTagIDs ids).mutate later y).Summary = y.Summary ∧
    (((ent.ArticleUpdateOne.new eid).AddTagIDs ids).mutate later y).CategoryID = y.CategoryID ∧
    (∀ i, i ∈ (((ent.ArticleUpdateOne.new eid).AddTagIDs ids).mutate later y).TagIDs
      ↔ i ∈ y.TagIDs ∨ i ∈ ids) := by
  refine ⟨rfl, rfl, rfl, rfl, rfl, rfl, ?_⟩
  intro i
  simp only [ent.ArticleUpdateOne.mutate, ent.ArticleUpdateOne.new,
    ent.ArticleUpdateOne.AddTagIDs, List.nil_append, Bool.false_eq_true, if_false,
    List.mem_append, List.mem_filter, List.mem_dedup, Bool.not_eq_true',
    List.contains_eq_any_beq, List.any_eq_false, beq_iff_eq]
  constructor
  · rintro (h | h)
    · exact Or.inl h
    · exact Or.inr h.1
  · rintro (h | h)
    · exact Or.inl h
    · by_cases hy : i ∈ y.TagIDs
      · exact Or.inl hy
      · right
        refine ⟨h, ?_⟩
        intro j hj hji
        apply hy
        simpa [hji] using hj

/-- A successful `Update` of the repository returns the row of the id read
back from a store that has the categories and tags it had, and in which the rows
of the id went through the mutations: title, content, published flag and
category are those of the article handed in, the tags are its tags, and the
summary is that of the article when it is not empty and the old summary
otherwise. -/
theorem Update_ok_rows (now later : Time) (id : Int) (article : Article) (db db1 : Store)
    (a : Article)
    (h : repository.ArticleRepository.Update now later id article db = (.ok a, db1)) :
    ∃ (f : ArticleRow → ArticleRow) (dbF : Store),
      dbF = { db with articles := db.articles.map (fun x => if x.ID = id then f x else x) } ∧
      repository.ArticleRepository.GetByID id dbF = (.ok a, db1) ∧
      (∀ c, article.Category = some c → ∃ e ∈ db.categories, e.ID = c.ID) ∧
      (∀ i ∈ article.Tags.map (fun t => t.ID), ∃ t ∈ db.tags, t.ID = i) ∧
      ∀ x, (f x).ID = x.ID ∧ (f x).Title = article.Title ∧ (f x).Content = article.Content ∧
        (f x).Published = article.Published ∧
        (f x).Summary = (if article.Summary ≠ "" then article.Summary else x.Summary) ∧
        (f x).CategoryID = article.Category.map (fun c => c.ID) ∧
        (∀ i, i ∈ (f x).TagIDs ↔ i ∈ article.Tags.map (fun t => t.ID)) := by
  obtain ⟨u, hu, hU⟩ := Update_builder id article
  rw [hU] at h
  have hid := hu.1
  have hfields := fun x => mutate_first u article now x hu.2
  cases hs1 : u.Save now db with
  | mk res1 dbA =>
    cases res1 with
    | error err =>
      exfalso
      simp only [hs1] at h
      split at h <;> simp at h
    | ok e =>
      obtain ⟨heid, hdbA, hcatex, -⟩ := Save_ok_inv u now db dbA e hs1
      rw [hid] at heid hdbA
      have hcats : ∀ c, article.Category = some c → ∃ e ∈ db.categories, e.ID = c.ID := by
        intro c hc
        apply hcatex
        rw [hu.2.2.2.2.2.1, hc]
        rfl
      simp only [hs1, heid] at h
      by_cases htags : article.Tags.length > 0
      · rw [if_pos htags] at h
        cases hs2 : ((ent.ArticleUpdateOne.new id).AddTagIDs
            (article.Tags.map (fun tag => tag.ID))).Save later dbA with
        | mk res2 dbB =>
          cases res2 with
          | error err =>
            exfalso
            simp [hs2] at h
          | ok e2 =>
            obtain ⟨-, hdbB, -, htagex⟩ := Save_ok_inv _ later dbA dbB e2 hs2
            simp only [hs2] at h
            have hm2 := mutate_second id (article.Tags.map (fun tag => tag.ID)) later
            refine ⟨fun x => ((ent.ArticleUpdateOne.new id).AddTagIDs
              (article.Tags.map (fun tag => tag.ID))).mutate later (u.mutate now x), dbB,
              ?_, h, hcats, ?_, ?_⟩
            · rw [hdbB, hdbA]
              simp only [List.map_map]
              congr 1
              apply List.map_congr_left
              intro x _
              by_cases hx : x.ID = id
              · have hmid : (u.mutate now x).ID = id := by rw [(hfields x).1, hx]
                simp [ent.ArticleUpdateOne.new, ent.ArticleUpdateOne.AddTagIDs, hx, hmid]
              · simp only [Function.comp, if_neg hx]
                simp [ent.ArticleUpdateOne.new, ent.ArticleUpdateOne.AddTagIDs, hx]
            · intro i hi
              have := htagex i (by simpa [ent.ArticleUpdateOne.new,
                ent.ArticleUpdateOne.AddTagIDs] using hi)
              rw [hdbA] at this
              exact this
            · intro x
              obtain ⟨h1, h2, h3, h4, h5, h6, h7⟩ := hfields x
              obtain ⟨g1, g2, g3, g4, g5, g6, g7⟩ := hm2 (u.mutate now x)
              refine ⟨by rw [g1, h1], by rw [g2, h2], by rw [g3, h3], by rw [g4, h4],
                by rw [g5, h5], by rw [g6, h6], ?_⟩
              intro i
              rw [g7, h7]
              simp
      · rw [if_neg htags] at h
        have hnil : article.Tags = [] := by
          cases hT : article.Tags with
          | nil => rfl
          | cons t ts => rw [hT] at htags; simp at htags
        refine ⟨fun x => u.mutate now x, dbA, hdbA, h, hcats, ?_, ?_⟩
        · intro i hi
          rw [hnil] at hi
          simp at hi
        · intro x
          obtain ⟨h1, h2, h3, h4, h5, h6, h7⟩ := hfields x
          refine ⟨h1, h2, h3, h4, h5, h6, ?_⟩
          intro i
          rw [h7, hnil]
          simp

/-- The article a successful `Update` of the repository returns is the stored
article read back; its title, content, published flag, category and tags are
those of the article handed in, and its summary is that of the article handed
in when that is not empty, and the summary stored before otherwise. -/
theorem Update_ok_fields (now later : Time) (id : Int) (article : Article) (db db1 : Store)
    (a : Article)
    (h : repository.ArticleRepository.Update now later id article db = (.ok a, db1)) :
    repository.ArticleRepository.GetByID id db1 = (.ok a, db1) ∧
    a.ID = id ∧ a.Title = article.Title ∧ a.Content = article.Content ∧
    a.Published = article.Published ∧
    (article.Summary ≠ "" → a.Summary = article.Summary) ∧
    (article.Summary = "" → ∃ x ∈ db.articles, x.ID = id ∧ a.Summary = x.Summary) ∧
    a.Category.map (fun c => c.ID) = article.Category.map (fun c => c.ID) ∧
    (∀ i, i ∈ a.Tags.map (fun t => t.ID) ↔ i ∈ article.Tags.map (fun t => t.ID)) := by
  obtain ⟨f, dbF, hdbF, hget, hcats, htags, hf⟩ := Update_ok_rows now later id article db db1 a h
  obtain ⟨hdb1, r, hfilter, ha⟩ := ArticleRepository_GetByID_ok_inv id dbF db1 a hget
  have hrows : dbF.articles = db.articles.map (fun x => if x.ID = id then f x else x) := by
    rw [hdbF]
  rw [hrows, filter_map_mutate f id (fun x => (hf x).1)] at hfilter
  obtain ⟨x, hx, hr⟩ : ∃ x, db.articles.filter (fun r => r.ID == id) = [x] ∧ f x = r := by
    cases hl : db.articles.filter (fun r => r.ID == id) with
    | nil => rw [hl] at hfilter; simp at hfilter
    | cons y ys =>
      rw [hl] at hfilter
      cases ys with
      | nil => exact ⟨y, rfl, by simpa using hfilter⟩
      | cons z zs => simp at hfilter
  have hxmem : x ∈ db.articles.filter (fun r => r.ID == id) := by
    rw [hx]
    exact List.mem_singleton_self x
  have hxin : x ∈ db.articles := (List.mem_filter.1 hxmem).1
  have hxid : x.ID = id := by simpa using (List.mem_filter.1 hxmem).2
  obtain ⟨f1, f2, f3, f4, f5, f6, f7⟩ := hf x
  rw [hr] at f1 f2 f3 f4 f5 f6 f7
  have hcatsF : dbF.categories = db.categories := by rw [hdbF]
  have htagsF : dbF.tags = db.tags := by rw [hdbF]
  refine ⟨by rw [hdb1] at hget ⊢; exact hget, ?_, ?_, ?_, ?_, ?_, ?_, ?_, ?_⟩
  · rw [ha]
    show r.ID = id
    rw [f1, hxid]
  · rw [ha]
    exact f2
  · rw [ha]
    exact f3
  · rw [ha]
    exact f4
  · intro hs
    rw [ha]
    show r.Summary = article.Summary
    rw [f5, if_pos hs]
  · intro hs
    refine ⟨x, hxin, hxid, ?_⟩
    rw [ha]
    show r.Summary = x.Summary
    rw [f5, if_neg (by simpa using hs)]
  · rw [ha]
    cases hc : article.Category with
    | none =>
      rw [hc] at f6
      simp [domainOf, repository.ArticleRepository.entToDomain, loadEdges, f6]
    | some c =>
      rw [hc] at f6
      obtain ⟨e, he, heid⟩ := hcats c hc
      cases hfind : db.categories.find? (fun k => k.ID == c.ID) with
      | none =>
        exfalso
        have := List.find?_eq_none.1 hfind e he
        simp [heid] at this
      | some k =>
        have hk : k.ID = c.ID := by simpa using List.find?_some hfind
        simp [domainOf, repository.ArticleRepository.entToDomain, loadEdges, f6, hcatsF,
          hfind, hk]
  · intro i
    rw [ha]
    simp only [domainOf, repository.ArticleRepository.entToDomain, loadEdges, htagsF,
      List.map_map, List.mem_map, List.mem_filter, Function.comp]
    constructor
    · rintro ⟨t, ⟨-, ht⟩, rfl⟩
      have ht2 : t.ID ∈ r.TagIDs := by simpa using ht
      have := (f7 t.ID).1 ht2
      simpa using this
    · intro hi
      have hi : i ∈ article.Tags.map (fun t => t.ID) := List.mem_map.2 hi
      obtain ⟨t, ht, hti⟩ := htags i hi
      refine ⟨t, ⟨ht, ?_⟩, hti⟩
      have : t.ID ∈ r.TagIDs := by
        rw [hti]
        exact (f7 i).2 hi
      simpa using this

/-- A lookup of an article by id that succeeds ran on a working store. -/
theorem ArticleRepository_GetByID_ok_working (id : Int) (db db1 : Store) (a : Article)
    (h : repository.ArticleRepository.GetByID id db = (.ok a, db1)) : db.failure = none := by
  cases hf : db.failure with
  | none => rfl
  | some err =>
    exfalso
    simp [repository.ArticleRepository.GetByID, ent.ArticleOnly, hf, ent.IsNotFound] at h

/-- A lookup of a category by id that succeeds leaves the store as it is and
returns a category of that id. -/
theorem CategoryRepository_GetByID_ok_inv (id : Int) (db db1 : Store) (c : Category)
    (h : repository.CategoryRepository.GetByID id db = (.ok c, db1)) :
    db1 = db ∧ c.ID = id := by
  unfold repository.CategoryRepository.GetByID ent.CategoryOnly at h
  cases hf : db.failure with
  | some err => simp [hf, ent.IsNotFound] at h
  | none =>
    cases hl : db.categories.filter (fun c => c.ID == id) with
    | nil => simp [hf, hl, ent.IsNotFound] at h
    | cons r rs =>
      cases rs with
      | nil =>
        simp only [hf, hl, Prod.mk.injEq, Except.ok.injEq] at h
        have hr : r ∈ db.categories.filter (fun c => c.ID == id) := by
          rw [hl]
          exact List.mem_singleton_self r
        have hrid : r.ID = id := by simpa using (List.mem_filter.1 hr).2
        refine ⟨h.2.symm, ?_⟩
        rw [← h.1]
        exact hrid
      | cons r2 rs => simp [hf, hl, ent.IsNotFound] at h

/-- Update after its existence check and category step, for a request without
tag ids: the repository Update. -/
theorem Update_no_tags_step {σ : Type} (s : ArticleService σ) (id : Int)
    (req : ArticleUpdateRequest) (current : Article)
    (st0 st st1 : σ) (cat : Option Category)
    (hget : s.articleRepo.GetByID id st0 = (.ok current, st))
    (hcat : categoryResolved s req.CategoryID st st1 cat)
    (hnil : req.TagIDs = []) :
    s.Update id req st0 =
      s.articleRepo.Update id
        (articleOf req.Title req.Content req.Summary req.Published cat []) st1 := by
  have hlen : ¬ req.TagIDs.length > 0 := by rw [hnil]; simp
  unfold ArticleService.Update
  simp only [hget]
  cases hc : req.CategoryID with
  | none =>
    rw [hc] at hcat
    obtain ⟨h1, h2⟩ := hcat
    subst h1 h2
    simp only [hlen, if_false]
    rfl
  | some cid =>
    rw [hc] at hcat
    obtain ⟨category, h1, h2⟩ := hcat
    subst h2
    simp only [h1, hlen, if_false]
    rfl

/-- What the service hands to the repository when `Update` succeeds on a store
whose tags have pairwise different ids: an article with the title, content,
summary and published flag of the request, the category of the request's
category_id, and tags whose ids are the request's tag_ids. -/
theorem Update_service_step (now later : Time) (id : Int) (req : ArticleUpdateRequest)
    (db db1 : Store) (a : Article) (hnd : (db.tags.map (fun t => t.ID)).Nodup)
    (hok : (updateService now later).Update id req db = (.ok a, db1)) :
    ∃ (cat : Option Category) (tags : Slice Tag),
      cat.map (fun c => c.ID) = req.CategoryID ∧
      (∀ i, i ∈ tags.map (fun t => t.ID) ↔ i ∈ req.TagIDs) ∧
      repository.ArticleRepository.Update now later id
        (articleOf req.Title req.Content req.Summary req.Published cat tags) db
        = (.ok a, db1) := by
  have hU : (updateService now later).articleRepo.Update
      = repository.ArticleRepository.Update now later := rfl
  cases hget : repository.ArticleRepository.GetByID id db with
  | mk res dbg =>
    have hget2 : (updateService now later).articleRepo.GetByID id db = (res, dbg) := hget
    cases res with
    | error err =>
      exfalso
      unfold ArticleService.Update at hok
      simp [hget2] at hok
    | ok current =>
      have hdb := ArticleRepository_GetByID_ok_working id db dbg current hget
      obtain ⟨hdbg, -⟩ := ArticleRepository_GetByID_ok_inv id db dbg current hget
      subst hdbg
      have hres : ∃ cat : Option Category, cat.map (fun c => c.ID) = req.CategoryID ∧
          categoryResolved (updateService now later) req.CategoryID dbg dbg cat := by
        cases hc : req.CategoryID with
        | none => exact ⟨none, rfl, rfl, rfl⟩
        | some cid =>
          cases hcat : repository.CategoryRepository.GetByID cid dbg with
          | mk resc dbc =>
            have hcat2 : (updateService now later).categoryRepo.GetByID cid dbg = (resc, dbc) :=
              hcat
            cases resc with
            | error err =>
              exfalso
              unfold ArticleService.Update at hok
              simp [hget2, hc, hcat2] at hok
            | ok category =>
              obtain ⟨hdbc, hcid⟩ :=
                CategoryRepository_GetByID_ok_inv cid dbg dbc category hcat
              subst hdbc
              exact ⟨some category, by simp [hcid], category, hcat2, rfl⟩
      obtain ⟨cat, hcatid, hcatres⟩ := hres
      obtain ⟨hlook, hfaith⟩ := GetByIDs_faithful dbg req.TagIDs hdb hnd
      have hlook2 : (updateService now later).tagRepo.GetByIDs req.TagIDs dbg = _ := hlook
      by_cases hnil : req.TagIDs = []
      · rw [Update_no_tags_step _ id req current dbg dbg dbg cat hget2 hcatres hnil, hU] at hok
        refine ⟨cat, [], hcatid, ?_, hok⟩
        intro i
        rw [hnil]
        simp
      · rw [Update_tags_step _ id req current dbg dbg dbg dbg cat _ hget2 hcatres hnil hlook2,
          hU] at hok
        split at hok
        · simp at hok
        · rename_i hl
          have hl2 := (tagLookupFaithful_length _ _ _ hfaith).1 (by simpa using hl)
          refine ⟨cat, _, hcatid, ?_, hok⟩
          intro i
          rw [hfaith.2 i]
          constructor
          · exact fun h => h.1
          · exact fun h => ⟨h, hl2.2 i h⟩

/-- Every successful ArticleService.Update on the ent-backed repositories, on a
store whose tags have pairwise different ids: the article returned is the stored
article read back; its title, content, published flag, category and tag set
are those of the request; its summary is that of the request when that is not
empty, and the summary stored before otherwise. -/
theorem Update_replaces_all_but_empty_summary (now later : Time) (id : Int)
    (req : ArticleUpdateRequest) (db db1 : Store) (a : Article)
    (hnd : (db.tags.map (fun t => t.ID)).Nodup)
    (hok : (updateService now later).Update id req db = (.ok a, db1)) :
    repository.ArticleRepository.GetByID id db1 = (.ok a, db1) ∧
    a.ID = id ∧ a.Title = req.Title ∧ a.Content = req.Content ∧
    a.Published = req.Published ∧
    a.Category.map (fun c => c.ID) = req.CategoryID ∧
    (∀ i, i ∈ a.Tags.map (fun t => t.ID) ↔ i ∈ req.TagIDs) ∧
    (req.Summary ≠ "" → a.Summary = req.Summary) ∧
    (req.Summary = "" → ∃ x ∈ db.articles, x.ID = id ∧ a.Summary = x.Summary) := by
  obtain ⟨cat, tags, hcat, htags, hupd⟩ := Update_service_step now later id req db db1 a hnd hok
  obtain ⟨h0, h1, h2, h3, h4, h5, h6, h7, h8⟩ := Update_ok_fields now later id _ db db1 a hupd
  refine ⟨h0, h1, h2, h3, h4, ?_, ?_, h5, h6⟩
  · rw [h7]
    exact hcat
  · intro i
    rw [h8 i]
    exact htags i

/-- C22, at the failing input: article 1 of the store has the summary
"Go语言基础教程", category 1 and tags 1 and 2; the update request has an empty
summary, no category_id and an empty tag_ids list. Update succeeds; the article
is left without a category and without tags and with the title, content and
published flag of the request, but its summary is still "Go语言基础教程", not the
empty summary of the request. The same request with the summary "新摘要" leaves
the summary "新摘要", and with category 2 and tag 3 it leaves that category and
that tag. -/
theorem Update_keeps_summary_on_empty :
    ((updateService laterTime laterTime).Update 1
        { Title := "Go", Content := "正文", Summary := "", Published := false,
          CategoryID := none, TagIDs := [] } blogStore).1
      = .ok { ID := 1, Title := "Go", Content := "正文", Summary := "Go语言基础教程",
              Published := false, CreatedAt := fixtureTime, UpdatedAt := laterTime,
              Category := none, Tags := [] } ∧
    (((updateService laterTime laterTime).Update 1
        { Title := "Go", Content := "正文", Summary := "", Published := false,
          CategoryID := none, TagIDs := [] } blogStore).2.articles.map
        (fun r => (r.ID, r.Title, r.Summary, r.CategoryID, r.TagIDs))
      = [(1, "Go", "Go语言基础教程", none, []),
         (2, "Docker容器化部署", "Docker部署指南", some 2, [3])]) ∧
    ((updateService laterTime laterTime).Update 1
        { Title := "Go", Content := "正文", Summary := "新摘要", Published := false,
          CategoryID := none, TagIDs := [] } blogStore).1
      = .ok { ID := 1, Title := "Go", Content := "正文", Summary := "新摘要",
              Published := false, CreatedAt := fixtureTime, UpdatedAt := laterTime,
              Category := none, Tags := [] } ∧
    ((updateService laterTime laterTime).Update 1
        { Title := "Go", Content := "正文", Summary := "新摘要", Published := false,
          CategoryID := some 2, TagIDs := [3] } blogStore).1
      = .ok { ID := 1, Title := "Go", Content := "正文", Summary := "新摘要",
              Published := false, CreatedAt := fixtureTime, UpdatedAt := laterTime,
              Category := some { ID := 2, Name := "运维", Description := "",
                                 CreatedAt := fixtureTime, UpdatedAt := fixtureTime },
              Tags := [{ ID := 3, Name := "Docker", Color := "#2496ED",
                         CreatedAt := fixtureTime, UpdatedAt := fixtureTime }] } := by
  refine ⟨by decide, by decide, by decide, by decide⟩

end Goblog
